import Mathlib

/-!
# Process-launcher proxy: endpoints, socket multiplexer and packet frames

A shallow embedding of `src/libs/utils/launchersocket.cpp` (Qt Creator 7.0.0).

Modelling conventions

* `QByteArray` is a list of byte values, `QString` a `String`, C++ `int`/`qint64` an `Int`.
* The two endpoints of a pair, the notifications emitted so far, the packets
  handed to `sendPacket` so far, the forwarded sinks and the counters of posted
  drains and condition wake-ups are gathered in one `World` record; every
  operation is a function on `World`.
* Each operation runs atomically.  The `QTC_ASSERT`s on thread affinity are
  taken to hold (every operation is invoked from the context the source
  documents for it); where such an assertion also tests a back-reference for
  null (`CallerHandle::isCalledFromLaunchersThread`), the null test is kept.
* `packet.serialize()` and `LauncherPacket::extractPacket` live outside this
  file of the sources: `sendPacket` records the packet object itself, and the
  packet handlers receive the already extracted packet.
* `LauncherSocket` is a record of its member variables and of what it has
  written, posted and emitted; its map of endpoints holds the `World` of each
  registered pair.
* The packet codec is not part of the sources; its frames are modelled from
  the spec, with every choice the spec leaves open as a parameter.
-/

namespace Utils
namespace Internal

/-! ## Data model -/

abbrev QByteArray := List Nat

abbrev QString := String

/-- Values of `Utils::ProcessMode`; the enumeration is declared outside these sources and is
only stored and copied here, so it is carried as a number. -/
abbrev ProcessMode := Nat

/-- Enumeration `QProcess::ProcessError`. -/
inductive ProcessError where
  | FailedToStart
  | Crashed
  | Timedout
  | ReadError
  | WriteError
  | UnknownError
  deriving DecidableEq, Repr

/-- Enumeration `QProcess::ExitStatus`. -/
inductive ExitStatus where
  | NormalExit
  | CrashExit
  deriving DecidableEq, Repr

/-- Enumeration `QProcess::ProcessState`. -/
inductive ProcessState where
  | NotRunning
  | Starting
  | Running
  deriving DecidableEq, Repr

/-- Enumeration `QProcess::ProcessChannelMode`. -/
inductive ProcessChannelMode where
  | SeparateChannels
  | MergedChannels
  | ForwardedChannels
  | ForwardedOutputChannel
  | ForwardedErrorChannel
  deriving DecidableEq, Repr

/-- Enumeration `CallerHandle::SignalType`. -/
inductive SignalType where
  | NoSignal
  | Error
  | Started
  | ReadyRead
  | Finished
  deriving DecidableEq, Repr

/-- The four subclasses of `LauncherSignal` (its constructor is protected, so there are no
other records). -/
inductive LauncherSignal where
  | ErrorSignal (m_error : ProcessError) (m_errorString : QString)
  | StartedSignal (m_processId : Int)
  | ReadyReadSignal (m_stdOut : QByteArray) (m_stdErr : QByteArray)
  | FinishedSignal (m_exitStatus : ExitStatus) (m_exitCode : Int)
  deriving DecidableEq, Repr

/-- The kind each subclass passes to the `LauncherSignal` constructor. -/
def LauncherSignal.signalType : LauncherSignal → SignalType
  | .ErrorSignal _ _ => .Error
  | .StartedSignal _ => .Started
  | .ReadyReadSignal _ _ => .ReadyRead
  | .FinishedSignal _ _ => .Finished

/-- Embeds `ReadyReadSignal::mergeWith`: both buffers of the receiver grow by the buffers of the
new record.  It is only called on two `ReadyReadSignal`s (the casts in `appendSignal` are
guarded by the kind test); other arguments leave the receiver as it is. -/
def LauncherSignal.mergeWith : LauncherSignal → LauncherSignal → LauncherSignal
  | .ReadyReadSignal o e, .ReadyReadSignal o2 e2 => .ReadyReadSignal (o ++ o2) (e ++ e2)
  | s, _ => s

/-- Notifications a caller-side endpoint emits. -/
inductive Notification where
  | errorOccurred (error : ProcessError)
  | started
  | readyReadStandardOutput
  | readyReadStandardError
  | finished (exitCode : Int) (exitStatus : ExitStatus)
  deriving DecidableEq, Repr

/-- Fields `CallerHandle::start` copies into a `StartProcessPacket`. -/
structure StartProcessPacket where
  token : Nat
  command : QString
  arguments : List QString
  env : List QString
  workingDir : QString
  processMode : ProcessMode
  writeData : QByteArray
  channelMode : ProcessChannelMode
  standardInputFile : QString
  belowNormalPriority : Bool
  nativeArguments : QString
  lowPriority : Bool
  unixTerminalDisabled : Bool
  deriving DecidableEq, Repr

/-- Packets a caller-side endpoint hands to `sendPacket`. -/
inductive LauncherPacket where
  | StartProcessPacket (p : StartProcessPacket)
  | WritePacket (token : Nat) (inputData : QByteArray)
  | StopProcessPacket (token : Nat)
  deriving DecidableEq, Repr

structure ProcessErrorPacket where
  error : ProcessError
  errorString : QString
  deriving DecidableEq, Repr

structure ProcessStartedPacket where
  processId : Int
  deriving DecidableEq, Repr

/-- Payload of both `ReadyReadStandardOutputPacket` and `ReadyReadStandardErrorPacket`. -/
structure ReadyReadPacket where
  standardChannel : QByteArray
  deriving DecidableEq, Repr

structure ProcessFinishedPacket where
  exitStatus : ExitStatus
  exitCode : Int
  stdOut : QByteArray
  stdErr : QByteArray
  error : ProcessError
  errorString : QString
  deriving DecidableEq, Repr

/-- Member variables of `CallerHandle`.  `m_launcherHandle` records whether the back-reference
to the launcher-side endpoint is non-null; `m_environment` is kept as its string list. -/
structure CallerHandle where
  m_token : Nat
  m_processMode : ProcessMode
  m_launcherHandle : Bool
  m_signals : List LauncherSignal
  m_processState : ProcessState
  m_error : ProcessError
  m_errorString : QString
  m_exitCode : Int
  m_exitStatus : ExitStatus
  m_processId : Int
  m_stdout : QByteArray
  m_stderr : QByteArray
  m_command : QString
  m_arguments : List QString
  m_writeData : QByteArray
  m_environment : List QString
  m_workingDirectory : QString
  m_channelMode : ProcessChannelMode
  m_standardInputFile : QString
  m_belowNormalPriority : Bool
  m_nativeArguments : QString
  m_lowPriority : Bool
  m_unixTerminalDisabled : Bool
  m_startPacket : Option StartProcessPacket
  deriving DecidableEq, Repr

/-- Member variables of `LauncherHandle`.  `m_callerHandle` records whether the
back-reference to the caller-side endpoint is non-null. -/
structure LauncherHandle where
  m_token : Nat
  m_callerHandle : Bool
  m_waitingFor : SignalType
  m_awaitingShouldContinue : Bool
  m_socketError : Bool
  deriving DecidableEq, Repr

/-- One endpoint pair together with everything its operations act on: `isReady` is the value
of `LauncherInterface::isReady()`, `emitted` the notifications emitted so far (oldest first),
`sent` the packets handed to `sendPacket` so far (oldest first), `cout`/`cerr` the bytes written
to the forwarded sinks, `postedFlushes` the number of `CallerHandle::flush` calls queued by
`flushCaller`, `wakeUps` the number of `m_waitCondition.wakeOne()` calls. -/
structure World where
  caller : CallerHandle
  launcher : LauncherHandle
  isReady : Bool
  emitted : List Notification
  sent : List LauncherPacket
  cout : QByteArray
  cerr : QByteArray
  postedFlushes : Nat
  wakeUps : Nat
  deriving DecidableEq, Repr

/-! ## Qt container helpers -/

/-- Embeds `QList::lastIndexOf(value)`: the index of the last occurrence, `-1` when there is none. -/
def lastIndexOf {α : Type} [DecidableEq α] : List α → α → Int
  | [], _ => -1
  | x :: xs, a =>
    let r := lastIndexOf xs a
    if 0 ≤ r then r + 1 else if x = a then 0 else -1

/-- Embeds `QList::mid(pos, length)` for `0 ≤ pos` and `0 ≤ length`. -/
def mid {α : Type} (l : List α) (pos : Int) (length : Int) : List α :=
  (l.drop pos.toNat).take length.toNat

/-- Embeds `QList::mid(pos)` (all elements from `pos` on) for `0 ≤ pos`. -/
def midFrom {α : Type} (l : List α) (pos : Int) : List α :=
  l.drop pos.toNat

/-- What `std::cout << bytes.constData()` prints: the bytes before the first NUL. -/
def constData (bytes : QByteArray) : QByteArray :=
  bytes.takeWhile (fun b => b != 0)

/-! ## Caller-side endpoint -/

/-- The source's `emit`: the notification is appended to the trace. -/
def emit (w : World) (n : Notification) : World :=
  { w with emitted := w.emitted ++ [n] }

/-- Embeds `CallerHandle::sendPacket`: the packet is handed to `LauncherInterface::sendData`. -/
def CallerHandle.sendPacket (w : World) (packet : LauncherPacket) : World :=
  { w with sent := w.sent ++ [packet] }

/-- Embeds `CallerHandle::appendSignal` (called from the launcher context).  The assertion
`isCalledFromLaunchersThread()` fails when `m_launcherHandle` is null, and then nothing is
appended. -/
def CallerHandle.appendSignal (h : CallerHandle) (launcherSignal : LauncherSignal) :
    CallerHandle :=
  if launcherSignal.signalType = SignalType.NoSignal then h
  else if !h.m_launcherHandle then h
  else
    match h.m_signals.getLast? with
    | some lastSignal =>
      if launcherSignal.signalType = SignalType.ReadyRead
          ∧ lastSignal.signalType = SignalType.ReadyRead then
        { h with m_signals := h.m_signals.dropLast ++ [lastSignal.mergeWith launcherSignal] }
      else
        { h with m_signals := h.m_signals ++ [launcherSignal] }
    | none => { h with m_signals := h.m_signals ++ [launcherSignal] }

/-- Embeds `CallerHandle::handleError`. -/
def CallerHandle.handleError (w : World) (error : ProcessError) (errorString : QString) :
    World :=
  let c := { w.caller with
    m_processState := ProcessState.NotRunning
    m_error := error
    m_errorString := errorString }
  let c := if c.m_error = ProcessError.FailedToStart then { c with m_exitCode := 255 } else c
  emit { w with caller := c } (Notification.errorOccurred c.m_error)

/-- Embeds `CallerHandle::handleStarted`. -/
def CallerHandle.handleStarted (w : World) (processId : Int) : World :=
  emit { w with caller := { w.caller with
    m_processState := ProcessState.Running
    m_processId := processId } } Notification.started

/-- Embeds `CallerHandle::handleReadyRead`. -/
def CallerHandle.handleReadyRead (w : World) (stdOut stdErr : QByteArray) : World :=
  let w1 :=
    if w.caller.m_channelMode = ProcessChannelMode.ForwardedOutputChannel
        ∨ w.caller.m_channelMode = ProcessChannelMode.ForwardedChannels then
      { w with cout := w.cout ++ constData stdOut }
    else
      let w0 := { w with caller := { w.caller with m_stdout := w.caller.m_stdout ++ stdOut } }
      if !w0.caller.m_stdout.isEmpty then emit w0 Notification.readyReadStandardOutput else w0
  if w1.caller.m_channelMode = ProcessChannelMode.ForwardedErrorChannel
      ∨ w1.caller.m_channelMode = ProcessChannelMode.ForwardedChannels then
    { w1 with cerr := w1.cerr ++ constData stdErr }
  else
    let w2 := { w1 with caller := { w1.caller with m_stderr := w1.caller.m_stderr ++ stdErr } }
    if !w2.caller.m_stderr.isEmpty then emit w2 Notification.readyReadStandardError else w2

/-- Embeds `CallerHandle::handleFinished`. -/
def CallerHandle.handleFinished (w : World) (exitStatus : ExitStatus) (exitCode : Int) :
    World :=
  let c := { w.caller with
    m_processState := ProcessState.NotRunning
    m_exitStatus := exitStatus
    m_exitCode := exitCode }
  emit { w with caller := c } (Notification.finished c.m_exitCode c.m_exitStatus)

/-- Body of the `for` loop of `CallerHandle::flushFor`: the `switch` over the kind of one
taken record. -/
def CallerHandle.handleSignal (w : World) : LauncherSignal → World
  | .ErrorSignal error errorString => CallerHandle.handleError w error errorString
  | .StartedSignal processId => CallerHandle.handleStarted w processId
  | .ReadyReadSignal stdOut stdErr => CallerHandle.handleReadyRead w stdOut stdErr
  | .FinishedSignal exitStatus exitCode => CallerHandle.handleFinished w exitStatus exitCode

/-- First half of `CallerHandle::flushFor` (the block under the mutex): the records taken,
the records left in `m_signals`, and the kinds reported. -/
def CallerHandle.takeFor (m_signals : List LauncherSignal) (signalType : SignalType) :
    List LauncherSignal × List LauncherSignal × List SignalType :=
  let storedSignals := m_signals.map LauncherSignal.signalType
  let flushAll : Bool := signalType = SignalType.NoSignal
    || signalType = SignalType.ReadyRead
    || signalType = SignalType.Finished
    || storedSignals.contains SignalType.Error
  if flushAll then
    (m_signals, [], storedSignals)
  else
    let matchingIndex := lastIndexOf storedSignals signalType
    let matchingIndex :=
      if matchingIndex < 0 ∧ signalType = SignalType.ReadyRead then
        lastIndexOf storedSignals SignalType.Started
      else matchingIndex
    if 0 ≤ matchingIndex then
      (mid m_signals 0 (matchingIndex + 1), midFrom m_signals (matchingIndex + 1),
        mid storedSignals 0 (matchingIndex + 1))
    else
      ([], m_signals, [])

/-- Embeds `CallerHandle::flushFor`: returns the drained kinds and the new world. -/
def CallerHandle.flushFor (w : World) (signalType : SignalType) : List SignalType × World :=
  let taken := CallerHandle.takeFor w.caller.m_signals signalType
  let w1 := { w with caller := { w.caller with m_signals := taken.2.1 } }
  (taken.2.2, taken.1.foldl CallerHandle.handleSignal w1)

/-- Embeds `CallerHandle::flush`. -/
def CallerHandle.flush (w : World) : List SignalType × World :=
  CallerHandle.flushFor w SignalType.NoSignal

/-- Embeds `CallerHandle::shouldFlushFor`. -/
def CallerHandle.shouldFlushFor (h : CallerHandle) (signalType : SignalType) : Bool :=
  h.m_signals.any (fun storedSignal =>
    storedSignal.signalType = signalType
      || storedSignal.signalType = SignalType.Error
      || storedSignal.signalType = SignalType.Finished)

/-- Text of the error recorded by `cancel` on a process that has not started yet (the argument
of `QCoreApplication::translate`). -/
def canceledBeforeStarted : QString := "Process was canceled before it was started."

/-- Modelled from the spec: `LauncherHandle::setCanceled` is defined in the class declaration,
which is not part of these sources.  The spec describes it as setting the
"should-not-continue" flag of the wait, which `LauncherHandle::waitForSignal` reads as
`wasCanceled = !m_awaitingShouldContinue`. -/
def LauncherHandle.setCanceled (l : LauncherHandle) : LauncherHandle :=
  { l with m_awaitingShouldContinue := false }

/-- Embeds `CallerHandle::cancel`. -/
def CallerHandle.cancel (w : World) : World :=
  let old := w.caller.m_processState
  let w0 := { w with caller := { w.caller with m_processState := ProcessState.NotRunning } }
  let w1 :=
    match old with
    | ProcessState.NotRunning => w0
    | ProcessState.Starting =>
      let w2 := { w0 with caller := { w0.caller with
        m_errorString := canceledBeforeStarted
        m_error := ProcessError.FailedToStart } }
      if w2.isReady then
        CallerHandle.sendPacket w2 (LauncherPacket.StopProcessPacket w2.caller.m_token)
      else
        emit w2 (Notification.errorOccurred w2.caller.m_error)
    | ProcessState.Running =>
      CallerHandle.sendPacket w0 (LauncherPacket.StopProcessPacket w0.caller.m_token)
  if w1.caller.m_launcherHandle then
    { w1 with launcher := w1.launcher.setCanceled }
  else w1

/-- Modelled from the spec: `readAndClear` is a helper declared outside these sources; the
spec describes `readAllStandardOutput/Error` as "take-and-clear the respective buffer". -/
def readAndClear (data : QByteArray) : QByteArray × QByteArray :=
  (data, [])

/-- Embeds `CallerHandle::readAllStandardOutput`: the bytes returned and the new world. -/
def CallerHandle.readAllStandardOutput (w : World) : QByteArray × World :=
  let r := readAndClear w.caller.m_stdout
  (r.1, { w with caller := { w.caller with m_stdout := r.2 } })

/-- Embeds `CallerHandle::readAllStandardError`: the bytes returned and the new world. -/
def CallerHandle.readAllStandardError (w : World) : QByteArray × World :=
  let r := readAndClear w.caller.m_stderr
  (r.1, { w with caller := { w.caller with m_stderr := r.2 } })

/-- Embeds `CallerHandle::doStart`. -/
def CallerHandle.doStart (w : World) : World :=
  match w.caller.m_startPacket with
  | none => w
  | some p =>
    let w1 := CallerHandle.sendPacket w (LauncherPacket.StartProcessPacket p)
    { w1 with caller := { w1.caller with m_startPacket := none } }

/-- Embeds `CallerHandle::start`.  The assertion on `LauncherInterface::isStarted()` only
prints a warning and is left out; the assertion on the process state returns early. -/
def CallerHandle.start (w : World) (program : QString) (arguments : List QString)
    (writeData : QByteArray) : World :=
  if !w.caller.m_launcherHandle ∨ w.launcher.m_socketError then
    let w1 := { w with caller := { w.caller with m_error := ProcessError.FailedToStart } }
    emit w1 (Notification.errorOccurred w1.caller.m_error)
  else if w.caller.m_processState ≠ ProcessState.NotRunning then w
  else
    let c := { w.caller with
      m_command := program
      m_arguments := arguments
      m_writeData := writeData
      m_processState := ProcessState.Starting }
    let p : StartProcessPacket := {
      token := c.m_token
      command := c.m_command
      arguments := c.m_arguments
      env := c.m_environment
      workingDir := c.m_workingDirectory
      processMode := c.m_processMode
      writeData := c.m_writeData
      channelMode := c.m_channelMode
      standardInputFile := c.m_standardInputFile
      belowNormalPriority := c.m_belowNormalPriority
      nativeArguments := c.m_nativeArguments
      lowPriority := c.m_lowPriority
      unixTerminalDisabled := c.m_unixTerminalDisabled }
    let w1 := { w with caller := { c with m_startPacket := some p } }
    if w1.isReady then CallerHandle.doStart w1 else w1

/-- Embeds `CallerHandle::startIfNeeded`. -/
def CallerHandle.startIfNeeded (w : World) : World :=
  if w.caller.m_processState = ProcessState.Starting then CallerHandle.doStart w else w

/-- Embeds `CallerHandle::write`: the value returned and the new world. -/
def CallerHandle.write (w : World) (data : QByteArray) : Int × World :=
  if w.caller.m_processState ≠ ProcessState.Running then (-1, w)
  else
    (data.length, CallerHandle.sendPacket w (LauncherPacket.WritePacket w.caller.m_token data))

/-- Embeds `CallerHandle::canWaitFor`. -/
def CallerHandle.canWaitFor (h : CallerHandle) : SignalType → Bool
  | SignalType.Started => h.m_processState = ProcessState.Starting
  | SignalType.ReadyRead => h.m_processState ≠ ProcessState.NotRunning
  | SignalType.Finished => h.m_processState ≠ ProcessState.NotRunning
  | _ => false

/-! ## Launcher-side endpoint -/

/-- Embeds `LauncherHandle::wakeUpIfWaitingFor`. -/
def LauncherHandle.wakeUpIfWaitingFor (w : World) (newSignal : SignalType) : World :=
  let signalMatched : Bool := w.launcher.m_waitingFor = newSignal
  let finishedOrErrorWhileWaiting : Bool :=
    (w.launcher.m_waitingFor ≠ SignalType.NoSignal)
      && (newSignal = SignalType.Finished || newSignal = SignalType.Error)
  let continueWaitingAfterFlushing : Bool :=
    (w.launcher.m_waitingFor = SignalType.Finished && newSignal ≠ SignalType.Finished)
      || (w.launcher.m_waitingFor = SignalType.ReadyRead && newSignal = SignalType.Started)
  let shouldWake := signalMatched || finishedOrErrorWhileWaiting || continueWaitingAfterFlushing
  if shouldWake then { w with wakeUps := w.wakeUps + 1 } else w

/-- Embeds `LauncherHandle::flushCaller`: a call of `CallerHandle::flush` is queued for the caller
context. -/
def LauncherHandle.flushCaller (w : World) : World :=
  if !w.launcher.m_callerHandle then w
  else { w with postedFlushes := w.postedFlushes + 1 }

/-- Embeds `LauncherHandle::handleErrorPacket`. -/
def LauncherHandle.handleErrorPacket (w : World) (packet : ProcessErrorPacket) : World :=
  let w1 := LauncherHandle.wakeUpIfWaitingFor w SignalType.Error
  if !w1.launcher.m_callerHandle then w1
  else
    LauncherHandle.flushCaller { w1 with
      caller := CallerHandle.appendSignal w1.caller
        (LauncherSignal.ErrorSignal packet.error packet.errorString) }

/-- Embeds `LauncherHandle::handleStartedPacket`. -/
def LauncherHandle.handleStartedPacket (w : World) (packet : ProcessStartedPacket) : World :=
  let w1 := LauncherHandle.wakeUpIfWaitingFor w SignalType.Started
  if !w1.launcher.m_callerHandle then w1
  else
    LauncherHandle.flushCaller { w1 with
      caller := CallerHandle.appendSignal w1.caller
        (LauncherSignal.StartedSignal packet.processId) }

/-- Embeds `LauncherHandle::handleReadyReadStandardOutput`. -/
def LauncherHandle.handleReadyReadStandardOutput (w : World) (packet : ReadyReadPacket) :
    World :=
  let w1 := LauncherHandle.wakeUpIfWaitingFor w SignalType.ReadyRead
  if !w1.launcher.m_callerHandle then w1
  else if packet.standardChannel.isEmpty then w1
  else
    LauncherHandle.flushCaller { w1 with
      caller := CallerHandle.appendSignal w1.caller
        (LauncherSignal.ReadyReadSignal packet.standardChannel []) }

/-- Embeds `LauncherHandle::handleReadyReadStandardError`. -/
def LauncherHandle.handleReadyReadStandardError (w : World) (packet : ReadyReadPacket) :
    World :=
  let w1 := LauncherHandle.wakeUpIfWaitingFor w SignalType.ReadyRead
  if !w1.launcher.m_callerHandle then w1
  else if packet.standardChannel.isEmpty then w1
  else
    LauncherHandle.flushCaller { w1 with
      caller := CallerHandle.appendSignal w1.caller
        (LauncherSignal.ReadyReadSignal [] packet.standardChannel) }

/-- Embeds `LauncherHandle::handleFinishedPacket`. -/
def LauncherHandle.handleFinishedPacket (w : World) (packet : ProcessFinishedPacket) : World :=
  let w1 := LauncherHandle.wakeUpIfWaitingFor w SignalType.Finished
  if !w1.launcher.m_callerHandle then w1
  else
    let c1 :=
      if packet.error ≠ ProcessError.UnknownError then
        w1.caller.appendSignal (LauncherSignal.ErrorSignal packet.error packet.errorString)
      else w1.caller
    let c2 :=
      if !packet.stdOut.isEmpty || !packet.stdErr.isEmpty then
        c1.appendSignal (LauncherSignal.ReadyReadSignal packet.stdOut packet.stdErr)
      else c1
    let c3 := c2.appendSignal (LauncherSignal.FinishedSignal packet.exitStatus packet.exitCode)
    LauncherHandle.flushCaller { w1 with caller := c3 }

/-- Embeds `LauncherHandle::handleSocketReady`. -/
def LauncherHandle.handleSocketReady (w : World) : World :=
  let w1 := { w with launcher := { w.launcher with m_socketError := false } }
  if w1.launcher.m_callerHandle then CallerHandle.startIfNeeded w1 else w1

/-- Embeds `LauncherHandle::handleSocketError`. -/
def LauncherHandle.handleSocketError (w : World) (message : QString) : World :=
  let w1 := { w with launcher := { w.launcher with m_socketError := true } }
  let w2 := LauncherHandle.wakeUpIfWaitingFor w1 SignalType.Error
  if !w2.launcher.m_callerHandle then w2
  else
    let errorString := "Internal socket error: " ++ message
    LauncherHandle.flushCaller { w2 with
      caller := CallerHandle.appendSignal w2.caller
        (LauncherSignal.ErrorSignal ProcessError.FailedToStart errorString) }

/-- Packets the helper sends for a token, as dispatched by `LauncherHandle::handlePacket`. -/
inductive InboundPacket where
  | ProcessError (packet : ProcessErrorPacket)
  | ProcessStarted (packet : ProcessStartedPacket)
  | ReadyReadStandardOutput (packet : ReadyReadPacket)
  | ReadyReadStandardError (packet : ReadyReadPacket)
  | ProcessFinished (packet : ProcessFinishedPacket)
  deriving DecidableEq, Repr

/-- Embeds `LauncherHandle::handlePacket`. -/
def LauncherHandle.handlePacket (w : World) : InboundPacket → World
  | .ProcessError packet => LauncherHandle.handleErrorPacket w packet
  | .ProcessStarted packet => LauncherHandle.handleStartedPacket w packet
  | .ReadyReadStandardOutput packet => LauncherHandle.handleReadyReadStandardOutput w packet
  | .ReadyReadStandardError packet => LauncherHandle.handleReadyReadStandardError w packet
  | .ProcessFinished packet => LauncherHandle.handleFinishedPacket w packet

/-! ## Operations on an endpoint pair -/

/-- Everything that can happen to one endpoint pair: the public operations of the caller-side
endpoint, the drain `flushFor` an iteration of the wait loop performs, the packets and socket
events delivered to the launcher-side endpoint, and the severing of the pair. -/
inductive Op where
  | start (program : QString) (arguments : List QString) (writeData : QByteArray)
  | cancel
  | write (data : QByteArray)
  | flush
  | flushFor (signalType : SignalType)
  | readAllStandardOutput
  | readAllStandardError
  | setErrorString (str : QString)
  | setStandardInputFile (fileName : QString)
  | setProcessChannelMode (mode : ProcessChannelMode)
  | setProcessEnvironment (environment : List QString)
  | setWorkingDirectory (dir : QString)
  | setBelowNormalPriority
  | setNativeArguments (arguments : QString)
  | setLowPriority
  | setUnixTerminalDisabled
  | handlePacket (packet : InboundPacket)
  | socketReady
  | socketError (message : QString)
  | socketShutdown
  | unregisterHandle
  deriving DecidableEq, Repr

/-- Effect of one operation.  `socketReady` is `LauncherSocket::setSocket` (the socket becomes
present, then the `ready` signal runs `handleSocketReady`), `socketError` is
`LauncherSocket::handleError` (the socket is removed, then `errorOccurred` runs
`handleSocketError`), `socketShutdown` removes the socket, `unregisterHandle` nils both
back-references. -/
def step (w : World) : Op → World
  | .start program arguments writeData => CallerHandle.start w program arguments writeData
  | .cancel => CallerHandle.cancel w
  | .write data => (CallerHandle.write w data).2
  | .flush => (CallerHandle.flush w).2
  | .flushFor signalType => (CallerHandle.flushFor w signalType).2
  | .readAllStandardOutput => (CallerHandle.readAllStandardOutput w).2
  | .readAllStandardError => (CallerHandle.readAllStandardError w).2
  | .setErrorString str => { w with caller := { w.caller with m_errorString := str } }
  | .setStandardInputFile fileName =>
    { w with caller := { w.caller with m_standardInputFile := fileName } }
  | .setProcessChannelMode mode => { w with caller := { w.caller with m_channelMode := mode } }
  | .setProcessEnvironment environment =>
    { w with caller := { w.caller with m_environment := environment } }
  | .setWorkingDirectory dir => { w with caller := { w.caller with m_workingDirectory := dir } }
  | .setBelowNormalPriority => { w with caller := { w.caller with m_belowNormalPriority := true } }
  | .setNativeArguments arguments =>
    { w with caller := { w.caller with m_nativeArguments := arguments } }
  | .setLowPriority => { w with caller := { w.caller with m_lowPriority := true } }
  | .setUnixTerminalDisabled =>
    { w with caller := { w.caller with m_unixTerminalDisabled := true } }
  | .handlePacket packet => LauncherHandle.handlePacket w packet
  | .socketReady => LauncherHandle.handleSocketReady { w with isReady := true }
  | .socketError message => LauncherHandle.handleSocketError { w with isReady := false } message
  | .socketShutdown => { w with isReady := false }
  | .unregisterHandle =>
    { w with
      launcher := { w.launcher with m_callerHandle := false }
      caller := { w.caller with m_launcherHandle := false } }

/-- Runs a sequence of operations, oldest first. -/
def run (w : World) (ops : List Op) : World :=
  ops.foldl step w

/-- States of an endpoint pair that can be reached: a pair is created with an empty signal
queue (`m_signals` is default-constructed), after which any operations run. -/
def Reachable (w : World) : Prop :=
  ∃ w0 ops, w0.caller.m_signals = [] ∧ run w0 ops = w

/-- The coalescing invariant: no two neighbours in the queue are both `ReadyRead` records. -/
def NoAdjacentReadyRead (q : List LauncherSignal) : Prop :=
  List.Chain' (fun a b =>
    ¬ (a.signalType = SignalType.ReadyRead ∧ b.signalType = SignalType.ReadyRead)) q

instance (q : List LauncherSignal) : Decidable (NoAdjacentReadyRead q) := by
  unfold NoAdjacentReadyRead
  infer_instance

/-! ## Streams of output packets -/

/-- Inbound events of an output stream: a `ReadyReadStandardOutput` packet, a
`ReadyReadStandardError` packet, or a drain (`CallerHandle::flush`) in the caller context. -/
inductive ReadEvent where
  | stdOut (payload : QByteArray)
  | stdErr (payload : QByteArray)
  | drain
  deriving DecidableEq, Repr

/-- The operation an output-stream event stands for. -/
def ReadEvent.toOp : ReadEvent → Op
  | .stdOut payload => Op.handlePacket (InboundPacket.ReadyReadStandardOutput ⟨payload⟩)
  | .stdErr payload => Op.handlePacket (InboundPacket.ReadyReadStandardError ⟨payload⟩)
  | .drain => Op.flush

/-- Concatenation of all stdout payloads of an event sequence, in arrival order. -/
def stdOutPayloads : List ReadEvent → QByteArray
  | [] => []
  | .stdOut payload :: evs => payload ++ stdOutPayloads evs
  | _ :: evs => stdOutPayloads evs

/-- Concatenation of all stderr payloads of an event sequence, in arrival order. -/
def stdErrPayloads : List ReadEvent → QByteArray
  | [] => []
  | .stdErr payload :: evs => payload ++ stdErrPayloads evs
  | _ :: evs => stdErrPayloads evs

/-- The stdout bytes a record carries (none unless it is a `ReadyRead`). -/
def LauncherSignal.stdOut : LauncherSignal → QByteArray
  | .ReadyReadSignal o _ => o
  | _ => []

/-- The stderr bytes a record carries (none unless it is a `ReadyRead`). -/
def LauncherSignal.stdErr : LauncherSignal → QByteArray
  | .ReadyReadSignal _ e => e
  | _ => []

/-- All stdout bytes waiting in a queue, in queue order. -/
def queuedStdOut : List LauncherSignal → QByteArray
  | [] => []
  | s :: q => s.stdOut ++ queuedStdOut q

/-- All stderr bytes waiting in a queue, in queue order. -/
def queuedStdErr : List LauncherSignal → QByteArray
  | [] => []
  | s :: q => s.stdErr ++ queuedStdErr q

/-- A channel mode under which `handleReadyRead` forwards neither channel. -/
def ForwardsNothing (mode : ProcessChannelMode) : Prop :=
  mode ≠ ProcessChannelMode.ForwardedOutputChannel
    ∧ mode ≠ ProcessChannelMode.ForwardedErrorChannel
    ∧ mode ≠ ProcessChannelMode.ForwardedChannels

instance (mode : ProcessChannelMode) : Decidable (ForwardsNothing mode) := by
  unfold ForwardsNothing
  infer_instance

/-! ## Counting `StartProcess` packets -/

/-- Number of `StartProcess` packets for `token` among the packets handed to `sendPacket`. -/
def startProcessCount (token : Nat) : List LauncherPacket → Nat
  | [] => 0
  | .StartProcessPacket p :: rest =>
    (if p.token = token then 1 else 0) + startProcessCount token rest
  | _ :: rest => startProcessCount token rest

/-- Number of `start` calls in a sequence of operations. -/
def startCalls : List Op → Nat
  | [] => 0
  | .start _ _ _ :: ops => 1 + startCalls ops
  | _ :: ops => startCalls ops

/-- Number of `StartProcess` packets stashed in `m_startPacket` (0 or 1). -/
def pendingStart (w : World) : Nat :=
  if w.caller.m_startPacket.isSome then 1 else 0

/-- The `StartProcess` packet that describes the configuration of an endpoint for a call
`start(program, arguments, writeData)`: token, command, arguments, environment list, working
directory, process mode, write data, channel mode, stdin file, priority flags, native
arguments and terminal-disabled flag. -/
def configurationSnapshot (c : CallerHandle) (program : QString) (arguments : List QString)
    (writeData : QByteArray) : StartProcessPacket where
  token := c.m_token
  command := program
  arguments := arguments
  env := c.m_environment
  workingDir := c.m_workingDirectory
  processMode := c.m_processMode
  writeData := writeData
  channelMode := c.m_channelMode
  standardInputFile := c.m_standardInputFile
  belowNormalPriority := c.m_belowNormalPriority
  nativeArguments := c.m_nativeArguments
  lowPriority := c.m_lowPriority
  unixTerminalDisabled := c.m_unixTerminalDisabled

/-! ## The wake-up policy in words -/

/-- The four rules of the wake-up policy for a waiter waiting for `waitingFor` when a record of
kind `newSignal` arrives: exact match; any `Finished` or `Error` while waiting for anything;
waiting for `Finished` and a `Started` or `ReadyRead` arrives; waiting for `ReadyRead` and a
`Started` arrives. -/
def wakePolicy (waitingFor newSignal : SignalType) : Prop :=
  waitingFor = newSignal
    ∨ (waitingFor ≠ SignalType.NoSignal
        ∧ (newSignal = SignalType.Finished ∨ newSignal = SignalType.Error))
    ∨ (waitingFor = SignalType.Finished
        ∧ (newSignal = SignalType.Started ∨ newSignal = SignalType.ReadyRead))
    ∨ (waitingFor = SignalType.ReadyRead ∧ newSignal = SignalType.Started)

instance (waitingFor newSignal : SignalType) : Decidable (wakePolicy waitingFor newSignal) := by
  unfold wakePolicy
  infer_instance

/-! ## Kinds of notifications -/

/-- The kind of record whose drain emits a notification: `errorOccurred` comes from `Error`,
`started` from `Started`, both `readyReadStandard*` from `ReadyRead`, `finished` from
`Finished`. -/
def Notification.kind : Notification → SignalType
  | .errorOccurred _ => SignalType.Error
  | .started => SignalType.Started
  | .readyReadStandardOutput => SignalType.ReadyRead
  | .readyReadStandardError => SignalType.ReadyRead
  | .finished _ _ => SignalType.Finished

/-! ## Legal state transitions -/

/-- The four legal transitions of the process state: `NotRunning` to `Starting`, `Starting` to
`Running`, `Starting` to `NotRunning`, `Running` to `NotRunning`. -/
def LegalTransition (a b : ProcessState) : Prop :=
  (a = ProcessState.NotRunning ∧ b = ProcessState.Starting)
    ∨ (a = ProcessState.Starting ∧ b = ProcessState.Running)
    ∨ (a = ProcessState.Starting ∧ b = ProcessState.NotRunning)
    ∨ (a = ProcessState.Running ∧ b = ProcessState.NotRunning)

instance (a b : ProcessState) : Decidable (LegalTransition a b) := by
  unfold LegalTransition
  infer_instance

/-- Whether an operation is a drain of the signal queue. -/
def Op.isDrain : Op → Bool
  | .flush => true
  | .flushFor _ => true
  | _ => false

/-! ## Timelines of record kinds -/

/-- The kinds of notifications a drain can emit for records of the given kinds, in order: each
record other than a `ReadyRead` yields exactly one notification of its kind, a `ReadyRead`
record yields any number of `ReadyRead` notifications (in the code zero, one or two). -/
def Delivers : List SignalType → List SignalType → Prop
  | [], l => l = []
  | k :: ks, l =>
    ∃ l1 l2, l = l1 ++ l2 ∧ (∀ x ∈ l1, x = k) ∧ (k ≠ SignalType.ReadyRead → l1 = [k])
      ∧ Delivers ks l2

/-- The timeline of a pair: the kinds of the notifications emitted so far followed by the
kinds of the records still queued. -/
def timeline (w : World) : List SignalType :=
  w.emitted.map Notification.kind ++ w.caller.m_signals.map LauncherSignal.signalType

/-- Whether a kind is `Started` or `Finished`. -/
def isStartedOrFinished (k : SignalType) : Bool :=
  k = SignalType.Started || k = SignalType.Finished

/-- The `Started` / `Finished` kinds an operation brings from the helper: `Started` for a
`ProcessStarted` packet, `Finished` for a `ProcessFinished` packet, nothing otherwise. -/
def Op.helperStartedFinished : Op → List SignalType
  | .handlePacket (.ProcessStarted _) => [SignalType.Started]
  | .handlePacket (.ProcessFinished _) => [SignalType.Finished]
  | _ => []

/-- The `ProcessStarted` and `ProcessFinished` packets of a sequence of operations, as kinds,
in arrival order. -/
def helperStartedFinished : List Op → List SignalType
  | [] => []
  | op :: ops => op.helperStartedFinished ++ helperStartedFinished ops

/-! ## Blocking waits

The caller blocks in `m_waitCondition.wait`; meanwhile the launcher context handles inbound
packets and socket events.  What the launcher context does is given by a schedule: a list
of events, each with the time in milliseconds that passes before it.  Time is a number of
milliseconds; it advances only while the caller is blocked. -/

/-- Model of the Qt class `QDeadlineTimer` (not part of these sources), after the Qt
documentation: a timer constructed from `msecs` expires `msecs` milliseconds after its
creation; constructed from zero it is marked as expired at once; constructed from -1 it
never expires. -/
structure QDeadlineTimer where
  forever : Bool
  deadline : Int
  deriving DecidableEq, Repr

/-- The constructor `QDeadlineTimer(msecs)` called at time `now`. -/
def QDeadlineTimer.ofMsecs (now msecs : Int) : QDeadlineTimer :=
  if msecs = -1 then { forever := true, deadline := now }
  else { forever := false, deadline := now + msecs }

/-- The method `QDeadlineTimer::hasExpired()` called at time `now`: a timer that is not
`Forever` has expired when its deadline is not later than the current time. -/
def QDeadlineTimer.hasExpired (d : QDeadlineTimer) (now : Int) : Bool :=
  !d.forever && decide (d.deadline ≤ now)

/-- What the launcher context can do while the caller is blocked. -/
inductive LauncherEvent where
  | packet (packet : InboundPacket)
  | socketReady
  | socketError (message : QString)
  deriving DecidableEq, Repr

/-- The operation a launcher event stands for. -/
def LauncherEvent.toOp : LauncherEvent → Op
  | .packet p => Op.handlePacket p
  | .socketReady => Op.socketReady
  | .socketError message => Op.socketError message

/-- A schedule: the launcher events to come, each with the delay in milliseconds after the
previous one. -/
abbrev Schedule := List (Nat × LauncherEvent)

/-- Model of `m_waitCondition.wait(&m_mutex, deadline)` (`QWaitCondition`, a Qt class): the
launcher context runs the scheduled events until one of them calls `wakeOne` (the wait
returns `true`) or the deadline passes first (the wait returns `false` at the deadline).
With no event left and a deadline that never expires the caller stays blocked: `none`.
Returns the value of `wait`, the new world, the new time and the rest of the schedule. -/
def waitCondition (deadline : QDeadlineTimer) :
    World → Int → Schedule → Option (Bool × World × Int × Schedule)
  | w, now, [] =>
    if deadline.forever then none else some (false, w, max now deadline.deadline, [])
  | w, now, (delay, ev) :: rest =>
    if deadline.hasExpired (now + delay) then
      some (false, w, max now deadline.deadline,
        ((now + delay - max now deadline.deadline).toNat, ev) :: rest)
    else
      let w1 := step w ev.toOp
      if w.wakeUps < w1.wakeUps then some (true, w1, now + delay, rest)
      else waitCondition deadline w1 (now + delay) rest

/-- Embeds `LauncherHandle::doWaitForSignal`.  The assertion `isCalledFromCallersThread()`
fails when `m_callerHandle` is null. -/
def LauncherHandle.doWaitForSignal (deadline : QDeadlineTimer) (newSignal : SignalType)
    (w : World) (now : Int) (schedule : Schedule) : Option (Bool × World × Int × Schedule) :=
  if !w.launcher.m_callerHandle then some (false, w, now, schedule)
  else if w.launcher.m_waitingFor ≠ SignalType.NoSignal then some (false, w, now, schedule)
  else if w.caller.shouldFlushFor newSignal then some (true, w, now, schedule)
  else
    let w1 := { w with launcher := { w.launcher with m_waitingFor := newSignal } }
    match waitCondition deadline w1 now schedule with
    | none => none
    | some (ret, w2, now2, rest) =>
      some (ret, { w2 with launcher := { w2.launcher with m_waitingFor := SignalType.NoSignal } },
        now2, rest)

/-- Slots connected to the notifications of an endpoint: user code that runs synchronously
inside each `emit`, in the caller context. -/
abbrev Slots := Notification → World → World

/-- No slot connected. -/
def noSlots : Slots := fun _ w => w

/-- The source's `emit` with slots connected: the notification is appended to the trace and
the slots run before `emit` returns. -/
def emitWith (slots : Slots) (w : World) (n : Notification) : World :=
  slots n (emit w n)

/-- Embeds `CallerHandle::handleError`, with slots. -/
def CallerHandle.handleErrorWith (slots : Slots) (w : World) (error : ProcessError)
    (errorString : QString) : World :=
  let c := { w.caller with
    m_processState := ProcessState.NotRunning
    m_error := error
    m_errorString := errorString }
  let c := if c.m_error = ProcessError.FailedToStart then { c with m_exitCode := 255 } else c
  emitWith slots { w with caller := c } (Notification.errorOccurred c.m_error)

/-- Embeds `CallerHandle::handleStarted`, with slots. -/
def CallerHandle.handleStartedWith (slots : Slots) (w : World) (processId : Int) : World :=
  emitWith slots { w with caller := { w.caller with
    m_processState := ProcessState.Running
    m_processId := processId } } Notification.started

/-- Embeds `CallerHandle::handleReadyRead`, with slots. -/
def CallerHandle.handleReadyReadWith (slots : Slots) (w : World) (stdOut stdErr : QByteArray) :
    World :=
  let w1 :=
    if w.caller.m_channelMode = ProcessChannelMode.ForwardedOutputChannel
        ∨ w.caller.m_channelMode = ProcessChannelMode.ForwardedChannels then
      { w with cout := w.cout ++ constData stdOut }
    else
      let w0 := { w with caller := { w.caller with m_stdout := w.caller.m_stdout ++ stdOut } }
      if !w0.caller.m_stdout.isEmpty then
        emitWith slots w0 Notification.readyReadStandardOutput
      else w0
  if w1.caller.m_channelMode = ProcessChannelMode.ForwardedErrorChannel
      ∨ w1.caller.m_channelMode = ProcessChannelMode.ForwardedChannels then
    { w1 with cerr := w1.cerr ++ constData stdErr }
  else
    let w2 := { w1 with caller := { w1.caller with m_stderr := w1.caller.m_stderr ++ stdErr } }
    if !w2.caller.m_stderr.isEmpty then
      emitWith slots w2 Notification.readyReadStandardError
    else w2

/-- Embeds `CallerHandle::handleFinished`, with slots. -/
def CallerHandle.handleFinishedWith (slots : Slots) (w : World) (exitStatus : ExitStatus)
    (exitCode : Int) : World :=
  let c := { w.caller with
    m_processState := ProcessState.NotRunning
    m_exitStatus := exitStatus
    m_exitCode := exitCode }
  emitWith slots { w with caller := c } (Notification.finished c.m_exitCode c.m_exitStatus)

/-- Body of the `for` loop of `CallerHandle::flushFor`, with slots. -/
def CallerHandle.handleSignalWith (slots : Slots) (w : World) : LauncherSignal → World
  | .ErrorSignal error errorString => CallerHandle.handleErrorWith slots w error errorString
  | .StartedSignal processId => CallerHandle.handleStartedWith slots w processId
  | .ReadyReadSignal stdOut stdErr => CallerHandle.handleReadyReadWith slots w stdOut stdErr
  | .FinishedSignal exitStatus exitCode =>
    CallerHandle.handleFinishedWith slots w exitStatus exitCode

/-- Embeds `CallerHandle::flushFor`, with slots: returns the drained kinds and the new
world. -/
def CallerHandle.flushForWith (slots : Slots) (w : World) (signalType : SignalType) :
    List SignalType × World :=
  let taken := CallerHandle.takeFor w.caller.m_signals signalType
  let w1 := { w with caller := { w.caller with m_signals := taken.2.1 } }
  (taken.2.2, taken.1.foldl (CallerHandle.handleSignalWith slots) w1)

/-- The decision at the end of one iteration of the loop of `LauncherHandle::waitForSignal`,
from the kinds `flushFor` returned and the cancel flag: `some r` returns `r`, `none` goes on
to the next iteration. -/
def LauncherHandle.classify (flushedSignals : List SignalType) (newSignal : SignalType)
    (wasCanceled : Bool) : Option Bool :=
  let errorOccurred := flushedSignals.contains SignalType.Error
  if errorOccurred then some false
  else
    let newSignalFlushed := flushedSignals.contains newSignal
    if newSignalFlushed then some true
    else if wasCanceled then some true
    else
      let finishedSignalFlushed := flushedSignals.contains SignalType.Finished
      if finishedSignalFlushed then some false
      else none

/-- Outcome of a wait: the value returned, the world, the time and the rest of the schedule
when it returns, and the kinds all `flushFor` calls of the wait returned, in order. -/
structure WaitResult where
  result : Bool
  world : World
  now : Int
  schedule : Schedule
  flushed : List SignalType
  deriving DecidableEq, Repr

/-- The `while (true)` loop of `LauncherHandle::waitForSignal`; `fuel` bounds the number of
iterations, `flushed` collects the kinds drained so far.  `none`: the caller stays blocked
for ever, or the fuel does not suffice. -/
def LauncherHandle.waitLoop (slots : Slots) (deadline : QDeadlineTimer)
    (newSignal : SignalType) :
    Nat → World → Int → Schedule → List SignalType → Option WaitResult
  | 0, _, _, _, _ => none
  | fuel + 1, w, now, schedule, flushed =>
    if deadline.hasExpired now then some ⟨false, w, now, schedule, flushed⟩
    else
      match LauncherHandle.doWaitForSignal deadline newSignal w now schedule with
      | none => none
      | some (false, w1, now1, rest) => some ⟨false, w1, now1, rest, flushed⟩
      | some (true, w1, now1, rest) =>
        let w2 := { w1 with launcher := { w1.launcher with m_awaitingShouldContinue := true } }
        let drained := CallerHandle.flushForWith slots w2 newSignal
        let wasCanceled := !drained.2.launcher.m_awaitingShouldContinue
        let w4 := { drained.2 with
          launcher := { drained.2.launcher with m_awaitingShouldContinue := false } }
        match LauncherHandle.classify drained.1 newSignal wasCanceled with
        | some r => some ⟨r, w4, now1, rest, flushed ++ drained.1⟩
        | none =>
          LauncherHandle.waitLoop slots deadline newSignal fuel w4 now1 rest
            (flushed ++ drained.1)

/-- Embeds `LauncherHandle::waitForSignal`, called at time `now`. -/
def LauncherHandle.waitForSignal (slots : Slots) (fuel : Nat) (msecs : Int)
    (newSignal : SignalType) (w : World) (now : Int) (schedule : Schedule) :
    Option WaitResult :=
  LauncherHandle.waitLoop slots (QDeadlineTimer.ofMsecs now msecs) newSignal fuel w now
    schedule []

/-- Embeds `CallerHandle::waitForSignal`, called at time `now`. -/
def CallerHandle.waitForSignal (slots : Slots) (fuel : Nat) (msecs : Int)
    (newSignal : SignalType) (w : World) (now : Int) (schedule : Schedule) :
    Option WaitResult :=
  if !w.caller.canWaitFor newSignal then some ⟨false, w, now, schedule, []⟩
  else if !w.caller.m_launcherHandle then some ⟨false, w, now, schedule, []⟩
  else LauncherHandle.waitForSignal slots fuel msecs newSignal w now schedule

/-- Embeds `CallerHandle::waitForStarted`. -/
def CallerHandle.waitForStarted (slots : Slots) (fuel : Nat) (msecs : Int) (w : World)
    (now : Int) (schedule : Schedule) : Option WaitResult :=
  CallerHandle.waitForSignal slots fuel msecs SignalType.Started w now schedule

/-- Embeds `CallerHandle::waitForReadyRead`. -/
def CallerHandle.waitForReadyRead (slots : Slots) (fuel : Nat) (msecs : Int) (w : World)
    (now : Int) (schedule : Schedule) : Option WaitResult :=
  CallerHandle.waitForSignal slots fuel msecs SignalType.ReadyRead w now schedule

/-- Embeds `CallerHandle::waitForFinished`. -/
def CallerHandle.waitForFinished (slots : Slots) (fuel : Nat) (msecs : Int) (w : World)
    (now : Int) (schedule : Schedule) : Option WaitResult :=
  CallerHandle.waitForSignal slots fuel msecs SignalType.Finished w now schedule

/-! ## Socket multiplexer

`LauncherSocket` owns the socket, the queue of pending requests and the map from tokens to
launcher-side endpoints.  An entry of the map is kept as the `World` of its endpoint pair.
The signals `ready` and `errorOccurred` are connected to every launcher-side endpoint when it
is registered, so they reach the registered endpoints in registration order; the map is
therefore kept as a list of entries in that order. -/

/-- Modelled from the spec: the constructor of `CallerHandle` and the default member
initialisers are in the class declaration, which is not part of these sources.  The spec
starts every process in `NotRunning` with nothing queued, buffered or recorded. -/
def CallerHandle.create (token : Nat) (mode : ProcessMode) : CallerHandle where
  m_token := token
  m_processMode := mode
  m_launcherHandle := false
  m_signals := []
  m_processState := ProcessState.NotRunning
  m_error := ProcessError.UnknownError
  m_errorString := ""
  m_exitCode := 0
  m_exitStatus := ExitStatus.NormalExit
  m_processId := 0
  m_stdout := []
  m_stderr := []
  m_command := ""
  m_arguments := []
  m_writeData := []
  m_environment := []
  m_workingDirectory := ""
  m_channelMode := ProcessChannelMode.SeparateChannels
  m_standardInputFile := ""
  m_belowNormalPriority := false
  m_nativeArguments := ""
  m_lowPriority := false
  m_unixTerminalDisabled := false
  m_startPacket := none

/-- Modelled from the spec: the constructor of `LauncherHandle` is in the class declaration,
which is not part of these sources.  A new launcher-side endpoint waits for nothing and has
seen no socket error. -/
def LauncherHandle.create (token : Nat) : LauncherHandle where
  m_token := token
  m_callerHandle := false
  m_waitingFor := SignalType.NoSignal
  m_awaitingShouldContinue := false
  m_socketError := false

/-- Member variables of `LauncherSocket` and the traces of what it does: `m_socket` records
whether the socket pointer is non-null, `written` the byte strings passed to `socket->write`
so far (oldest first), `postedRequests` the number of queued invocations of `handleRequests`,
`readyEmitted` the number of `ready` emissions, `errorOccurred` the messages of the
`errorOccurred` emissions, `deleted` the endpoint pairs handed to `deleteLater`. -/
structure LauncherSocket where
  m_socket : Bool
  m_requests : List QByteArray
  m_handles : List (Nat × World)
  written : List QByteArray
  postedRequests : Nat
  readyEmitted : Nat
  errorOccurred : List QString
  deleted : List World
  deriving DecidableEq, Repr

/-- Modelled from the spec: `LauncherSocket::isReady` is defined in the class declaration,
which is not part of these sources; the multiplexer is ready while it has a socket. -/
def LauncherSocket.isReady (s : LauncherSocket) : Bool :=
  s.m_socket

/-- Embeds `LauncherSocket::handleRequests`.  The assertion on the socket returns early. -/
def LauncherSocket.handleRequests (s : LauncherSocket) : LauncherSocket :=
  if !s.m_socket then s
  else { s with written := s.written ++ s.m_requests, m_requests := [] }

/-- Embeds `LauncherSocket::sendData`, which is called from any thread;
`fromLaunchersThread` says whether the calling thread is the launcher's thread, in which the
multiplexer lives.  `QMetaObject::invokeMethod(this, &LauncherSocket::handleRequests)` uses
the default connection type: called from the launcher's thread it runs `handleRequests` at
once, called from another thread it queues the invocation for the launcher's thread. -/
def LauncherSocket.sendData (s : LauncherSocket) (fromLaunchersThread : Bool)
    (data : QByteArray) : LauncherSocket :=
  if !s.isReady then s
  else
    let s1 := { s with m_requests := s.m_requests ++ [data] }
    if s1.m_requests.length = 1 then
      if fromLaunchersThread then s1.handleRequests
      else { s1 with postedRequests := s1.postedRequests + 1 }
    else s1

/-- One queued invocation of `handleRequests` runs in the launcher context; without a queued
invocation nothing happens. -/
def LauncherSocket.runPostedRequests (s : LauncherSocket) : LauncherSocket :=
  if s.postedRequests = 0 then s
  else LauncherSocket.handleRequests { s with postedRequests := s.postedRequests - 1 }

/-- Embeds `LauncherSocket::handleForToken`: `m_handles.value(token)`. -/
def LauncherSocket.handleForToken (s : LauncherSocket) (token : Nat) : Option World :=
  s.m_handles.lookup token

/-- Embeds `LauncherSocket::registerHandle`: the caller-side endpoint returned, if any, and
the new multiplexer. -/
def LauncherSocket.registerHandle (s : LauncherSocket) (token : Nat) (mode : ProcessMode) :
    Option CallerHandle × LauncherSocket :=
  if (s.m_handles.lookup token).isSome then (none, s)
  else
    let callerHandle := { CallerHandle.create token mode with m_launcherHandle := true }
    let launcherHandle := { LauncherHandle.create token with m_callerHandle := true }
    let pair : World := {
      caller := callerHandle
      launcher := launcherHandle
      isReady := s.isReady
      emitted := []
      sent := []
      cout := []
      cerr := []
      postedFlushes := 0
      wakeUps := 0 }
    (some callerHandle, { s with m_handles := s.m_handles ++ [(token, pair)] })

/-- Embeds `LauncherSocket::unregisterHandle`. -/
def LauncherSocket.unregisterHandle (s : LauncherSocket) (token : Nat) : LauncherSocket :=
  match s.m_handles.lookup token with
  | none => s
  | some pair =>
    { s with
      m_handles := s.m_handles.filter (fun entry => entry.1 ≠ token)
      deleted := s.deleted ++ [step pair Op.unregisterHandle] }

/-- Replaces the endpoint pair registered for `token`. -/
def LauncherSocket.setHandle (s : LauncherSocket) (token : Nat) (pair : World) :
    LauncherSocket :=
  let replace : Nat × World → Nat × World :=
    fun entry => if entry.1 = token then (entry.1, pair) else entry
  { s with m_handles := s.m_handles.map replace }

/-- The `sendPacket` calls an endpoint makes inside a slot of the multiplexer's signals, that
is in the launcher's thread, reach `LauncherSocket::sendData` through
`LauncherInterface::sendData(packet.serialize())`; `serialize` belongs to the packet codec,
which is not part of these sources, and is a parameter. -/
def LauncherSocket.forward (serialize : LauncherPacket → QByteArray) (s : LauncherSocket)
    (packets : List LauncherPacket) : LauncherSocket :=
  packets.foldl (fun acc packet => acc.sendData true (serialize packet)) s

/-- The source's `emit ready()`: `handleSocketReady` runs on every registered launcher-side
endpoint; the packets an endpoint hands to `sendPacket` meanwhile go to `sendData`. -/
def LauncherSocket.emitReady (serialize : LauncherPacket → QByteArray) (s : LauncherSocket) :
    LauncherSocket :=
  s.m_handles.foldl
    (fun acc entry =>
      let pair := step entry.2 Op.socketReady
      LauncherSocket.forward serialize (acc.setHandle entry.1 pair)
        (pair.sent.drop entry.2.sent.length))
    { s with readyEmitted := s.readyEmitted + 1 }

/-- The source's `emit errorOccurred(error)`: `handleSocketError` runs on every registered
launcher-side endpoint. -/
def LauncherSocket.emitErrorOccurred (s : LauncherSocket) (error : QString) : LauncherSocket :=
  { s with
    errorOccurred := s.errorOccurred ++ [error]
    m_handles := s.m_handles.map (fun entry => (entry.1, step entry.2 (Op.socketError error))) }

/-- Embeds `LauncherSocket::setSocket`.  The assertion `!m_socket` returns early. -/
def LauncherSocket.setSocket (serialize : LauncherPacket → QByteArray) (s : LauncherSocket) :
    LauncherSocket :=
  if s.m_socket then s
  else LauncherSocket.emitReady serialize { s with m_socket := true }

/-- Embeds `LauncherSocket::shutdown`; `shutdownBytes` is `ShutdownPacket().serialize()`. -/
def LauncherSocket.shutdown (shutdownBytes : QByteArray) (s : LauncherSocket) :
    LauncherSocket :=
  if !s.m_socket then s
  else
    { s with
      m_socket := false
      written := s.written ++ [shutdownBytes]
      m_handles := s.m_handles.map (fun entry => (entry.1, step entry.2 Op.socketShutdown)) }

/-- Embeds `LauncherSocket::handleError`, which the slots of the socket's signals call: the
socket is detached and scheduled for deletion, then `errorOccurred` is emitted. -/
def LauncherSocket.handleError (s : LauncherSocket) (error : QString) : LauncherSocket :=
  LauncherSocket.emitErrorOccurred { s with m_socket := false } error

/-- Embeds `LauncherSocket::handleSocketError`; `peerClosed` says whether `socket->error()`
is `PeerClosedError`. -/
def LauncherSocket.handleSocketError (s : LauncherSocket) (peerClosed : Bool)
    (errorString : QString) : LauncherSocket :=
  if !peerClosed then LauncherSocket.handleError s ("Socket error: " ++ errorString)
  else s

/-- Embeds `LauncherSocket::handleSocketDisconnected`. -/
def LauncherSocket.handleSocketDisconnected (s : LauncherSocket) : LauncherSocket :=
  LauncherSocket.handleError s "Launcher socket closed unexpectedly."

/-- What a complete packet carries besides its token: for the five helper-to-caller types the
packet as `LauncherPacket::extractPacket` yields it, for every other type the numeric value of
the type tag. -/
inductive PacketContent where
  | helperToCaller (packet : InboundPacket)
  | otherType (type : Int)
  deriving DecidableEq, Repr

/-- One outcome of `m_packetParser.parse()` when the device holds enough bytes: the exception
`InvalidPacketSizeException` with its size, or a complete packet. -/
inductive ParseResult where
  | invalidPacketSize (size : Int)
  | packet (token : Nat) (content : PacketContent)
  deriving DecidableEq, Repr

/-- Embeds `LauncherSocket::handleSocketDataAvailable`.  The bytes on the socket are given by
what the parser will make of them, oldest first; with nothing left `parse()` returns `false`.
Returns the new multiplexer and the outcomes not consumed. -/
def LauncherSocket.handleSocketDataAvailable (s : LauncherSocket) :
    List ParseResult → LauncherSocket × List ParseResult
  | [] => (s, [])
  | ParseResult.invalidPacketSize size :: rest =>
    (LauncherSocket.handleError s
      ("Internal protocol error: invalid packet size " ++ toString size ++ "."), rest)
  | ParseResult.packet token content :: rest =>
    match s.handleForToken token with
    | some pair =>
      match content with
      | PacketContent.helperToCaller packet =>
        LauncherSocket.handleSocketDataAvailable
          (s.setHandle token (LauncherHandle.handlePacket pair packet)) rest
      | PacketContent.otherType type =>
        (LauncherSocket.handleError s
          ("Internal protocol error: invalid packet type " ++ toString type ++ "."), rest)
    | none => LauncherSocket.handleSocketDataAvailable s rest

/-- What can happen to the queue of pending requests while the socket is present: a call of
`sendData` from the launcher's thread or from another thread, or the run of a queued
invocation of `handleRequests`. -/
inductive RequestOp where
  | sendData (fromLaunchersThread : Bool) (data : QByteArray)
  | runPostedRequests
  deriving DecidableEq, Repr

/-- Effect of one request operation. -/
def LauncherSocket.requestStep (s : LauncherSocket) : RequestOp → LauncherSocket
  | RequestOp.sendData fromLaunchersThread data => s.sendData fromLaunchersThread data
  | RequestOp.runPostedRequests => s.runPostedRequests

/-- The byte strings the `sendData` calls of a sequence pass, in call order. -/
def requestedData : List RequestOp → List QByteArray
  | [] => []
  | RequestOp.sendData _ data :: ops => data :: requestedData ops
  | RequestOp.runPostedRequests :: ops => requestedData ops

/-- A multiplexer with a socket, no registered endpoint and nothing pending. -/
def exampleSocket : LauncherSocket where
  m_socket := true
  m_requests := []
  m_handles := []
  written := []
  postedRequests := 0
  readyEmitted := 1
  errorOccurred := []
  deleted := []

/-! ## Packet codec

The codec (`launcherpackets.cpp`, `PacketParser`) is not part of these sources.  It is
modelled from the spec, which describes a packet as a record `{type, token, payload}` and a
frame as a total length of 32 bits, a type tag of 8 bits, reserved bytes, the token and the
type-specific payload.  What the spec leaves open or states in two ways (the byte order of
the length, the width of the token, the number of reserved bytes, the sanity cap of the
length) is gathered in a `FrameLayout`. -/

/-- Byte orders of a fixed-width unsigned integer. -/
inductive ByteOrder where
  | bigEndian
  | littleEndian
  deriving DecidableEq, Repr

/-- Modelled from the spec: the choices of the frame layout.  The spec gives the length as
`u32_be` in one place and as `u32-LE` in another, allows 32-bit or 64-bit tokens, names
reserved header bytes and an implementation-chosen sanity cap for the length. -/
structure FrameLayout where
  lengthOrder : ByteOrder
  tokenOrder : ByteOrder
  tokenWidth : Nat
  reserved : Nat
  maxPacketSize : Nat
  deriving DecidableEq, Repr

/-- Modelled from the spec: a packet, "a tagged record carrying `{type, token, payload}`";
the payload is the byte string of the type-specific part. -/
structure Packet where
  type : Nat
  token : Nat
  payload : QByteArray
  deriving DecidableEq, Repr

/-- Modelled from the spec: the `width` low bytes of `n`, least significant first (the
little-endian encoding of a fixed-width unsigned integer). -/
def encodeLittleEndian : Nat → Nat → List Nat
  | 0, _ => []
  | width + 1, n => n % 256 :: encodeLittleEndian width (n / 256)

/-- Modelled from the spec: the number a list of bytes stands for, least significant byte
first. -/
def decodeLittleEndian : List Nat → Nat
  | [] => 0
  | byte :: bytes => byte + 256 * decodeLittleEndian bytes

/-- Modelled from the spec: a fixed-width unsigned integer in the given byte order. -/
def encodeUInt (order : ByteOrder) (width n : Nat) : List Nat :=
  match order with
  | ByteOrder.littleEndian => encodeLittleEndian width n
  | ByteOrder.bigEndian => (encodeLittleEndian width n).reverse

/-- Modelled from the spec: reads an unsigned integer in the given byte order. -/
def decodeUInt (order : ByteOrder) (bytes : List Nat) : Nat :=
  match order with
  | ByteOrder.littleEndian => decodeLittleEndian bytes
  | ByteOrder.bigEndian => decodeLittleEndian bytes.reverse

/-- Modelled from the spec: the size of the fixed header: length, type tag, reserved bytes,
token. -/
def FrameLayout.headerSize (layout : FrameLayout) : Nat :=
  4 + 1 + layout.reserved + layout.tokenWidth

/-- Modelled from the spec: `serialize(packet)` "produces a self-delimited frame": the total
length, the type tag, the reserved bytes, the token, then the payload. -/
def Packet.serialize (layout : FrameLayout) (p : Packet) : QByteArray :=
  encodeUInt layout.lengthOrder 4 (layout.headerSize + p.payload.length)
    ++ [p.type]
    ++ List.replicate layout.reserved 0
    ++ encodeUInt layout.tokenOrder layout.tokenWidth p.token
    ++ p.payload

/-- Modelled from the spec: the outcomes of `parse(stream)`, "packet | need-more |
invalid-size"; a packet comes with the bytes behind its frame. -/
inductive ParseOutcome where
  | needMore
  | invalidSize (size : Nat)
  | packet (p : Packet) (rest : QByteArray)
  deriving DecidableEq, Repr

/-- Modelled from the spec: `parse(stream)` on the bytes received and not yet consumed.  With
fewer bytes than the length field or than the frame announces it is `need-more`; a length
"larger than an implementation-chosen sanity cap, or smaller than the header" is
`invalid-size`. -/
def PacketParser.parse (layout : FrameLayout) (stream : QByteArray) : ParseOutcome :=
  if stream.length < 4 then ParseOutcome.needMore
  else
    let size := decodeUInt layout.lengthOrder (stream.take 4)
    if size < layout.headerSize ∨ layout.maxPacketSize < size then ParseOutcome.invalidSize size
    else if stream.length < size then ParseOutcome.needMore
    else
      ParseOutcome.packet
        { type := (stream.drop 4).headD 0
          token := decodeUInt layout.tokenOrder
            ((stream.drop (4 + 1 + layout.reserved)).take layout.tokenWidth)
          payload := (stream.drop layout.headerSize).take (size - layout.headerSize) }
        (stream.drop size)

/-- Modelled from the spec: the inbound loop "repeatedly invokes `parse`": the packets parsed
from a stream until `parse` does not yield one; `fuel` bounds the number of packets. -/
def PacketParser.parseAll (layout : FrameLayout) : Nat → QByteArray → List Packet
  | 0, _ => []
  | fuel + 1, stream =>
    match PacketParser.parse layout stream with
    | ParseOutcome.packet p rest => p :: PacketParser.parseAll layout fuel rest
    | _ => []

/-- Modelled from the spec: a well-formed packet fits its frame: the type tag is one byte,
the token fits the token width, and the total length fits 32 bits and the sanity cap. -/
def Packet.WellFormed (layout : FrameLayout) (p : Packet) : Prop :=
  p.type < 256 ∧ p.token < 256 ^ layout.tokenWidth
    ∧ layout.headerSize + p.payload.length < 256 ^ 4
    ∧ layout.headerSize + p.payload.length ≤ layout.maxPacketSize

instance (layout : FrameLayout) (p : Packet) : Decidable (p.WellFormed layout) := by
  unfold Packet.WellFormed
  infer_instance

/-- A layout with a big-endian length, 64-bit little-endian tokens and no reserved bytes. -/
def exampleLayout : FrameLayout where
  lengthOrder := ByteOrder.bigEndian
  tokenOrder := ByteOrder.littleEndian
  tokenWidth := 8
  reserved := 0
  maxPacketSize := 65536

/-! ## Example states -/

/-- A caller-side endpoint in state `Starting` with a live peer, empty queue and empty
buffers. -/
def exampleCaller : CallerHandle where
  m_token := 7
  m_processMode := 0
  m_launcherHandle := true
  m_signals := []
  m_processState := ProcessState.Starting
  m_error := ProcessError.UnknownError
  m_errorString := ""
  m_exitCode := 0
  m_exitStatus := ExitStatus.NormalExit
  m_processId := 0
  m_stdout := []
  m_stderr := []
  m_command := "echo"
  m_arguments := ["hello"]
  m_writeData := []
  m_environment := []
  m_workingDirectory := ""
  m_channelMode := ProcessChannelMode.SeparateChannels
  m_standardInputFile := ""
  m_belowNormalPriority := false
  m_nativeArguments := ""
  m_lowPriority := false
  m_unixTerminalDisabled := false
  m_startPacket := none

/-- The launcher-side endpoint paired with `exampleCaller`. -/
def exampleLauncher : LauncherHandle where
  m_token := 7
  m_callerHandle := true
  m_waitingFor := SignalType.NoSignal
  m_awaitingShouldContinue := false
  m_socketError := false

/-- The pair of `exampleCaller` and `exampleLauncher` with a ready socket and nothing emitted
or sent yet. -/
def exampleWorld : World where
  caller := exampleCaller
  launcher := exampleLauncher
  isReady := true
  emitted := []
  sent := []
  cout := []
  cerr := []
  postedFlushes := 0
  wakeUps := 0

/-- A freshly registered endpoint pair: state `NotRunning`, live back-references, empty queue
and buffers, nothing stashed, emitted or sent, socket ready. -/
def freshWorld : World :=
  { exampleWorld with caller := { exampleCaller with m_processState := ProcessState.NotRunning } }

/-! ## Properties of `appendSignal` -/

theorem signalType_ne_noSignal (s : LauncherSignal) : s.signalType ≠ SignalType.NoSignal := by
  cases s <;> simp [LauncherSignal.signalType]

/-- C1: when the last queued record is `ReadyRead(out1, err1)` and the new record is
`ReadyRead(out2, err2)`, `appendSignal` keeps the queue length and every record but the last,
and replaces the last record by `ReadyRead(out1 ++ out2, err1 ++ err2)`; in every other case
(empty queue, last record not `ReadyRead`, new record not `ReadyRead`) the new record is
appended at the end and the existing records are unchanged.  No other field of the endpoint
changes.  The call comes from the launcher context, i.e. the peer is live. -/
theorem appendSignal_coalesces (h : CallerHandle) (s : LauncherSignal)
    (live : h.m_launcherHandle = true) :
    (∀ front out1 err1 out2 err2,
      h.m_signals = front ++ [LauncherSignal.ReadyReadSignal out1 err1] →
      s = LauncherSignal.ReadyReadSignal out2 err2 →
      h.appendSignal s = { h with m_signals :=
          front ++ [LauncherSignal.ReadyReadSignal (out1 ++ out2) (err1 ++ err2)] }
        ∧ (h.appendSignal s).m_signals.length = h.m_signals.length)
    ∧ ((h.m_signals = []
          ∨ (∃ l, h.m_signals.getLast? = some l ∧ l.signalType ≠ SignalType.ReadyRead)
          ∨ s.signalType ≠ SignalType.ReadyRead) →
      h.appendSignal s = { h with m_signals := h.m_signals ++ [s] }) := by
  constructor
  · intro front out1 err1 out2 err2 hq hs
    subst hs
    have e : h.appendSignal (LauncherSignal.ReadyReadSignal out2 err2) = { h with m_signals :=
        front ++ [LauncherSignal.ReadyReadSignal (out1 ++ out2) (err1 ++ err2)] } := by
      simp [CallerHandle.appendSignal, live, hq, LauncherSignal.signalType,
        LauncherSignal.mergeWith, List.dropLast_concat]
    rw [e, hq]
    simp
  · intro hc
    unfold CallerHandle.appendSignal
    rw [if_neg (signalType_ne_noSignal s)]
    simp only [live, Bool.not_true, Bool.false_eq_true, if_false]
    rcases hc with hq | ⟨l, hl, hne⟩ | hs
    · simp [hq]
    · simp [hl, hne]
    · cases hlast : h.m_signals.getLast? with
      | none => rfl
      | some l => simp [hs]

/-- Witness for C1: appending `ReadyRead([3], [4])` to the queue
`[Started 1, ReadyRead([1], [2])]` leaves `[Started 1, ReadyRead([1, 3], [2, 4])]`. -/
theorem appendSignal_coalesces_witness :
    ({ exampleCaller with m_signals :=
        [LauncherSignal.StartedSignal 1, LauncherSignal.ReadyReadSignal [1] [2]] }
      : CallerHandle).appendSignal (LauncherSignal.ReadyReadSignal [3] [4])
      = { exampleCaller with m_signals :=
        [LauncherSignal.StartedSignal 1, LauncherSignal.ReadyReadSignal [1, 3] [2, 4]] } :=
  ((appendSignal_coalesces
    { exampleCaller with m_signals :=
        [LauncherSignal.StartedSignal 1, LauncherSignal.ReadyReadSignal [1] [2]] }
    (LauncherSignal.ReadyReadSignal [3] [4]) rfl).1
    [LauncherSignal.StartedSignal 1] [1] [2] [3] [4] rfl rfl).1

/-! ## The drain leaves the queue to `takeFor` -/

theorem emit_caller (w : World) (n : Notification) : (emit w n).caller = w.caller := rfl

theorem handleSignal_signals (w : World) (s : LauncherSignal) :
    (CallerHandle.handleSignal w s).caller.m_signals = w.caller.m_signals := by
  cases s with
  | ErrorSignal e str =>
    simp only [CallerHandle.handleSignal, CallerHandle.handleError, emit]
    split <;> rfl
  | StartedSignal pid => rfl
  | ReadyReadSignal o e =>
    simp only [CallerHandle.handleSignal, CallerHandle.handleReadyRead, emit]
    split <;> split <;> (try split) <;> (try split) <;> rfl
  | FinishedSignal st code => rfl

theorem foldl_handleSignal_signals (l : List LauncherSignal) (w : World) :
    (l.foldl CallerHandle.handleSignal w).caller.m_signals = w.caller.m_signals := by
  induction l generalizing w with
  | nil => rfl
  | cons s l ih => rw [List.foldl_cons, ih, handleSignal_signals]

theorem flushFor_signals (w : World) (t : SignalType) :
    (CallerHandle.flushFor w t).2.caller.m_signals
      = (CallerHandle.takeFor w.caller.m_signals t).2.1 := by
  simp [CallerHandle.flushFor, foldl_handleSignal_signals]

/-- The records `takeFor` takes followed by the records it leaves are the queue, and the kinds
it reports are the kinds of the records taken. -/
theorem takeFor_split (q : List LauncherSignal) (t : SignalType) :
    (CallerHandle.takeFor q t).1 ++ (CallerHandle.takeFor q t).2.1 = q
      ∧ (CallerHandle.takeFor q t).2.2
          = (CallerHandle.takeFor q t).1.map LauncherSignal.signalType := by
  unfold CallerHandle.takeFor
  simp only []
  split
  · simp
  · split <;> split <;> simp [mid, midFrom, List.map_take]

/-! ## The coalescing invariant -/

theorem mergeWith_signalType (a b : LauncherSignal) :
    (a.mergeWith b).signalType = a.signalType := by
  cases a <;> cases b <;> rfl

theorem noAdjacentReadyRead_appendSignal (h : CallerHandle) (s : LauncherSignal)
    (inv : NoAdjacentReadyRead h.m_signals) :
    NoAdjacentReadyRead (h.appendSignal s).m_signals := by
  unfold CallerHandle.appendSignal
  split
  · exact inv
  · split
    · exact inv
    · split
      · rename_i lastSignal hlast
        have hq : h.m_signals = h.m_signals.dropLast ++ [lastSignal] :=
          (List.dropLast_append_getLast? lastSignal hlast).symm
        split
        · rename_i hboth
          rw [hq] at inv
          unfold NoAdjacentReadyRead at inv ⊢
          rw [List.chain'_append] at inv ⊢
          refine ⟨inv.1, List.chain'_singleton _, ?_⟩
          intro x hx y hy
          have hxl := inv.2.2 x hx lastSignal (by simp)
          simp only [List.head?_cons, Option.mem_def, Option.some.injEq] at hy
          subst hy
          rw [mergeWith_signalType]
          exact hxl
        · rename_i hboth
          unfold NoAdjacentReadyRead at inv ⊢
          rw [List.chain'_append]
          refine ⟨inv, List.chain'_singleton _, ?_⟩
          intro x hx y hy
          simp only [List.head?_cons, Option.mem_def, Option.some.injEq] at hy hx
          rw [hlast] at hx
          simp only [Option.some.injEq] at hx
          subst hy hx
          intro hc
          exact hboth ⟨hc.2, hc.1⟩
      · rename_i hnone
        have hq : h.m_signals = [] := List.getLast?_eq_none_iff.mp hnone
        simp [hq, NoAdjacentReadyRead]

theorem noAdjacentReadyRead_flushFor (w : World) (t : SignalType)
    (inv : NoAdjacentReadyRead w.caller.m_signals) :
    NoAdjacentReadyRead (CallerHandle.flushFor w t).2.caller.m_signals := by
  rw [flushFor_signals]
  have hs := (takeFor_split w.caller.m_signals t).1
  unfold NoAdjacentReadyRead at inv ⊢
  exact inv.suffix ⟨_, hs⟩

theorem wakeUpIfWaitingFor_caller (w : World) (t : SignalType) :
    (LauncherHandle.wakeUpIfWaitingFor w t).caller = w.caller := by
  unfold LauncherHandle.wakeUpIfWaitingFor
  simp only []
  split <;> rfl

theorem wakeUpIfWaitingFor_launcher (w : World) (t : SignalType) :
    (LauncherHandle.wakeUpIfWaitingFor w t).launcher = w.launcher := by
  unfold LauncherHandle.wakeUpIfWaitingFor
  simp only []
  split <;> rfl

theorem flushCaller_caller (w : World) : (LauncherHandle.flushCaller w).caller = w.caller := by
  unfold LauncherHandle.flushCaller
  split <;> rfl

theorem doStart_signals (w : World) :
    (CallerHandle.doStart w).caller.m_signals = w.caller.m_signals := by
  unfold CallerHandle.doStart
  split <;> rfl

theorem start_signals (w : World) (program : QString) (arguments : List QString)
    (writeData : QByteArray) :
    (CallerHandle.start w program arguments writeData).caller.m_signals
      = w.caller.m_signals := by
  unfold CallerHandle.start
  simp only []
  split
  · rfl
  · split
    · rfl
    · split
      · rw [doStart_signals]
      · rfl

theorem cancel_signals (w : World) :
    (CallerHandle.cancel w).caller.m_signals = w.caller.m_signals := by
  unfold CallerHandle.cancel
  simp only []
  cases w.caller.m_processState <;> simp only [] <;> (repeat' split) <;> rfl

theorem write_signals (w : World) (data : QByteArray) :
    (CallerHandle.write w data).2.caller.m_signals = w.caller.m_signals := by
  unfold CallerHandle.write
  split <;> rfl

theorem handleSocketReady_signals (w : World) :
    (LauncherHandle.handleSocketReady w).caller.m_signals = w.caller.m_signals := by
  unfold LauncherHandle.handleSocketReady CallerHandle.startIfNeeded
  simp only []
  split
  · split
    · rw [doStart_signals]
    · rfl
  · rfl

theorem noAdjacentReadyRead_handlePacket (w : World) (packet : InboundPacket)
    (inv : NoAdjacentReadyRead w.caller.m_signals) :
    NoAdjacentReadyRead (LauncherHandle.handlePacket w packet).caller.m_signals := by
  have inv1 : ∀ t, NoAdjacentReadyRead (LauncherHandle.wakeUpIfWaitingFor w t).caller.m_signals :=
    fun t => by rw [wakeUpIfWaitingFor_caller]; exact inv
  cases packet with
  | ProcessError packet =>
    simp only [LauncherHandle.handlePacket, LauncherHandle.handleErrorPacket]
    split
    · exact inv1 _
    · rw [flushCaller_caller]
      exact noAdjacentReadyRead_appendSignal _ _ (inv1 _)
  | ProcessStarted packet =>
    simp only [LauncherHandle.handlePacket, LauncherHandle.handleStartedPacket]
    split
    · exact inv1 _
    · rw [flushCaller_caller]
      exact noAdjacentReadyRead_appendSignal _ _ (inv1 _)
  | ReadyReadStandardOutput packet =>
    simp only [LauncherHandle.handlePacket, LauncherHandle.handleReadyReadStandardOutput]
    split
    · exact inv1 _
    · split
      · exact inv1 _
      · rw [flushCaller_caller]
        exact noAdjacentReadyRead_appendSignal _ _ (inv1 _)
  | ReadyReadStandardError packet =>
    simp only [LauncherHandle.handlePacket, LauncherHandle.handleReadyReadStandardError]
    split
    · exact inv1 _
    · split
      · exact inv1 _
      · rw [flushCaller_caller]
        exact noAdjacentReadyRead_appendSignal _ _ (inv1 _)
  | ProcessFinished packet =>
    simp only [LauncherHandle.handlePacket, LauncherHandle.handleFinishedPacket]
    split
    · exact inv1 _
    · rw [flushCaller_caller]
      apply noAdjacentReadyRead_appendSignal
      split
      · apply noAdjacentReadyRead_appendSignal
        split
        · exact noAdjacentReadyRead_appendSignal _ _ (inv1 _)
        · exact inv1 _
      · split
        · exact noAdjacentReadyRead_appendSignal _ _ (inv1 _)
        · exact inv1 _

theorem noAdjacentReadyRead_handleSocketError (w : World) (message : QString)
    (inv : NoAdjacentReadyRead w.caller.m_signals) :
    NoAdjacentReadyRead (LauncherHandle.handleSocketError w message).caller.m_signals := by
  simp only [LauncherHandle.handleSocketError]
  split
  · rw [wakeUpIfWaitingFor_caller]; exact inv
  · rw [flushCaller_caller]
    apply noAdjacentReadyRead_appendSignal
    rw [wakeUpIfWaitingFor_caller]; exact inv

theorem noAdjacentReadyRead_step (w : World) (op : Op)
    (inv : NoAdjacentReadyRead w.caller.m_signals) :
    NoAdjacentReadyRead (step w op).caller.m_signals := by
  cases op with
  | start program arguments writeData => simp only [step]; rw [start_signals]; exact inv
  | cancel => simp only [step]; rw [cancel_signals]; exact inv
  | write data => simp only [step]; rw [write_signals]; exact inv
  | flush => exact noAdjacentReadyRead_flushFor w SignalType.NoSignal inv
  | flushFor signalType => exact noAdjacentReadyRead_flushFor w signalType inv
  | handlePacket packet => exact noAdjacentReadyRead_handlePacket w packet inv
  | socketReady => simp only [step]; rw [handleSocketReady_signals]; exact inv
  | socketError message => exact noAdjacentReadyRead_handleSocketError _ message inv
  | _ => exact inv

theorem noAdjacentReadyRead_run (ops : List Op) (w : World)
    (inv : NoAdjacentReadyRead w.caller.m_signals) :
    NoAdjacentReadyRead (run w ops).caller.m_signals := by
  induction ops generalizing w with
  | nil => exact inv
  | cons op ops ih => exact ih (step w op) (noAdjacentReadyRead_step w op inv)

/-- C2: the predicate "no two adjacent records of the signal queue are both `ReadyRead`" holds
for the empty queue, is preserved by `appendSignal` with any record and by `flushFor` with any
target (take-everything and take-a-leading-part branches alike), and therefore holds in every
reachable state of an endpoint pair. -/
theorem noAdjacentReadyRead_invariant :
    NoAdjacentReadyRead []
    ∧ (∀ (h : CallerHandle) (s : LauncherSignal),
        NoAdjacentReadyRead h.m_signals → NoAdjacentReadyRead (h.appendSignal s).m_signals)
    ∧ (∀ (w : World) (t : SignalType),
        NoAdjacentReadyRead w.caller.m_signals →
        NoAdjacentReadyRead (CallerHandle.flushFor w t).2.caller.m_signals)
    ∧ (∀ w : World, Reachable w → NoAdjacentReadyRead w.caller.m_signals) := by
  refine ⟨List.chain'_nil, noAdjacentReadyRead_appendSignal, noAdjacentReadyRead_flushFor, ?_⟩
  rintro w ⟨w0, ops, h0, rfl⟩
  apply noAdjacentReadyRead_run
  rw [h0]
  exact List.chain'_nil

/-- Witness for C2: after the packets stdout `[1]`, stderr `[2]`, `ProcessStarted 5`, stdout
`[3]` the queue of the example pair is `ReadyRead([1],[2]), Started 5, ReadyRead([3],[])`, a
reachable state, and it satisfies the invariant. -/
theorem noAdjacentReadyRead_invariant_witness :
    (run exampleWorld
        [Op.handlePacket (InboundPacket.ReadyReadStandardOutput ⟨[1]⟩),
         Op.handlePacket (InboundPacket.ReadyReadStandardError ⟨[2]⟩),
         Op.handlePacket (InboundPacket.ProcessStarted ⟨5⟩),
         Op.handlePacket (InboundPacket.ReadyReadStandardOutput ⟨[3]⟩)]).caller.m_signals
      = [LauncherSignal.ReadyReadSignal [1] [2], LauncherSignal.StartedSignal 5,
         LauncherSignal.ReadyReadSignal [3] []]
    ∧ NoAdjacentReadyRead (run exampleWorld
        [Op.handlePacket (InboundPacket.ReadyReadStandardOutput ⟨[1]⟩),
         Op.handlePacket (InboundPacket.ReadyReadStandardError ⟨[2]⟩),
         Op.handlePacket (InboundPacket.ProcessStarted ⟨5⟩),
         Op.handlePacket (InboundPacket.ReadyReadStandardOutput ⟨[3]⟩)]).caller.m_signals :=
  ⟨by decide, noAdjacentReadyRead_invariant.2.2.2 _ ⟨exampleWorld, _, rfl, rfl⟩⟩

/-! ## Byte preservation of the output stream -/

theorem queuedStdOut_append (a b : List LauncherSignal) :
    queuedStdOut (a ++ b) = queuedStdOut a ++ queuedStdOut b := by
  induction a with
  | nil => rfl
  | cons s a ih => simp [queuedStdOut, ih]

theorem queuedStdErr_append (a b : List LauncherSignal) :
    queuedStdErr (a ++ b) = queuedStdErr a ++ queuedStdErr b := by
  induction a with
  | nil => rfl
  | cons s a ih => simp [queuedStdErr, ih]

/-- With a live peer, `appendSignal` adds exactly the bytes of the new record to the bytes
waiting in the queue, whether it merges or appends. -/
theorem appendSignal_queued (h : CallerHandle) (s : LauncherSignal)
    (live : h.m_launcherHandle = true) :
    queuedStdOut (h.appendSignal s).m_signals = queuedStdOut h.m_signals ++ s.stdOut
      ∧ queuedStdErr (h.appendSignal s).m_signals = queuedStdErr h.m_signals ++ s.stdErr := by
  unfold CallerHandle.appendSignal
  rw [if_neg (signalType_ne_noSignal s)]
  simp only [live, Bool.not_true, Bool.false_eq_true, if_false]
  split
  · rename_i lastSignal hlast
    have hq : h.m_signals = h.m_signals.dropLast ++ [lastSignal] :=
      (List.dropLast_append_getLast? lastSignal hlast).symm
    split
    · rename_i hboth
      simp only []
      generalize h.m_signals.dropLast = front at hq
      rw [hq]
      cases lastSignal <;> cases s <;>
        simp_all [LauncherSignal.signalType, LauncherSignal.mergeWith, queuedStdOut_append,
          queuedStdErr_append, queuedStdOut, queuedStdErr, LauncherSignal.stdOut,
          LauncherSignal.stdErr]
    · simp [queuedStdOut_append, queuedStdErr_append, queuedStdOut, queuedStdErr]
  · simp [queuedStdOut_append, queuedStdErr_append, queuedStdOut, queuedStdErr]

theorem ite_emit_caller (c : Prop) [Decidable c] (w : World) (n : Notification) :
    (if c then emit w n else w).caller = w.caller := by
  split <;> rfl

theorem ite_emit_launcher (c : Prop) [Decidable c] (w : World) (n : Notification) :
    (if c then emit w n else w).launcher = w.launcher := by
  split <;> rfl

/-- Under a channel mode that forwards nothing, `handleReadyRead` appends the bytes of the
record to the two buffers and changes no other field of the endpoints. -/
theorem handleReadyRead_caller (w : World) (o e : QByteArray)
    (mode : ForwardsNothing w.caller.m_channelMode) :
    (CallerHandle.handleReadyRead w o e).caller
        = { w.caller with m_stdout := w.caller.m_stdout ++ o, m_stderr := w.caller.m_stderr ++ e }
      ∧ (CallerHandle.handleReadyRead w o e).launcher = w.launcher := by
  obtain ⟨m1, m2, m3⟩ := mode
  unfold CallerHandle.handleReadyRead
  simp only [m1, m3, or_self, if_false, ite_emit_caller, m2, ite_emit_launcher, and_self]

/-- Under a channel mode that forwards nothing, draining one record appends its bytes to the
two buffers and changes neither the channel mode nor the back-references. -/
theorem handleSignal_buffers (w : World) (s : LauncherSignal)
    (mode : ForwardsNothing w.caller.m_channelMode) :
    (CallerHandle.handleSignal w s).caller.m_stdout = w.caller.m_stdout ++ s.stdOut
      ∧ (CallerHandle.handleSignal w s).caller.m_stderr = w.caller.m_stderr ++ s.stdErr
      ∧ (CallerHandle.handleSignal w s).caller.m_channelMode = w.caller.m_channelMode
      ∧ (CallerHandle.handleSignal w s).caller.m_launcherHandle = w.caller.m_launcherHandle
      ∧ (CallerHandle.handleSignal w s).launcher = w.launcher := by
  cases s with
  | ErrorSignal e str =>
    simp only [CallerHandle.handleSignal, CallerHandle.handleError, emit]
    split <;> simp [LauncherSignal.stdOut, LauncherSignal.stdErr]
  | StartedSignal pid =>
    simp [CallerHandle.handleSignal, CallerHandle.handleStarted, emit, LauncherSignal.stdOut,
      LauncherSignal.stdErr]
  | ReadyReadSignal o e =>
    obtain ⟨hc, hl⟩ := handleReadyRead_caller w o e mode
    simp only [CallerHandle.handleSignal, hc, hl, LauncherSignal.stdOut, LauncherSignal.stdErr,
      and_self]
  | FinishedSignal st code =>
    simp [CallerHandle.handleSignal, CallerHandle.handleFinished, emit, LauncherSignal.stdOut,
      LauncherSignal.stdErr]

theorem foldl_handleSignal_buffers (l : List LauncherSignal) (w : World)
    (mode : ForwardsNothing w.caller.m_channelMode) :
    (l.foldl CallerHandle.handleSignal w).caller.m_stdout = w.caller.m_stdout ++ queuedStdOut l
      ∧ (l.foldl CallerHandle.handleSignal w).caller.m_stderr
          = w.caller.m_stderr ++ queuedStdErr l
      ∧ (l.foldl CallerHandle.handleSignal w).caller.m_channelMode = w.caller.m_channelMode
      ∧ (l.foldl CallerHandle.handleSignal w).caller.m_launcherHandle
          = w.caller.m_launcherHandle
      ∧ (l.foldl CallerHandle.handleSignal w).launcher = w.launcher := by
  induction l generalizing w with
  | nil => simp [queuedStdOut, queuedStdErr]
  | cons s l ih =>
    obtain ⟨h1, h2, h3, h4, h5⟩ := handleSignal_buffers w s mode
    obtain ⟨i1, i2, i3, i4, i5⟩ := ih (CallerHandle.handleSignal w s) (by rw [h3]; exact mode)
    rw [List.foldl_cons]
    refine ⟨?_, ?_, ?_, ?_, ?_⟩
    · rw [i1, h1]; simp [queuedStdOut]
    · rw [i2, h2]; simp [queuedStdErr]
    · rw [i3, h3]
    · rw [i4, h4]
    · rw [i5, h5]

/-- The take-everything drain `flush` empties the queue and moves all waiting bytes into the
buffers. -/
theorem flush_buffers (w : World) (mode : ForwardsNothing w.caller.m_channelMode) :
    (CallerHandle.flush w).2.caller.m_signals = []
      ∧ (CallerHandle.flush w).2.caller.m_stdout
          = w.caller.m_stdout ++ queuedStdOut w.caller.m_signals
      ∧ (CallerHandle.flush w).2.caller.m_stderr
          = w.caller.m_stderr ++ queuedStdErr w.caller.m_signals
      ∧ (CallerHandle.flush w).2.caller.m_channelMode = w.caller.m_channelMode
      ∧ (CallerHandle.flush w).2.caller.m_launcherHandle = w.caller.m_launcherHandle
      ∧ (CallerHandle.flush w).2.launcher = w.launcher := by
  have ht : CallerHandle.takeFor w.caller.m_signals SignalType.NoSignal
      = (w.caller.m_signals, [], w.caller.m_signals.map LauncherSignal.signalType) := by
    simp [CallerHandle.takeFor]
  refine ⟨?_, ?_⟩
  · unfold CallerHandle.flush
    rw [flushFor_signals, ht]
  · simp only [CallerHandle.flush, CallerHandle.flushFor, ht]
    exact foldl_handleSignal_buffers _ _ mode

/-- The function `appendSignal` changes no field but the queue. -/
theorem appendSignal_fields (h : CallerHandle) (s : LauncherSignal) :
    h.appendSignal s = { h with m_signals := (h.appendSignal s).m_signals } := by
  unfold CallerHandle.appendSignal
  split
  · rfl
  · split
    · rfl
    · split
      · split <;> rfl
      · rfl

theorem flushCaller_launcher (w : World) :
    (LauncherHandle.flushCaller w).launcher = w.launcher := by
  unfold LauncherHandle.flushCaller
  split <;> rfl

/-- One event of an output stream keeps the pair live and the channel mode unchanged, and
the bytes buffered or queued afterwards are those before followed by the payload. -/
theorem step_readEvent (w : World) (ev : ReadEvent)
    (live : w.caller.m_launcherHandle = true) (peer : w.launcher.m_callerHandle = true)
    (mode : ForwardsNothing w.caller.m_channelMode) :
    (step w ev.toOp).caller.m_launcherHandle = true
      ∧ (step w ev.toOp).launcher.m_callerHandle = true
      ∧ (step w ev.toOp).caller.m_channelMode = w.caller.m_channelMode
      ∧ (step w ev.toOp).caller.m_stdout ++ queuedStdOut (step w ev.toOp).caller.m_signals
          = w.caller.m_stdout ++ queuedStdOut w.caller.m_signals ++ stdOutPayloads [ev]
      ∧ (step w ev.toOp).caller.m_stderr ++ queuedStdErr (step w ev.toOp).caller.m_signals
          = w.caller.m_stderr ++ queuedStdErr w.caller.m_signals ++ stdErrPayloads [ev] := by
  cases ev with
  | stdOut payload =>
    simp only [ReadEvent.toOp, step, LauncherHandle.handlePacket,
      LauncherHandle.handleReadyReadStandardOutput, wakeUpIfWaitingFor_launcher, peer,
      Bool.not_true, Bool.false_eq_true, if_false, stdOutPayloads, stdErrPayloads,
      List.append_nil]
    split
    · rename_i hempty
      have hp : payload = [] := List.isEmpty_iff.mp hempty
      simp [wakeUpIfWaitingFor_caller, wakeUpIfWaitingFor_launcher, live, peer, hp]
    · have hq := appendSignal_queued w.caller (LauncherSignal.ReadyReadSignal payload []) live
      rw [flushCaller_caller, flushCaller_launcher]
      simp only [wakeUpIfWaitingFor_caller, wakeUpIfWaitingFor_launcher]
      rw [appendSignal_fields]
      simp only [live, peer, hq.1, hq.2, LauncherSignal.stdOut, LauncherSignal.stdErr,
        List.append_nil, List.append_assoc, and_self]
  | stdErr payload =>
    simp only [ReadEvent.toOp, step, LauncherHandle.handlePacket,
      LauncherHandle.handleReadyReadStandardError, wakeUpIfWaitingFor_launcher, peer,
      Bool.not_true, Bool.false_eq_true, if_false, stdOutPayloads, stdErrPayloads,
      List.append_nil]
    split
    · rename_i hempty
      have hp : payload = [] := List.isEmpty_iff.mp hempty
      simp [wakeUpIfWaitingFor_caller, wakeUpIfWaitingFor_launcher, live, peer, hp]
    · have hq := appendSignal_queued w.caller (LauncherSignal.ReadyReadSignal [] payload) live
      rw [flushCaller_caller, flushCaller_launcher]
      simp only [wakeUpIfWaitingFor_caller, wakeUpIfWaitingFor_launcher]
      rw [appendSignal_fields]
      simp only [live, peer, hq.1, hq.2, LauncherSignal.stdOut, LauncherSignal.stdErr,
        List.append_nil, List.append_assoc, and_self]
  | drain =>
    obtain ⟨f1, f2, f3, f4, f5, f6⟩ := flush_buffers w mode
    simp only [ReadEvent.toOp, step, f1, f2, f3, f4, f5, f6, live, peer, queuedStdOut,
      queuedStdErr, stdOutPayloads, stdErrPayloads, List.append_nil, and_self]

theorem stdOutPayloads_cons (ev : ReadEvent) (evs : List ReadEvent) :
    stdOutPayloads (ev :: evs) = stdOutPayloads [ev] ++ stdOutPayloads evs := by
  cases ev <;> simp [stdOutPayloads]

theorem stdErrPayloads_cons (ev : ReadEvent) (evs : List ReadEvent) :
    stdErrPayloads (ev :: evs) = stdErrPayloads [ev] ++ stdErrPayloads evs := by
  cases ev <;> simp [stdErrPayloads]

/-- Byte preservation for an arbitrary initial queue: after any output stream the bytes
buffered or still queued are those present at the beginning followed by all payloads in
arrival order. -/
theorem run_readEvents (evs : List ReadEvent) (w : World)
    (live : w.caller.m_launcherHandle = true) (peer : w.launcher.m_callerHandle = true)
    (mode : ForwardsNothing w.caller.m_channelMode) :
    ForwardsNothing (run w (evs.map ReadEvent.toOp)).caller.m_channelMode
      ∧ (run w (evs.map ReadEvent.toOp)).caller.m_stdout
            ++ queuedStdOut (run w (evs.map ReadEvent.toOp)).caller.m_signals
          = w.caller.m_stdout ++ queuedStdOut w.caller.m_signals ++ stdOutPayloads evs
      ∧ (run w (evs.map ReadEvent.toOp)).caller.m_stderr
            ++ queuedStdErr (run w (evs.map ReadEvent.toOp)).caller.m_signals
          = w.caller.m_stderr ++ queuedStdErr w.caller.m_signals ++ stdErrPayloads evs := by
  induction evs generalizing w with
  | nil => simp [run, stdOutPayloads, stdErrPayloads, mode]
  | cons ev evs ih =>
    obtain ⟨s1, s2, s3, s4, s5⟩ := step_readEvent w ev live peer mode
    obtain ⟨i1, i2, i3⟩ := ih (step w ev.toOp) s1 s2 (by rw [s3]; exact mode)
    have hrun : run w ((ev :: evs).map ReadEvent.toOp)
        = run (step w ev.toOp) (evs.map ReadEvent.toOp) := rfl
    rw [hrun, stdOutPayloads_cons, stdErrPayloads_cons]
    refine ⟨i1, ?_, ?_⟩
    · rw [i2, s4]; simp
    · rw [i3, s5]; simp

/-- C3: on a live pair with empty queue and a channel mode that forwards nothing, for every
sequence of `ReadyReadStandardOutput` / `ReadyReadStandardError` packets arbitrarily
interleaved with drains, after a final drain the stdout buffer is its initial content
followed by all stdout payloads in arrival order, and the stderr buffer is its initial
content followed by all stderr payloads in arrival order. -/
theorem readyRead_bytes_preserved (w : World) (evs : List ReadEvent)
    (live : w.caller.m_launcherHandle = true) (peer : w.launcher.m_callerHandle = true)
    (mode : ForwardsNothing w.caller.m_channelMode)
    (empty : w.caller.m_signals = []) :
    (CallerHandle.flush (run w (evs.map ReadEvent.toOp))).2.caller.m_stdout
        = w.caller.m_stdout ++ stdOutPayloads evs
      ∧ (CallerHandle.flush (run w (evs.map ReadEvent.toOp))).2.caller.m_stderr
        = w.caller.m_stderr ++ stdErrPayloads evs
      ∧ (CallerHandle.flush (run w (evs.map ReadEvent.toOp))).2.caller.m_signals = [] := by
  obtain ⟨r1, r2, r3⟩ := run_readEvents evs w live peer mode
  obtain ⟨f1, f2, f3, _⟩ := flush_buffers (run w (evs.map ReadEvent.toOp)) r1
  rw [f2, f3, r2, r3, empty]
  simp [queuedStdOut, queuedStdErr, f1]

/-- Witness for C3: stdout `[1]`, stderr `[9]`, drain, stdout `[2]`, stdout `[3]`, then the
final drain, leave stdout `[1, 2, 3]` and stderr `[9]`. -/
theorem readyRead_bytes_preserved_witness :
    (CallerHandle.flush (run exampleWorld
        ([ReadEvent.stdOut [1], ReadEvent.stdErr [9], ReadEvent.drain, ReadEvent.stdOut [2],
          ReadEvent.stdOut [3]].map ReadEvent.toOp))).2.caller.m_stdout = [1, 2, 3]
      ∧ (CallerHandle.flush (run exampleWorld
        ([ReadEvent.stdOut [1], ReadEvent.stdErr [9], ReadEvent.drain, ReadEvent.stdOut [2],
          ReadEvent.stdOut [3]].map ReadEvent.toOp))).2.caller.m_stderr = [9]
      ∧ (CallerHandle.flush (run exampleWorld
        ([ReadEvent.stdOut [1], ReadEvent.stdErr [9], ReadEvent.drain, ReadEvent.stdOut [2],
          ReadEvent.stdOut [3]].map ReadEvent.toOp))).2.caller.m_signals = [] :=
  readyRead_bytes_preserved exampleWorld
    [ReadEvent.stdOut [1], ReadEvent.stdErr [9], ReadEvent.drain, ReadEvent.stdOut [2],
      ReadEvent.stdOut [3]] rfl rfl (by decide) rfl

/-! ## What `flushFor` takes -/

/-- C4: if the target is `NoSignal` ("any"), `ReadyRead` or `Finished`, or the queue holds at
least one `Error` record, `flushFor` takes the entire queue: the queue is empty afterwards,
every record is processed exactly once in queue order (the new world is the fold of the
per-record handler over the old queue), and the returned list is the list of kinds of the
old queue in order. -/
theorem flushFor_takes_all (w : World) (t : SignalType)
    (h : t = SignalType.NoSignal ∨ t = SignalType.ReadyRead ∨ t = SignalType.Finished
      ∨ ∃ s ∈ w.caller.m_signals, s.signalType = SignalType.Error) :
    CallerHandle.flushFor w t
        = (w.caller.m_signals.map LauncherSignal.signalType,
           w.caller.m_signals.foldl CallerHandle.handleSignal
             { w with caller := { w.caller with m_signals := [] } })
      ∧ (CallerHandle.flushFor w t).2.caller.m_signals = [] := by
  have ht : CallerHandle.takeFor w.caller.m_signals t
      = (w.caller.m_signals, [], w.caller.m_signals.map LauncherSignal.signalType) := by
    unfold CallerHandle.takeFor
    simp only []
    rw [if_pos]
    rcases h with h | h | h | ⟨s, hs, hk⟩
    · simp [h]
    · simp [h]
    · simp [h]
    · have : (w.caller.m_signals.map LauncherSignal.signalType).contains SignalType.Error
          = true := by
        simp only [List.contains_iff_exists_mem_beq, beq_iff_eq, List.mem_map]
        exact ⟨SignalType.Error, ⟨s, hs, hk⟩, rfl⟩
      rw [this]
      simp
  refine ⟨?_, ?_⟩
  · simp only [CallerHandle.flushFor, ht]
  · rw [flushFor_signals, ht]

/-- Witness for C4: with the queue `[Started 1, Error Crashed, Finished Normal 0]` a drain for
`Started` takes all three records because an `Error` is queued. -/
theorem flushFor_takes_all_witness :
    CallerHandle.flushFor
        { exampleWorld with caller := { exampleCaller with m_signals :=
          [LauncherSignal.StartedSignal 1,
           LauncherSignal.ErrorSignal ProcessError.Crashed "crashed",
           LauncherSignal.FinishedSignal ExitStatus.CrashExit 3] } }
        SignalType.Started
      = ([SignalType.Started, SignalType.Error, SignalType.Finished],
         { exampleWorld with
           caller := { exampleCaller with
             m_processState := ProcessState.NotRunning
             m_processId := 1
             m_error := ProcessError.Crashed
             m_errorString := "crashed"
             m_exitStatus := ExitStatus.CrashExit
             m_exitCode := 3 }
           emitted := [Notification.started, Notification.errorOccurred ProcessError.Crashed,
             Notification.finished 3 ExitStatus.CrashExit] }) :=
  (flushFor_takes_all
    { exampleWorld with caller := { exampleCaller with m_signals :=
      [LauncherSignal.StartedSignal 1,
       LauncherSignal.ErrorSignal ProcessError.Crashed "crashed",
       LauncherSignal.FinishedSignal ExitStatus.CrashExit 3] } }
    SignalType.Started
    (Or.inr (Or.inr (Or.inr
      ⟨LauncherSignal.ErrorSignal ProcessError.Crashed "crashed", by decide, rfl⟩)))).1

theorem lastIndexOf_not_mem {α : Type} [DecidableEq α] (l : List α) (a : α) (h : a ∉ l) :
    lastIndexOf l a = -1 := by
  induction l with
  | nil => rfl
  | cons x xs ih =>
    have hx : x ≠ a := fun e => h (by simp [e])
    have hxs : a ∉ xs := fun m => h (List.mem_cons_of_mem _ m)
    simp [lastIndexOf, ih hxs, hx]

theorem lastIndexOf_last {α : Type} [DecidableEq α] (front rest : List α) (a : α)
    (h : a ∉ rest) : lastIndexOf (front ++ a :: rest) a = front.length := by
  induction front with
  | nil => simp [lastIndexOf, lastIndexOf_not_mem rest a h]
  | cons x xs ih =>
    have e : lastIndexOf (x :: (xs ++ a :: rest)) a
        = if 0 ≤ lastIndexOf (xs ++ a :: rest) a then lastIndexOf (xs ++ a :: rest) a + 1
          else if x = a then 0 else -1 := rfl
    rw [List.cons_append, e, ih, if_pos (by omega)]
    simp

/-- A queue that holds a `Started` record splits at its last `Started` record. -/
theorem exists_last_started (q : List LauncherSignal)
    (h : ∃ s ∈ q, s.signalType = SignalType.Started) :
    ∃ (front rest : List LauncherSignal) (pid : Int),
      q = front ++ LauncherSignal.StartedSignal pid :: rest
        ∧ ∀ s ∈ rest, s.signalType ≠ SignalType.Started := by
  induction q with
  | nil =>
    obtain ⟨s, hs, _⟩ := h
    cases hs
  | cons x xs ih =>
    by_cases hx : ∃ s ∈ xs, s.signalType = SignalType.Started
    · obtain ⟨front, rest, pid, hq, hrest⟩ := ih hx
      exact ⟨x :: front, rest, pid, by rw [hq]; rfl, hrest⟩
    · have hxs : ∀ s ∈ xs, s.signalType ≠ SignalType.Started := fun s hs hk => hx ⟨s, hs, hk⟩
      obtain ⟨s, hs, hk⟩ := h
      rcases List.mem_cons.mp hs with rfl | hs
      · cases s with
        | StartedSignal pid => exact ⟨[], xs, pid, rfl, hxs⟩
        | ErrorSignal e str => cases hk
        | ReadyReadSignal o e => cases hk
        | FinishedSignal st code => cases hk
      · exact absurd hk (hxs s hs)

/-- C5: on a queue without `Error` records, `flushFor(Started)` takes exactly the leading
part of the queue up to and including the last `Started` record (split `front ++ [Started
pid] ++ rest` with no `Started` in `rest`): those records are processed in order, their kinds
are returned, and `rest` stays queued in its original order.  If the queue holds no `Started`
record, nothing is taken: the world (queue, fields, notifications) is unchanged and the
returned list is empty.  Every queue falls under one of the two cases. -/
theorem flushFor_started (w : World)
    (noError : ∀ s ∈ w.caller.m_signals, s.signalType ≠ SignalType.Error) :
    ((∀ s ∈ w.caller.m_signals, s.signalType ≠ SignalType.Started)
      ∨ ∃ (front rest : List LauncherSignal) (pid : Int),
          w.caller.m_signals = front ++ LauncherSignal.StartedSignal pid :: rest
            ∧ ∀ s ∈ rest, s.signalType ≠ SignalType.Started)
    ∧ (∀ (front rest : List LauncherSignal) (pid : Int),
        w.caller.m_signals = front ++ LauncherSignal.StartedSignal pid :: rest →
        (∀ s ∈ rest, s.signalType ≠ SignalType.Started) →
        CallerHandle.flushFor w SignalType.Started
            = ((front ++ [LauncherSignal.StartedSignal pid]).map LauncherSignal.signalType,
               (front ++ [LauncherSignal.StartedSignal pid]).foldl CallerHandle.handleSignal
                 { w with caller := { w.caller with m_signals := rest } })
          ∧ (CallerHandle.flushFor w SignalType.Started).2.caller.m_signals = rest)
    ∧ ((∀ s ∈ w.caller.m_signals, s.signalType ≠ SignalType.Started) →
        CallerHandle.flushFor w SignalType.Started = ([], w)) := by
  have hno : (w.caller.m_signals.map LauncherSignal.signalType).contains SignalType.Error
      = false := by
    rw [Bool.eq_false_iff]
    intro hc
    simp only [List.contains_iff_exists_mem_beq, beq_iff_eq, List.mem_map] at hc
    obtain ⟨k, ⟨s, hs, hk⟩, he⟩ := hc
    exact noError s hs (by rw [hk, ← he])
  refine ⟨?_, ?_, ?_⟩
  · by_cases hx : ∃ s ∈ w.caller.m_signals, s.signalType = SignalType.Started
    · exact Or.inr (exists_last_started _ hx)
    · exact Or.inl (fun s hs hk => hx ⟨s, hs, hk⟩)
  · intro front rest pid hq hrest
    have hidx : lastIndexOf (w.caller.m_signals.map LauncherSignal.signalType)
        SignalType.Started = front.length := by
      rw [hq, List.map_append, List.map_cons]
      have := lastIndexOf_last (front.map LauncherSignal.signalType)
        (rest.map LauncherSignal.signalType) SignalType.Started (by
          simp only [List.mem_map, not_exists, not_and]
          intro s hs hk
          exact hrest s hs hk)
      simpa [LauncherSignal.signalType] using this
    have ht : CallerHandle.takeFor w.caller.m_signals SignalType.Started
        = (front ++ [LauncherSignal.StartedSignal pid], rest,
           (front ++ [LauncherSignal.StartedSignal pid]).map LauncherSignal.signalType) := by
      unfold CallerHandle.takeFor
      simp only [hno, hidx]
      have h1 : ((front.length : Int) + 1).toNat = front.length + 1 := by omega
      simp only [mid, midFrom, h1, hq]
      simp [List.take_append_eq_append_take, List.drop_append_eq_append_drop,
        List.map_take]
    refine ⟨?_, ?_⟩
    · simp only [CallerHandle.flushFor, ht]
    · rw [flushFor_signals, ht]
  · intro hnone
    have hidx : lastIndexOf (w.caller.m_signals.map LauncherSignal.signalType)
        SignalType.Started = -1 := by
      apply lastIndexOf_not_mem
      simp only [List.mem_map, not_exists, not_and]
      intro s hs hk
      exact hnone s hs hk
    have ht : CallerHandle.takeFor w.caller.m_signals SignalType.Started
        = ([], w.caller.m_signals, []) := by
      unfold CallerHandle.takeFor
      simp only [hno, hidx]
      simp
    simp only [CallerHandle.flushFor, ht, List.foldl_nil]

/-- Witness for C5: with the queue `[ReadyRead, Started 1, ReadyRead, Finished]` a drain for
`Started` takes the first two records and leaves the last two queued. -/
theorem flushFor_started_witness :
    CallerHandle.flushFor
        { exampleWorld with caller := { exampleCaller with m_signals :=
          [LauncherSignal.ReadyReadSignal [1] [],
           LauncherSignal.StartedSignal 1,
           LauncherSignal.ReadyReadSignal [2] [],
           LauncherSignal.FinishedSignal ExitStatus.NormalExit 0] } }
        SignalType.Started
      = ([SignalType.ReadyRead, SignalType.Started],
         { exampleWorld with
           caller := { exampleCaller with
             m_signals := [LauncherSignal.ReadyReadSignal [2] [],
               LauncherSignal.FinishedSignal ExitStatus.NormalExit 0]
             m_processState := ProcessState.Running
             m_processId := 1
             m_stdout := [1] }
           emitted := [Notification.readyReadStandardOutput, Notification.started] }) :=
  ((flushFor_started
    { exampleWorld with caller := { exampleCaller with m_signals :=
      [LauncherSignal.ReadyReadSignal [1] [],
       LauncherSignal.StartedSignal 1,
       LauncherSignal.ReadyReadSignal [2] [],
       LauncherSignal.FinishedSignal ExitStatus.NormalExit 0] } }
    (by decide)).2.1
    [LauncherSignal.ReadyReadSignal [1] []]
    [LauncherSignal.ReadyReadSignal [2] [],
      LauncherSignal.FinishedSignal ExitStatus.NormalExit 0]
    1 rfl (by decide)).1

/-! ## Draining an `Error` record -/

/-- An `Error` record is always appended at the end of the queue of a live endpoint. -/
theorem appendSignal_error (h : CallerHandle) (kind : ProcessError) (msg : QString)
    (live : h.m_launcherHandle = true) :
    h.appendSignal (LauncherSignal.ErrorSignal kind msg)
      = { h with m_signals := h.m_signals ++ [LauncherSignal.ErrorSignal kind msg] } := by
  unfold CallerHandle.appendSignal
  simp only [LauncherSignal.signalType, live, Bool.not_true, Bool.false_eq_true, if_false]
  cases h.m_signals.getLast? <;> simp

/-- The drain `flush` takes the whole queue: it returns the kinds of all queued records and
processes the records in queue order on the world with the queue emptied. -/
theorem flush_eq (w : World) :
    CallerHandle.flush w
      = (w.caller.m_signals.map LauncherSignal.signalType,
         w.caller.m_signals.foldl CallerHandle.handleSignal
           { w with caller := { w.caller with m_signals := [] } }) := by
  have ht : CallerHandle.takeFor w.caller.m_signals SignalType.NoSignal
      = (w.caller.m_signals, [], w.caller.m_signals.map LauncherSignal.signalType) := by
    simp [CallerHandle.takeFor]
  simp only [CallerHandle.flush, CallerHandle.flushFor, ht]

theorem handleError_effect (w : World) (kind : ProcessError) (msg : QString) :
    (CallerHandle.handleError w kind msg).caller.m_processState = ProcessState.NotRunning
      ∧ (CallerHandle.handleError w kind msg).caller.m_error = kind
      ∧ (CallerHandle.handleError w kind msg).caller.m_errorString = msg
      ∧ (CallerHandle.handleError w kind msg).emitted
          = w.emitted ++ [Notification.errorOccurred kind]
      ∧ (kind = ProcessError.FailedToStart →
          (CallerHandle.handleError w kind msg).caller.m_exitCode = 255)
      ∧ (kind ≠ ProcessError.FailedToStart →
          (CallerHandle.handleError w kind msg).caller.m_exitCode = w.caller.m_exitCode) := by
  unfold CallerHandle.handleError emit
  simp only []
  by_cases hk : kind = ProcessError.FailedToStart
  · simp [hk]
  · simp [hk]

/-- C6: draining an `Error{kind, msg}` record sets the process state to `NotRunning`, sets
`error()` to `kind` and `errorString()` to `msg`, and emits `errorOccurred(kind)` exactly once;
`exitCode()` becomes 255 if `kind` is `FailedToStart` and is unchanged for every other kind.
In particular, after a `ProcessError{FailedToStart, m}` packet is handled by a live pair and
drained (in any process state, hence in `Starting`, and whatever was queued before), the
state is `NotRunning` and the exit code is 255. -/
theorem drain_error (w : World) (kind : ProcessError) (msg : QString) :
    ((CallerHandle.handleSignal w (LauncherSignal.ErrorSignal kind msg)).caller.m_processState
        = ProcessState.NotRunning
      ∧ (CallerHandle.handleSignal w (LauncherSignal.ErrorSignal kind msg)).caller.m_error = kind
      ∧ (CallerHandle.handleSignal w (LauncherSignal.ErrorSignal kind msg)).caller.m_errorString
          = msg
      ∧ (CallerHandle.handleSignal w (LauncherSignal.ErrorSignal kind msg)).emitted
          = w.emitted ++ [Notification.errorOccurred kind]
      ∧ (kind = ProcessError.FailedToStart →
          (CallerHandle.handleSignal w (LauncherSignal.ErrorSignal kind msg)).caller.m_exitCode
            = 255)
      ∧ (kind ≠ ProcessError.FailedToStart →
          (CallerHandle.handleSignal w (LauncherSignal.ErrorSignal kind msg)).caller.m_exitCode
            = w.caller.m_exitCode))
    ∧ (w.caller.m_launcherHandle = true → w.launcher.m_callerHandle = true →
        (CallerHandle.flush (LauncherHandle.handleErrorPacket w
            ⟨ProcessError.FailedToStart, msg⟩)).2.caller.m_processState
          = ProcessState.NotRunning
        ∧ (CallerHandle.flush (LauncherHandle.handleErrorPacket w
            ⟨ProcessError.FailedToStart, msg⟩)).2.caller.m_exitCode = 255
        ∧ (CallerHandle.flush (LauncherHandle.handleErrorPacket w
            ⟨ProcessError.FailedToStart, msg⟩)).2.caller.m_error = ProcessError.FailedToStart
        ∧ (CallerHandle.flush (LauncherHandle.handleErrorPacket w
            ⟨ProcessError.FailedToStart, msg⟩)).2.emitted.getLast?
          = some (Notification.errorOccurred ProcessError.FailedToStart)) := by
  refine ⟨handleError_effect w kind msg, ?_⟩
  intro live peer
  have hq : (LauncherHandle.handleErrorPacket w ⟨ProcessError.FailedToStart, msg⟩).caller.m_signals
      = w.caller.m_signals ++ [LauncherSignal.ErrorSignal ProcessError.FailedToStart msg] := by
    simp only [LauncherHandle.handleErrorPacket, wakeUpIfWaitingFor_launcher, peer,
      Bool.not_true, Bool.false_eq_true, if_false, flushCaller_caller,
      wakeUpIfWaitingFor_caller]
    rw [appendSignal_error _ _ _ live]
  rw [flush_eq, hq, List.foldl_append]
  simp only [List.foldl_cons, List.foldl_nil]
  generalize List.foldl CallerHandle.handleSignal _ w.caller.m_signals = w1
  obtain ⟨e1, e2, _, e4, e5, _⟩ := handleError_effect w1 ProcessError.FailedToStart msg
  exact ⟨e1, e5 rfl, e2, by rw [show CallerHandle.handleSignal w1
    (LauncherSignal.ErrorSignal ProcessError.FailedToStart msg)
      = CallerHandle.handleError w1 ProcessError.FailedToStart msg from rfl, e4]; simp⟩

/-- Witness for C6: the example pair is in state `Starting`; after `ProcessError{FailedToStart,
"no such file"}` and a drain it is `NotRunning` with exit code 255 and one
`errorOccurred(FailedToStart)`. -/
theorem drain_error_witness :
    exampleWorld.caller.m_processState = ProcessState.Starting
      ∧ (CallerHandle.flush (LauncherHandle.handleErrorPacket exampleWorld
          ⟨ProcessError.FailedToStart, "no such file"⟩)).2.caller.m_processState
        = ProcessState.NotRunning
      ∧ (CallerHandle.flush (LauncherHandle.handleErrorPacket exampleWorld
          ⟨ProcessError.FailedToStart, "no such file"⟩)).2.caller.m_exitCode = 255
      ∧ (CallerHandle.flush (LauncherHandle.handleErrorPacket exampleWorld
          ⟨ProcessError.FailedToStart, "no such file"⟩)).2.emitted
        = [Notification.errorOccurred ProcessError.FailedToStart] :=
  ⟨rfl, ((drain_error exampleWorld ProcessError.FailedToStart "no such file").2 rfl rfl).1,
    ((drain_error exampleWorld ProcessError.FailedToStart "no such file").2 rfl rfl).2.1,
    by decide⟩

/-! ## A normal run -/

theorem wakeUpIfWaitingFor_emitted (w : World) (t : SignalType) :
    (LauncherHandle.wakeUpIfWaitingFor w t).emitted = w.emitted := by
  unfold LauncherHandle.wakeUpIfWaitingFor
  simp only []
  split <;> rfl

theorem flushCaller_emitted (w : World) : (LauncherHandle.flushCaller w).emitted = w.emitted := by
  unfold LauncherHandle.flushCaller
  split <;> rfl

/-- Handling an inbound packet emits nothing (notifications are emitted by the drain). -/
theorem handlePacket_emitted (w : World) (packet : InboundPacket) :
    (LauncherHandle.handlePacket w packet).emitted = w.emitted := by
  cases packet <;>
    simp only [LauncherHandle.handlePacket, LauncherHandle.handleErrorPacket,
      LauncherHandle.handleStartedPacket, LauncherHandle.handleReadyReadStandardOutput,
      LauncherHandle.handleReadyReadStandardError, LauncherHandle.handleFinishedPacket] <;>
    (repeat' split) <;>
    simp only [flushCaller_emitted, wakeUpIfWaitingFor_emitted]

theorem handleStartedPacket_caller (w : World) (packet : ProcessStartedPacket)
    (peer : w.launcher.m_callerHandle = true) :
    (LauncherHandle.handleStartedPacket w packet).caller
      = w.caller.appendSignal (LauncherSignal.StartedSignal packet.processId) := by
  simp only [LauncherHandle.handleStartedPacket, wakeUpIfWaitingFor_launcher, peer,
    Bool.not_true, Bool.false_eq_true, if_false, flushCaller_caller, wakeUpIfWaitingFor_caller]

theorem handleReadyReadStandardOutput_caller (w : World) (packet : ReadyReadPacket)
    (peer : w.launcher.m_callerHandle = true) (nonempty : packet.standardChannel ≠ []) :
    (LauncherHandle.handleReadyReadStandardOutput w packet).caller
      = w.caller.appendSignal (LauncherSignal.ReadyReadSignal packet.standardChannel []) := by
  simp only [LauncherHandle.handleReadyReadStandardOutput, wakeUpIfWaitingFor_launcher, peer,
    Bool.not_true, Bool.false_eq_true, if_false, flushCaller_caller, wakeUpIfWaitingFor_caller,
    List.isEmpty_iff, nonempty]

/-- The records `handleFinishedPacket` appends to the queue of a live peer, in order. -/
theorem handleFinishedPacket_caller (w : World) (packet : ProcessFinishedPacket)
    (peer : w.launcher.m_callerHandle = true) :
    (LauncherHandle.handleFinishedPacket w packet).caller
      = CallerHandle.appendSignal
          (if !packet.stdOut.isEmpty || !packet.stdErr.isEmpty then
            CallerHandle.appendSignal
              (if packet.error ≠ ProcessError.UnknownError then
                w.caller.appendSignal
                  (LauncherSignal.ErrorSignal packet.error packet.errorString)
              else w.caller)
              (LauncherSignal.ReadyReadSignal packet.stdOut packet.stdErr)
          else
            (if packet.error ≠ ProcessError.UnknownError then
              w.caller.appendSignal
                (LauncherSignal.ErrorSignal packet.error packet.errorString)
            else w.caller))
          (LauncherSignal.FinishedSignal packet.exitStatus packet.exitCode) := by
  simp only [LauncherHandle.handleFinishedPacket, wakeUpIfWaitingFor_launcher, peer,
    Bool.not_true, Bool.false_eq_true, if_false, flushCaller_caller, wakeUpIfWaitingFor_caller]

theorem handleStartedPacket_launcher (w : World) (packet : ProcessStartedPacket) :
    (LauncherHandle.handleStartedPacket w packet).launcher = w.launcher := by
  simp only [LauncherHandle.handleStartedPacket]
  split <;> simp only [flushCaller_launcher, wakeUpIfWaitingFor_launcher]

theorem handleReadyReadStandardOutput_launcher (w : World) (packet : ReadyReadPacket) :
    (LauncherHandle.handleReadyReadStandardOutput w packet).launcher = w.launcher := by
  simp only [LauncherHandle.handleReadyReadStandardOutput]
  (repeat' split) <;> simp only [flushCaller_launcher, wakeUpIfWaitingFor_launcher]

/-- Draining `Started(pid)`, `ReadyRead(b, [])`, `Finished(s, c)` in this order with empty
buffers, non-empty `b` and a channel mode that forwards nothing. -/
theorem drain_normal_run (w : World) (pid : Int) (b : QByteArray) (c : Int) (s : ExitStatus)
    (mode : ForwardsNothing w.caller.m_channelMode)
    (out : w.caller.m_stdout = []) (err : w.caller.m_stderr = []) (nonempty : b ≠ []) :
    ([LauncherSignal.StartedSignal pid, LauncherSignal.ReadyReadSignal b [],
        LauncherSignal.FinishedSignal s c].foldl CallerHandle.handleSignal w).emitted
        = w.emitted ++ [Notification.started, Notification.readyReadStandardOutput,
            Notification.finished c s]
      ∧ ([LauncherSignal.StartedSignal pid, LauncherSignal.ReadyReadSignal b [],
        LauncherSignal.FinishedSignal s c].foldl CallerHandle.handleSignal w).caller
        = { w.caller with
            m_processState := ProcessState.NotRunning
            m_processId := pid
            m_exitCode := c
            m_exitStatus := s
            m_stdout := b } := by
  obtain ⟨m1, m2, m3⟩ := mode
  have hb : (!b.isEmpty) = true := by
    cases b with
    | nil => exact absurd rfl nonempty
    | cons x xs => rfl
  simp [CallerHandle.handleSignal, CallerHandle.handleStarted, CallerHandle.handleReadyRead,
    CallerHandle.handleFinished, emit, m1, m2, m3, out, err, hb]

/-- C7 (normal run): on a live pair with empty queue, empty buffers and a channel mode that
forwards nothing (in any process state, in particular `Starting`), handling
`ProcessStarted{pid}`, `ReadyReadStandardOutput{b}` with non-empty `b`, and
`ProcessFinished{s, c, stdout empty, stderr empty, UnknownError}` in this order and then
draining emits exactly `started`, `readyReadStandardOutput`, `finished(c, s)` in this order,
and leaves `processId() = pid`, `state() = NotRunning`, `exitCode() = c`, `exitStatus() = s`
and `readAllStandardOutput() = b`. -/
theorem normal_run (w : World) (pid : Int) (b : QByteArray) (c : Int) (s : ExitStatus)
    (msg : QString)
    (live : w.caller.m_launcherHandle = true) (peer : w.launcher.m_callerHandle = true)
    (mode : ForwardsNothing w.caller.m_channelMode)
    (empty : w.caller.m_signals = [])
    (out : w.caller.m_stdout = []) (err : w.caller.m_stderr = []) (nonempty : b ≠ []) :
    (run w [Op.handlePacket (InboundPacket.ProcessStarted ⟨pid⟩),
        Op.handlePacket (InboundPacket.ReadyReadStandardOutput ⟨b⟩),
        Op.handlePacket (InboundPacket.ProcessFinished
          ⟨s, c, [], [], ProcessError.UnknownError, msg⟩),
        Op.flush]).emitted
        = w.emitted ++ [Notification.started, Notification.readyReadStandardOutput,
            Notification.finished c s]
      ∧ (run w [Op.handlePacket (InboundPacket.ProcessStarted ⟨pid⟩),
        Op.handlePacket (InboundPacket.ReadyReadStandardOutput ⟨b⟩),
        Op.handlePacket (InboundPacket.ProcessFinished
          ⟨s, c, [], [], ProcessError.UnknownError, msg⟩),
        Op.flush]).caller
        = { w.caller with
            m_processState := ProcessState.NotRunning
            m_processId := pid
            m_exitCode := c
            m_exitStatus := s
            m_stdout := b }
      ∧ (CallerHandle.readAllStandardOutput (run w
        [Op.handlePacket (InboundPacket.ProcessStarted ⟨pid⟩),
        Op.handlePacket (InboundPacket.ReadyReadStandardOutput ⟨b⟩),
        Op.handlePacket (InboundPacket.ProcessFinished
          ⟨s, c, [], [], ProcessError.UnknownError, msg⟩),
        Op.flush])).1 = b := by
  -- the three packets, one after the other
  have c1 : (LauncherHandle.handleStartedPacket w ⟨pid⟩).caller
      = { w.caller with m_signals := [LauncherSignal.StartedSignal pid] } := by
    rw [handleStartedPacket_caller w _ peer]
    simp [CallerHandle.appendSignal, LauncherSignal.signalType, live, empty]
  have l1 : (LauncherHandle.handleStartedPacket w ⟨pid⟩).launcher.m_callerHandle = true := by
    rw [handleStartedPacket_launcher]; exact peer
  have c2 : (LauncherHandle.handleReadyReadStandardOutput
      (LauncherHandle.handleStartedPacket w ⟨pid⟩) ⟨b⟩).caller
      = { w.caller with m_signals :=
          [LauncherSignal.StartedSignal pid, LauncherSignal.ReadyReadSignal b []] } := by
    rw [handleReadyReadStandardOutput_caller _ _ l1 nonempty, c1]
    simp [CallerHandle.appendSignal, LauncherSignal.signalType, live]
  have l2 : (LauncherHandle.handleReadyReadStandardOutput
      (LauncherHandle.handleStartedPacket w ⟨pid⟩) ⟨b⟩).launcher.m_callerHandle = true := by
    rw [handleReadyReadStandardOutput_launcher]; exact l1
  have c3 : (LauncherHandle.handleFinishedPacket (LauncherHandle.handleReadyReadStandardOutput
      (LauncherHandle.handleStartedPacket w ⟨pid⟩) ⟨b⟩)
      ⟨s, c, [], [], ProcessError.UnknownError, msg⟩).caller
      = { w.caller with m_signals :=
          [LauncherSignal.StartedSignal pid, LauncherSignal.ReadyReadSignal b [],
            LauncherSignal.FinishedSignal s c] } := by
    rw [handleFinishedPacket_caller _ _ l2, c2]
    simp [CallerHandle.appendSignal, LauncherSignal.signalType, live]
  have e3 : (LauncherHandle.handleFinishedPacket (LauncherHandle.handleReadyReadStandardOutput
      (LauncherHandle.handleStartedPacket w ⟨pid⟩) ⟨b⟩)
      ⟨s, c, [], [], ProcessError.UnknownError, msg⟩).emitted = w.emitted := by
    have h3 := handlePacket_emitted (LauncherHandle.handleReadyReadStandardOutput
      (LauncherHandle.handleStartedPacket w ⟨pid⟩) ⟨b⟩)
      (InboundPacket.ProcessFinished ⟨s, c, [], [], ProcessError.UnknownError, msg⟩)
    have h2 := handlePacket_emitted (LauncherHandle.handleStartedPacket w ⟨pid⟩)
      (InboundPacket.ReadyReadStandardOutput ⟨b⟩)
    have h1 := handlePacket_emitted w (InboundPacket.ProcessStarted ⟨pid⟩)
    simp only [LauncherHandle.handlePacket] at h1 h2 h3
    rw [h3, h2, h1]
  -- the drain
  have hrun : run w [Op.handlePacket (InboundPacket.ProcessStarted ⟨pid⟩),
        Op.handlePacket (InboundPacket.ReadyReadStandardOutput ⟨b⟩),
        Op.handlePacket (InboundPacket.ProcessFinished
          ⟨s, c, [], [], ProcessError.UnknownError, msg⟩),
        Op.flush]
      = (CallerHandle.flush (LauncherHandle.handleFinishedPacket
          (LauncherHandle.handleReadyReadStandardOutput
            (LauncherHandle.handleStartedPacket w ⟨pid⟩) ⟨b⟩)
          ⟨s, c, [], [], ProcessError.UnknownError, msg⟩)).2 := rfl
  rw [hrun, flush_eq, c3]
  simp only []
  generalize hw3 : LauncherHandle.handleFinishedPacket _ _ = w3 at c3 e3
  obtain ⟨d1, d2⟩ := drain_normal_run
    { w3 with caller := { w.caller with m_signals := [] } } pid b c s mode out err nonempty
  refine ⟨?_, ?_, ?_⟩
  · rw [d1, e3]
  · rw [d2, ← empty]
  · simp only [CallerHandle.readAllStandardOutput, readAndClear, d2]

/-- Witness for C7: pid 4711, output "hello\n" (bytes 104 101 108 108 111 10), exit code 0,
exit status `NormalExit`, on the example pair in state `Starting`. -/
theorem normal_run_witness :
    exampleWorld.caller.m_processState = ProcessState.Starting
      ∧ (run exampleWorld [Op.handlePacket (InboundPacket.ProcessStarted ⟨4711⟩),
        Op.handlePacket (InboundPacket.ReadyReadStandardOutput ⟨[104, 101, 108, 108, 111, 10]⟩),
        Op.handlePacket (InboundPacket.ProcessFinished
          ⟨ExitStatus.NormalExit, 0, [], [], ProcessError.UnknownError, "Unknown error"⟩),
        Op.flush]).emitted
        = [Notification.started, Notification.readyReadStandardOutput,
            Notification.finished 0 ExitStatus.NormalExit]
      ∧ (run exampleWorld [Op.handlePacket (InboundPacket.ProcessStarted ⟨4711⟩),
        Op.handlePacket (InboundPacket.ReadyReadStandardOutput ⟨[104, 101, 108, 108, 111, 10]⟩),
        Op.handlePacket (InboundPacket.ProcessFinished
          ⟨ExitStatus.NormalExit, 0, [], [], ProcessError.UnknownError, "Unknown error"⟩),
        Op.flush]).caller
        = { exampleCaller with
            m_processState := ProcessState.NotRunning
            m_processId := 4711
            m_exitCode := 0
            m_exitStatus := ExitStatus.NormalExit
            m_stdout := [104, 101, 108, 108, 111, 10] }
      ∧ (CallerHandle.readAllStandardOutput (run exampleWorld
        [Op.handlePacket (InboundPacket.ProcessStarted ⟨4711⟩),
        Op.handlePacket (InboundPacket.ReadyReadStandardOutput ⟨[104, 101, 108, 108, 111, 10]⟩),
        Op.handlePacket (InboundPacket.ProcessFinished
          ⟨ExitStatus.NormalExit, 0, [], [], ProcessError.UnknownError, "Unknown error"⟩),
        Op.flush])).1 = [104, 101, 108, 108, 111, 10] :=
  ⟨rfl, normal_run exampleWorld 4711 [104, 101, 108, 108, 111, 10] 0 ExitStatus.NormalExit
    "Unknown error" rfl rfl (by decide) rfl rfl rfl (by decide)⟩

/-! ## `write` and `cancel` -/

/-- C8: `write(d)` on an endpoint whose state is not `Running` returns -1, sends no packet and
changes no field (the world is unchanged); in state `Running` it hands exactly one `Write`
packet carrying the endpoint's token and the data `d` to `sendPacket`, changes nothing else,
and returns the length of `d`. -/
theorem write_contract (w : World) (d : QByteArray) :
    (w.caller.m_processState ≠ ProcessState.Running → CallerHandle.write w d = (-1, w))
    ∧ (w.caller.m_processState = ProcessState.Running →
        CallerHandle.write w d
          = ((d.length : Int),
             { w with sent := w.sent ++ [LauncherPacket.WritePacket w.caller.m_token d] })) := by
  constructor
  · intro h
    simp [CallerHandle.write, h]
  · intro h
    simp [CallerHandle.write, h, CallerHandle.sendPacket]

/-- Witness for C8: the example pair is `Starting`, so `write [1, 2]` returns -1 and changes
nothing; once it is `Running` the same call returns 2 and sends `Write(7, [1, 2])`. -/
theorem write_contract_witness :
    CallerHandle.write exampleWorld [1, 2] = (-1, exampleWorld)
      ∧ CallerHandle.write
          { exampleWorld with caller :=
            { exampleCaller with m_processState := ProcessState.Running } } [1, 2]
        = (2, { exampleWorld with
            caller := { exampleCaller with m_processState := ProcessState.Running }
            sent := [LauncherPacket.WritePacket 7 [1, 2]] }) :=
  ⟨(write_contract exampleWorld [1, 2]).1 (by decide),
    (write_contract
      { exampleWorld with caller :=
        { exampleCaller with m_processState := ProcessState.Running } } [1, 2]).2 rfl⟩

theorem cancel_notRunning (w : World)
    (h : w.caller.m_processState = ProcessState.NotRunning) :
    (CallerHandle.cancel w).caller = w.caller
      ∧ (CallerHandle.cancel w).sent = w.sent
      ∧ (CallerHandle.cancel w).emitted = w.emitted := by
  unfold CallerHandle.cancel
  simp only [h]
  split
  · refine ⟨?_, rfl, rfl⟩
    simp only []
    rw [← h]
  · refine ⟨?_, rfl, rfl⟩
    simp only []
    rw [← h]

theorem cancel_state (w : World) :
    (CallerHandle.cancel w).caller.m_processState = ProcessState.NotRunning := by
  unfold CallerHandle.cancel
  simp only []
  cases w.caller.m_processState <;> simp only [] <;> (repeat' split) <;> rfl

theorem cancel_of_notRunning (w : World)
    (h : w.caller.m_processState = ProcessState.NotRunning) :
    CallerHandle.cancel w
      = if w.caller.m_launcherHandle then { w with launcher := w.launcher.setCanceled }
        else w := by
  obtain ⟨c, l, r, e, s, co, ce, pf, wu⟩ := w
  obtain ⟨a1, a2, a3, a4, a5, a6, a7, a8, a9, a10, a11, a12, a13, a14, a15, a16, a17, a18, a19,
    a20, a21, a22, a23, a24⟩ := c
  simp only at h
  subst h
  simp only [CallerHandle.cancel]

/-- After `cancel()` on an endpoint with a live peer the wait flag of the peer is already
cleared, so clearing it again changes nothing. -/
theorem cancel_setCanceled (w : World)
    (live : (CallerHandle.cancel w).caller.m_launcherHandle = true) :
    (CallerHandle.cancel w).launcher.setCanceled = (CallerHandle.cancel w).launcher := by
  revert live
  unfold CallerHandle.cancel
  simp only []
  cases w.caller.m_processState <;> simp only [] <;> (repeat' split) <;>
    simp_all [LauncherHandle.setCanceled, CallerHandle.sendPacket, emit]

/-- C9: `cancel()` is idempotent and safe in every state: whatever the process state, the
back-references and the socket, after `cancel()` the process state is `NotRunning`, and a
second `cancel()` right afterwards sends no packet, emits no notification and leaves every
field of the caller-side endpoint (state, error, errorString, exitCode, buffers, signal queue
and all others) exactly as the first call left it. -/
theorem cancel_idempotent (w : World) :
    (CallerHandle.cancel w).caller.m_processState = ProcessState.NotRunning
      ∧ (CallerHandle.cancel (CallerHandle.cancel w)).sent = (CallerHandle.cancel w).sent
      ∧ (CallerHandle.cancel (CallerHandle.cancel w)).emitted = (CallerHandle.cancel w).emitted
      ∧ (CallerHandle.cancel (CallerHandle.cancel w)).caller = (CallerHandle.cancel w).caller
      ∧ CallerHandle.cancel (CallerHandle.cancel w) = CallerHandle.cancel w := by
  have hs := cancel_state w
  obtain ⟨h1, h2, h3⟩ := cancel_notRunning (CallerHandle.cancel w) hs
  refine ⟨hs, h2, h3, h1, ?_⟩
  rw [cancel_of_notRunning _ hs]
  split
  · rename_i live
    rw [cancel_setCanceled w live]
  · rfl

/-- C10: `cancel()` dispatches on the state it replaces.  From `Starting` it sets `error()` to
`FailedToStart` and `errorString()` to the canned "Process was canceled before it was started."
and then, if the socket is ready, sends exactly one `StopProcess` packet for the token and
emits nothing, otherwise emits `errorOccurred(FailedToStart)` exactly once and sends nothing.
From `Running` it sends exactly one `StopProcess` packet for the token, emits nothing and
leaves `error()` and `errorString()` unchanged.  From `NotRunning` it sends nothing and emits
nothing. -/
theorem cancel_dispatch (w : World) :
    (w.caller.m_processState = ProcessState.Starting →
        (CallerHandle.cancel w).caller.m_error = ProcessError.FailedToStart
        ∧ (CallerHandle.cancel w).caller.m_errorString = canceledBeforeStarted
        ∧ (w.isReady = true →
            (CallerHandle.cancel w).sent
                = w.sent ++ [LauncherPacket.StopProcessPacket w.caller.m_token]
              ∧ (CallerHandle.cancel w).emitted = w.emitted)
        ∧ (w.isReady = false →
            (CallerHandle.cancel w).emitted
                = w.emitted ++ [Notification.errorOccurred ProcessError.FailedToStart]
              ∧ (CallerHandle.cancel w).sent = w.sent))
    ∧ (w.caller.m_processState = ProcessState.Running →
        (CallerHandle.cancel w).sent
            = w.sent ++ [LauncherPacket.StopProcessPacket w.caller.m_token]
          ∧ (CallerHandle.cancel w).emitted = w.emitted
          ∧ (CallerHandle.cancel w).caller.m_error = w.caller.m_error
          ∧ (CallerHandle.cancel w).caller.m_errorString = w.caller.m_errorString)
    ∧ (w.caller.m_processState = ProcessState.NotRunning →
        (CallerHandle.cancel w).sent = w.sent
          ∧ (CallerHandle.cancel w).emitted = w.emitted) := by
  refine ⟨?_, ?_, ?_⟩
  · intro h
    unfold CallerHandle.cancel
    simp only [h]
    cases hr : w.isReady <;> cases hl : w.caller.m_launcherHandle <;>
      simp [CallerHandle.sendPacket, emit, hl]
  · intro h
    unfold CallerHandle.cancel
    simp only [h]
    cases hl : w.caller.m_launcherHandle <;> simp [CallerHandle.sendPacket, hl]
  · intro h
    obtain ⟨_, h2, h3⟩ := cancel_notRunning w h
    exact ⟨h2, h3⟩

/-- Witness for C10: the example pair is `Starting`; with the socket ready `cancel()` sends
`StopProcess(7)` and emits nothing, with the socket not ready it emits
`errorOccurred(FailedToStart)` and sends nothing. -/
theorem cancel_dispatch_witness :
    ((CallerHandle.cancel exampleWorld).sent = [LauncherPacket.StopProcessPacket 7]
        ∧ (CallerHandle.cancel exampleWorld).emitted = [])
      ∧ ((CallerHandle.cancel { exampleWorld with isReady := false }).emitted
          = [Notification.errorOccurred ProcessError.FailedToStart]
        ∧ (CallerHandle.cancel { exampleWorld with isReady := false }).sent = [])
      ∧ (CallerHandle.cancel { exampleWorld with isReady := false }).caller.m_errorString
          = "Process was canceled before it was started." :=
  ⟨((cancel_dispatch exampleWorld).1 rfl).2.2.1 rfl,
    ((cancel_dispatch { exampleWorld with isReady := false }).1 rfl).2.2.2 rfl,
    ((cancel_dispatch { exampleWorld with isReady := false }).1 rfl).2.1⟩

/-! ## `StartProcess` packets -/

/-- Draining one record touches neither the packets sent, nor the stash, the token, the
back-references, the launcher-side endpoint or the socket. -/
theorem handleSignal_frame (w : World) (s : LauncherSignal) :
    (CallerHandle.handleSignal w s).sent = w.sent
      ∧ (CallerHandle.handleSignal w s).caller.m_startPacket = w.caller.m_startPacket
      ∧ (CallerHandle.handleSignal w s).caller.m_token = w.caller.m_token
      ∧ (CallerHandle.handleSignal w s).caller.m_launcherHandle = w.caller.m_launcherHandle
      ∧ (CallerHandle.handleSignal w s).launcher = w.launcher
      ∧ (CallerHandle.handleSignal w s).isReady = w.isReady := by
  cases s with
  | ErrorSignal e str =>
    simp only [CallerHandle.handleSignal, CallerHandle.handleError, emit]
    split <;> simp
  | StartedSignal pid => simp [CallerHandle.handleSignal, CallerHandle.handleStarted, emit]
  | ReadyReadSignal o e =>
    simp only [CallerHandle.handleSignal, CallerHandle.handleReadyRead, emit]
    refine ⟨?_, ?_, ?_, ?_, ?_, ?_⟩ <;>
      (split <;> split <;> (try split) <;> (try split) <;> rfl)
  | FinishedSignal st code => simp [CallerHandle.handleSignal, CallerHandle.handleFinished, emit]

theorem foldl_handleSignal_frame (l : List LauncherSignal) (w : World) :
    (l.foldl CallerHandle.handleSignal w).sent = w.sent
      ∧ (l.foldl CallerHandle.handleSignal w).caller.m_startPacket = w.caller.m_startPacket
      ∧ (l.foldl CallerHandle.handleSignal w).caller.m_token = w.caller.m_token
      ∧ (l.foldl CallerHandle.handleSignal w).caller.m_launcherHandle
          = w.caller.m_launcherHandle
      ∧ (l.foldl CallerHandle.handleSignal w).launcher = w.launcher
      ∧ (l.foldl CallerHandle.handleSignal w).isReady = w.isReady := by
  induction l generalizing w with
  | nil => simp
  | cons s l ih =>
    obtain ⟨h1, h2, h3, h4, h5, h6⟩ := handleSignal_frame w s
    obtain ⟨i1, i2, i3, i4, i5, i6⟩ := ih (CallerHandle.handleSignal w s)
    rw [List.foldl_cons]
    exact ⟨i1.trans h1, i2.trans h2, i3.trans h3, i4.trans h4, i5.trans h5, i6.trans h6⟩

theorem flushFor_frame (w : World) (t : SignalType) :
    (CallerHandle.flushFor w t).2.sent = w.sent
      ∧ (CallerHandle.flushFor w t).2.caller.m_startPacket = w.caller.m_startPacket
      ∧ (CallerHandle.flushFor w t).2.caller.m_token = w.caller.m_token
      ∧ (CallerHandle.flushFor w t).2.caller.m_launcherHandle = w.caller.m_launcherHandle
      ∧ (CallerHandle.flushFor w t).2.launcher = w.launcher
      ∧ (CallerHandle.flushFor w t).2.isReady = w.isReady := by
  simp only [CallerHandle.flushFor]
  exact foldl_handleSignal_frame _ _

theorem wakeUpIfWaitingFor_sent (w : World) (t : SignalType) :
    (LauncherHandle.wakeUpIfWaitingFor w t).sent = w.sent := by
  unfold LauncherHandle.wakeUpIfWaitingFor
  simp only []
  split <;> rfl

theorem flushCaller_sent (w : World) : (LauncherHandle.flushCaller w).sent = w.sent := by
  unfold LauncherHandle.flushCaller
  split <;> rfl

theorem appendSignal_exceptSignals (h c : CallerHandle) (s : LauncherSignal)
    (hc : c = { h with m_signals := c.m_signals }) :
    c.appendSignal s = { h with m_signals := (c.appendSignal s).m_signals } := by
  have e := appendSignal_fields c s
  generalize (c.appendSignal s).m_signals = q at e ⊢
  rw [e, hc]

/-- Fields of an endpoint that an operation changing only the queue leaves alone. -/
theorem exceptSignals_fields (h c : CallerHandle)
    (hc : c = { h with m_signals := c.m_signals }) :
    c.m_startPacket = h.m_startPacket ∧ c.m_processState = h.m_processState
      ∧ c.m_token = h.m_token ∧ c.m_launcherHandle = h.m_launcherHandle
      ∧ c.m_channelMode = h.m_channelMode ∧ c.m_stdout = h.m_stdout
      ∧ c.m_stderr = h.m_stderr := by
  have e1 := congrArg CallerHandle.m_startPacket hc
  have e2 := congrArg CallerHandle.m_processState hc
  have e3 := congrArg CallerHandle.m_token hc
  have e4 := congrArg CallerHandle.m_launcherHandle hc
  have e5 := congrArg CallerHandle.m_channelMode hc
  have e6 := congrArg CallerHandle.m_stdout hc
  have e7 := congrArg CallerHandle.m_stderr hc
  exact ⟨e1, e2, e3, e4, e5, e6, e7⟩

/-- Handling an inbound packet changes nothing of the caller-side endpoint but its queue, and
sends nothing. -/
theorem handlePacket_frame (w : World) (packet : InboundPacket) :
    (LauncherHandle.handlePacket w packet).sent = w.sent
      ∧ (LauncherHandle.handlePacket w packet).caller
          = { w.caller with m_signals := (LauncherHandle.handlePacket w packet).caller.m_signals }
      ∧ (LauncherHandle.handlePacket w packet).launcher = w.launcher := by
  refine ⟨?_, ?_, ?_⟩
  · cases packet <;>
      simp only [LauncherHandle.handlePacket, LauncherHandle.handleErrorPacket,
        LauncherHandle.handleStartedPacket, LauncherHandle.handleReadyReadStandardOutput,
        LauncherHandle.handleReadyReadStandardError, LauncherHandle.handleFinishedPacket] <;>
      (repeat' split) <;>
      simp only [flushCaller_sent, wakeUpIfWaitingFor_sent]
  · cases packet <;>
      simp only [LauncherHandle.handlePacket, LauncherHandle.handleErrorPacket,
        LauncherHandle.handleStartedPacket, LauncherHandle.handleReadyReadStandardOutput,
        LauncherHandle.handleReadyReadStandardError, LauncherHandle.handleFinishedPacket] <;>
      (repeat' split) <;>
      simp only [flushCaller_caller, wakeUpIfWaitingFor_caller] <;>
      first
        | rfl
        | exact appendSignal_exceptSignals _ _ _ rfl
        | exact appendSignal_exceptSignals _ _ _ (appendSignal_exceptSignals _ _ _ rfl)
        | exact appendSignal_exceptSignals _ _ _ (appendSignal_exceptSignals _ _ _
            (appendSignal_exceptSignals _ _ _ rfl))
  · cases packet <;>
      simp only [LauncherHandle.handlePacket, LauncherHandle.handleErrorPacket,
        LauncherHandle.handleStartedPacket, LauncherHandle.handleReadyReadStandardOutput,
        LauncherHandle.handleReadyReadStandardError, LauncherHandle.handleFinishedPacket] <;>
      (repeat' split) <;>
      simp only [flushCaller_launcher, wakeUpIfWaitingFor_launcher]

theorem startProcessCount_append (t : Nat) (a b : List LauncherPacket) :
    startProcessCount t (a ++ b) = startProcessCount t a + startProcessCount t b := by
  induction a with
  | nil => simp [startProcessCount]
  | cons p a ih =>
    cases p <;> simp [startProcessCount, ih, Nat.add_assoc]

theorem doStart_count (t : Nat) (w : World) :
    startProcessCount t (CallerHandle.doStart w).sent + pendingStart (CallerHandle.doStart w)
      ≤ startProcessCount t w.sent + pendingStart w := by
  unfold CallerHandle.doStart
  cases h : w.caller.m_startPacket with
  | none => simp [pendingStart, h]
  | some p =>
    simp only [pendingStart, h, CallerHandle.sendPacket, startProcessCount_append,
      startProcessCount, Option.isSome_some, Option.isSome_none, if_true, Bool.false_eq_true,
      if_false]
    split <;> omega

theorem cancel_count (t : Nat) (w : World) :
    startProcessCount t (CallerHandle.cancel w).sent = startProcessCount t w.sent
      ∧ (CallerHandle.cancel w).caller.m_startPacket = w.caller.m_startPacket := by
  unfold CallerHandle.cancel
  simp only []
  cases w.caller.m_processState <;> simp only [] <;> (repeat' split) <;>
    simp [CallerHandle.sendPacket, emit, startProcessCount_append, startProcessCount]

theorem handleSocketError_frame (w : World) (message : QString) :
    (LauncherHandle.handleSocketError w message).sent = w.sent
      ∧ (LauncherHandle.handleSocketError w message).caller
          = { w.caller with
              m_signals := (LauncherHandle.handleSocketError w message).caller.m_signals } := by
  simp only [LauncherHandle.handleSocketError]
  split
  · exact ⟨by rw [wakeUpIfWaitingFor_sent], by rw [wakeUpIfWaitingFor_caller]⟩
  · refine ⟨by rw [flushCaller_sent, wakeUpIfWaitingFor_sent], ?_⟩
    rw [flushCaller_caller]
    simp only [wakeUpIfWaitingFor_caller]
    exact appendSignal_exceptSignals _ _ _ rfl

/-- One operation adds at most one `StartProcess` packet to those sent or stashed, and only
if it is a `start` call. -/
theorem step_startProcess (t : Nat) (w : World) (op : Op) :
    startProcessCount t (step w op).sent + pendingStart (step w op)
      ≤ startProcessCount t w.sent + pendingStart w + startCalls [op] := by
  cases op with
  | start program arguments writeData =>
    simp only [step, startCalls, CallerHandle.start]
    split
    · simp [emit, pendingStart]
    · split
      · omega
      · split
        · refine Nat.le_trans (doStart_count t _) ?_
          simp only [pendingStart, Option.isSome_some, if_true]
          omega
        · simp only [pendingStart, Option.isSome_some, if_true]
          omega
  | cancel =>
    obtain ⟨h1, h2⟩ := cancel_count t w
    simp only [step, startCalls, pendingStart, h1, h2]
    omega
  | write data =>
    simp only [step, startCalls, CallerHandle.write]
    split
    · simp
    · simp [CallerHandle.sendPacket, startProcessCount_append, startProcessCount, pendingStart]
  | flush =>
    obtain ⟨h1, h2, _⟩ := flushFor_frame w SignalType.NoSignal
    simp only [step, startCalls, CallerHandle.flush, pendingStart, h1, h2]
    omega
  | flushFor signalType =>
    obtain ⟨h1, h2, _⟩ := flushFor_frame w signalType
    simp only [step, startCalls, pendingStart, h1, h2]
    omega
  | handlePacket packet =>
    obtain ⟨h1, h2, _⟩ := handlePacket_frame w packet
    have hs := (exceptSignals_fields _ _ h2).1
    simp only [step, startCalls, pendingStart, h1, hs]
    omega
  | socketReady =>
    simp only [step, startCalls, LauncherHandle.handleSocketReady, CallerHandle.startIfNeeded]
    split
    · split
      · refine Nat.le_trans (doStart_count t _) ?_
        simp [pendingStart]
      · simp [pendingStart]
    · simp [pendingStart]
  | socketError message =>
    obtain ⟨h1, h2⟩ := handleSocketError_frame { w with isReady := false } message
    have hs := (exceptSignals_fields _ _ h2).1
    simp only [step, startCalls, pendingStart, h1, hs]
    omega
  | readAllStandardOutput => simp [step, startCalls, CallerHandle.readAllStandardOutput,
      pendingStart]
  | readAllStandardError => simp [step, startCalls, CallerHandle.readAllStandardError,
      pendingStart]
  | _ => simp [step, startCalls, pendingStart]

theorem startCalls_cons (op : Op) (ops : List Op) :
    startCalls (op :: ops) = startCalls [op] + startCalls ops := by
  cases op <;> simp [startCalls]

theorem run_startProcess (t : Nat) (ops : List Op) (w : World) :
    startProcessCount t (run w ops).sent + pendingStart (run w ops)
      ≤ startProcessCount t w.sent + pendingStart w + startCalls ops := by
  induction ops generalizing w with
  | nil => simp [run, startCalls]
  | cons op ops ih =>
    have h1 := step_startProcess t w op
    have h2 := ih (step w op)
    have hrun : run w (op :: ops) = run (step w op) ops := rfl
    rw [hrun, startCalls_cons]
    omega

/-- C11, as amended: a `StartProcess` packet is sent at most once per `start` call.  Over every
sequence of operations applied to an endpoint pair that starts with nothing sent and nothing
stashed, the number of `StartProcess` packets handed to `sendPacket` for a token is at most
the number of `start` calls in the sequence; in particular it is at most 1 when `start` is
called at most once. -/
theorem startProcess_at_most_once_per_start (w : World) (ops : List Op) (token : Nat)
    (nothingSent : w.sent = []) (nothingStashed : w.caller.m_startPacket = none) :
    startProcessCount token (run w ops).sent ≤ startCalls ops
      ∧ (startCalls ops ≤ 1 → startProcessCount token (run w ops).sent ≤ 1) := by
  have h := run_startProcess token ops w
  simp only [nothingSent, startProcessCount, pendingStart, nothingStashed,
    Option.isSome_none, Bool.false_eq_true, if_false] at h
  constructor
  · omega
  · intro h1
    omega

/-- Witness for C11 as amended: `start`, a `ProcessStarted` packet, a drain and `cancel` on the
fresh pair (token 7) send exactly one `StartProcess` packet. -/
theorem startProcess_at_most_once_per_start_witness :
    startProcessCount 7 (run freshWorld
        [Op.start "echo" ["hello"] [], Op.handlePacket (InboundPacket.ProcessStarted ⟨4711⟩),
          Op.flush, Op.cancel]).sent ≤ 1 :=
  (startProcess_at_most_once_per_start freshWorld
    [Op.start "echo" ["hello"] [], Op.handlePacket (InboundPacket.ProcessStarted ⟨4711⟩),
      Op.flush, Op.cancel] 7 rfl rfl).2 (by decide)

/-- Counterexample for C11: on the fresh pair (token 7, socket ready) the caller operations
`start`, `cancel`, `start` hand two `StartProcess` packets for token 7 to `sendPacket`. -/
theorem startProcess_twice :
    freshWorld.sent = [] ∧ freshWorld.caller.m_startPacket = none
      ∧ freshWorld.caller.m_token = 7
      ∧ startProcessCount 7 (run freshWorld
          [Op.start "echo" ["hello"] [], Op.cancel, Op.start "echo" ["hello"] []]).sent = 2
      ∧ ¬ (startProcessCount 7 (run freshWorld
          [Op.start "echo" ["hello"] [], Op.cancel, Op.start "echo" ["hello"] []]).sent ≤ 1) := by
  decide

/-! ## `start` and the deferred `StartProcess` packet -/

/-- What `start` does when it is accepted (state `NotRunning`, live peer, no socket error). -/
theorem start_accepted (w : World) (program : QString) (arguments : List QString)
    (writeData : QByteArray)
    (notRunning : w.caller.m_processState = ProcessState.NotRunning)
    (live : w.caller.m_launcherHandle = true) (noError : w.launcher.m_socketError = false) :
    CallerHandle.start w program arguments writeData
      = if w.isReady then
          { w with
            caller := { w.caller with
              m_command := program
              m_arguments := arguments
              m_writeData := writeData
              m_processState := ProcessState.Starting
              m_startPacket := none }
            sent := w.sent ++ [LauncherPacket.StartProcessPacket
              (configurationSnapshot w.caller program arguments writeData)] }
        else
          { w with
            caller := { w.caller with
              m_command := program
              m_arguments := arguments
              m_writeData := writeData
              m_processState := ProcessState.Starting
              m_startPacket := some (configurationSnapshot w.caller program arguments writeData) } }
      := by
  unfold CallerHandle.start
  simp only [live, noError, notRunning, Bool.not_true, Bool.false_eq_true, or_self, if_false,
    ne_eq, not_true_eq_false]
  cases hr : w.isReady <;>
    simp [CallerHandle.doStart, CallerHandle.sendPacket, configurationSnapshot]

/-- A socket-ready event sends the stashed packet if and only if the state is `Starting`. -/
theorem handleSocketReady_stash (w : World) (peer : w.launcher.m_callerHandle = true) :
    (∀ p, w.caller.m_startPacket = some p →
        w.caller.m_processState = ProcessState.Starting →
        (step w Op.socketReady).sent = w.sent ++ [LauncherPacket.StartProcessPacket p]
          ∧ (step w Op.socketReady).caller.m_startPacket = none)
    ∧ (w.caller.m_processState ≠ ProcessState.Starting →
        (step w Op.socketReady).sent = w.sent
          ∧ (step w Op.socketReady).caller.m_startPacket = w.caller.m_startPacket)
    ∧ (w.caller.m_startPacket = none → (step w Op.socketReady).sent = w.sent
          ∧ (step w Op.socketReady).caller.m_startPacket = none) := by
  refine ⟨?_, ?_, ?_⟩
  · intro p hp hs
    simp [step, LauncherHandle.handleSocketReady, CallerHandle.startIfNeeded, peer, hs,
      CallerHandle.doStart, hp, CallerHandle.sendPacket]
  · intro hs
    simp [step, LauncherHandle.handleSocketReady, CallerHandle.startIfNeeded, peer, hs]
  · intro hp
    simp only [step, LauncherHandle.handleSocketReady, CallerHandle.startIfNeeded, peer,
      if_true]
    split <;> simp [CallerHandle.doStart, hp]

/-- Draining a record never makes the state `Starting`. -/
theorem handleSignal_notStarting (w : World) (s : LauncherSignal)
    (h : w.caller.m_processState ≠ ProcessState.Starting) :
    (CallerHandle.handleSignal w s).caller.m_processState ≠ ProcessState.Starting := by
  cases s with
  | ErrorSignal e str =>
    simp only [CallerHandle.handleSignal, CallerHandle.handleError, emit]
    split <;> simp
  | StartedSignal pid => simp [CallerHandle.handleSignal, CallerHandle.handleStarted, emit]
  | ReadyReadSignal o e =>
    have hs : (CallerHandle.handleSignal w (LauncherSignal.ReadyReadSignal o e)).caller.m_processState
        = w.caller.m_processState := by
      simp only [CallerHandle.handleSignal, CallerHandle.handleReadyRead, emit]
      split <;> split <;> (try split) <;> (try split) <;> rfl
    rw [hs]
    exact h
  | FinishedSignal st code => simp [CallerHandle.handleSignal, CallerHandle.handleFinished, emit]

theorem foldl_handleSignal_notStarting (l : List LauncherSignal) (w : World)
    (h : w.caller.m_processState ≠ ProcessState.Starting) :
    (l.foldl CallerHandle.handleSignal w).caller.m_processState ≠ ProcessState.Starting := by
  induction l generalizing w with
  | nil => exact h
  | cons s l ih => exact ih _ (handleSignal_notStarting w s h)

/-- An operation other than `start` on an endpoint that is not `Starting` leaves it not
`Starting` and sends no `StartProcess` packet. -/
theorem step_notStarting (w : World) (op : Op) (noStart : startCalls [op] = 0)
    (h : w.caller.m_processState ≠ ProcessState.Starting) :
    (step w op).caller.m_processState ≠ ProcessState.Starting
      ∧ ∀ t, startProcessCount t (step w op).sent = startProcessCount t w.sent := by
  cases op with
  | start program arguments writeData => simp [startCalls] at noStart
  | cancel =>
    refine ⟨?_, fun t => (cancel_count t w).1⟩
    simp only [step]
    rw [cancel_state]
    simp
  | write data =>
    simp only [step, CallerHandle.write]
    split
    · exact ⟨h, fun _ => rfl⟩
    · exact ⟨h, fun t => by
        simp [CallerHandle.sendPacket, startProcessCount_append, startProcessCount]⟩
  | flush =>
    refine ⟨?_, fun t => by rw [show step w Op.flush = (CallerHandle.flushFor w
      SignalType.NoSignal).2 from rfl, (flushFor_frame w SignalType.NoSignal).1]⟩
    simp only [step, CallerHandle.flush, CallerHandle.flushFor]
    exact foldl_handleSignal_notStarting _ _ h
  | flushFor signalType =>
    refine ⟨?_, fun t => by rw [show step w (Op.flushFor signalType) = (CallerHandle.flushFor w
      signalType).2 from rfl, (flushFor_frame w signalType).1]⟩
    simp only [step, CallerHandle.flushFor]
    exact foldl_handleSignal_notStarting _ _ h
  | handlePacket packet =>
    obtain ⟨h1, h2, _⟩ := handlePacket_frame w packet
    have hs := (exceptSignals_fields _ _ h2).2.1
    simp only [step, h1, hs]
    exact ⟨h, fun _ => trivial⟩
  | socketReady =>
    simp [step, LauncherHandle.handleSocketReady, CallerHandle.startIfNeeded, h]
  | socketError message =>
    obtain ⟨h1, h2⟩ := handleSocketError_frame { w with isReady := false } message
    have hs := (exceptSignals_fields _ _ h2).2.1
    simp only [step, h1, hs]
    exact ⟨h, fun _ => trivial⟩
  | readAllStandardOutput => exact ⟨h, fun _ => rfl⟩
  | readAllStandardError => exact ⟨h, fun _ => rfl⟩
  | _ => exact ⟨h, fun _ => rfl⟩

theorem run_notStarting (ops : List Op) (w : World) (noStart : startCalls ops = 0)
    (h : w.caller.m_processState ≠ ProcessState.Starting) :
    (run w ops).caller.m_processState ≠ ProcessState.Starting
      ∧ ∀ t, startProcessCount t (run w ops).sent = startProcessCount t w.sent := by
  induction ops generalizing w with
  | nil => exact ⟨h, fun _ => rfl⟩
  | cons op ops ih =>
    rw [startCalls_cons] at noStart
    obtain ⟨s1, s2⟩ := step_notStarting w op (by omega) h
    obtain ⟨i1, i2⟩ := ih (step w op) (by omega) s1
    exact ⟨i1, fun t => (i2 t).trans (s2 t)⟩

/-- C12: on an endpoint in state `NotRunning` with a live peer and no socket error,
`start(program, argv, writeData)` moves the state to `Starting` and builds the `StartProcess`
packet `configurationSnapshot` of the configuration at the time of the call.  If the socket is
ready the packet is sent at once and nothing is stashed, and a later ready event sends
nothing.  Otherwise nothing is sent and the packet is stashed; a ready event on any later
state that still holds a stashed packet sends that packet, and empties the stash, if the
state is `Starting`, and sends nothing if it is not; with an empty stash it sends nothing.
So the ready event right after `start` sends the packet exactly once, a second ready event
sends nothing, and after `start` followed by `cancel` no `StartProcess` packet is sent by any
later operations that contain no new `start`. -/
theorem start_packet_sent_once (w : World) (program : QString) (arguments : List QString)
    (writeData : QByteArray)
    (notRunning : w.caller.m_processState = ProcessState.NotRunning)
    (live : w.caller.m_launcherHandle = true) (peer : w.launcher.m_callerHandle = true)
    (noError : w.launcher.m_socketError = false) :
    (CallerHandle.start w program arguments writeData).caller.m_processState
        = ProcessState.Starting
    ∧ (w.isReady = true →
        (CallerHandle.start w program arguments writeData).sent
            = w.sent ++ [LauncherPacket.StartProcessPacket
                (configurationSnapshot w.caller program arguments writeData)]
          ∧ (CallerHandle.start w program arguments writeData).caller.m_startPacket = none
          ∧ (step (CallerHandle.start w program arguments writeData) Op.socketReady).sent
            = (CallerHandle.start w program arguments writeData).sent)
    ∧ (w.isReady = false →
        (CallerHandle.start w program arguments writeData).sent = w.sent
          ∧ (CallerHandle.start w program arguments writeData).caller.m_startPacket
            = some (configurationSnapshot w.caller program arguments writeData)
          ∧ (step (CallerHandle.start w program arguments writeData) Op.socketReady).sent
            = w.sent ++ [LauncherPacket.StartProcessPacket
                (configurationSnapshot w.caller program arguments writeData)]
          ∧ (step (CallerHandle.start w program arguments writeData)
              Op.socketReady).caller.m_startPacket = none
          ∧ (step (step (CallerHandle.start w program arguments writeData) Op.socketReady)
              Op.socketReady).sent
            = w.sent ++ [LauncherPacket.StartProcessPacket
                (configurationSnapshot w.caller program arguments writeData)]
          ∧ ∀ ops : List Op, startCalls ops = 0 → ∀ t,
              startProcessCount t
                  (run (CallerHandle.cancel (CallerHandle.start w program arguments writeData))
                    ops).sent
                = startProcessCount t w.sent)
    ∧ (∀ (v : World) (p : StartProcessPacket),
        v.launcher.m_callerHandle = true → v.caller.m_startPacket = some p →
        (v.caller.m_processState = ProcessState.Starting →
          (step v Op.socketReady).sent = v.sent ++ [LauncherPacket.StartProcessPacket p]
            ∧ (step v Op.socketReady).caller.m_startPacket = none)
        ∧ (v.caller.m_processState ≠ ProcessState.Starting →
          (step v Op.socketReady).sent = v.sent))
    ∧ (∀ v : World, v.launcher.m_callerHandle = true → v.caller.m_startPacket = none →
        (step v Op.socketReady).sent = v.sent) := by
  have hstart := start_accepted w program arguments writeData notRunning live noError
  have hstate : (CallerHandle.start w program arguments writeData).caller.m_processState
      = ProcessState.Starting := by
    rw [hstart]
    split <;> rfl
  have hlauncher : (CallerHandle.start w program arguments writeData).launcher = w.launcher := by
    rw [hstart]
    split <;> rfl
  have kready : w.isReady = true →
      (CallerHandle.start w program arguments writeData).sent
          = w.sent ++ [LauncherPacket.StartProcessPacket
              (configurationSnapshot w.caller program arguments writeData)]
        ∧ (CallerHandle.start w program arguments writeData).caller.m_startPacket = none := by
    intro hr
    rw [hstart]
    simp [hr]
  have knot : w.isReady = false →
      (CallerHandle.start w program arguments writeData).sent = w.sent
        ∧ (CallerHandle.start w program arguments writeData).caller.m_startPacket
          = some (configurationSnapshot w.caller program arguments writeData) := by
    intro hr
    rw [hstart]
    simp [hr]
  generalize CallerHandle.start w program arguments writeData = S at hstate hlauncher kready knot
  have hpeer : S.launcher.m_callerHandle = true := by rw [hlauncher]; exact peer
  refine ⟨hstate, ?_, ?_, ?_, ?_⟩
  · intro hr
    obtain ⟨k1, k2⟩ := kready hr
    exact ⟨k1, k2, ((handleSocketReady_stash S hpeer).2.2 k2).1⟩
  · intro hr
    obtain ⟨k1, k2⟩ := knot hr
    obtain ⟨h1, h2⟩ := (handleSocketReady_stash S hpeer).1 _ k2 hstate
    have hpeer2 : (step S Op.socketReady).launcher.m_callerHandle = true := by
      simp only [step, LauncherHandle.handleSocketReady, CallerHandle.startIfNeeded, hpeer,
        if_true, hstate, CallerHandle.doStart, k2, CallerHandle.sendPacket]
    have h3 := ((handleSocketReady_stash _ hpeer2).2.2 h2).1
    refine ⟨k1, k2, by rw [h1, k1], h2, by rw [h3, h1, k1], ?_⟩
    intro ops hops t
    have hs := cancel_state S
    rw [(run_notStarting ops _ hops (by rw [hs]; simp)).2 t, (cancel_count t _).1, k1]
  · intro v p hv hp
    exact ⟨(handleSocketReady_stash v hv).1 p hp,
      fun hs => ((handleSocketReady_stash v hv).2.1 hs).1⟩
  · intro v hv hp
    exact ((handleSocketReady_stash v hv).2.2 hp).1

/-- Witness for C12: `start "echo" ["hello"]` on the fresh pair with the socket not ready
stashes the packet and sends nothing; the ready event sends it; `cancel` before the ready
event followed by the ready event sends no `StartProcess` packet at all. -/
theorem start_packet_sent_once_witness :
    (CallerHandle.start { freshWorld with isReady := false } "echo" ["hello"] []).sent = []
      ∧ (step (CallerHandle.start { freshWorld with isReady := false } "echo" ["hello"] [])
          Op.socketReady).sent
        = [LauncherPacket.StartProcessPacket
            (configurationSnapshot freshWorld.caller "echo" ["hello"] [])]
      ∧ startProcessCount 7 (run (CallerHandle.cancel
          (CallerHandle.start { freshWorld with isReady := false } "echo" ["hello"] []))
          [Op.socketReady, Op.flush]).sent = 0 :=
  ⟨((start_packet_sent_once { freshWorld with isReady := false } "echo" ["hello"] []
      rfl rfl rfl rfl).2.2.1 rfl).1,
    ((start_packet_sent_once { freshWorld with isReady := false } "echo" ["hello"] []
      rfl rfl rfl rfl).2.2.1 rfl).2.2.1,
    ((start_packet_sent_once { freshWorld with isReady := false } "echo" ["hello"] []
      rfl rfl rfl rfl).2.2.1 rfl).2.2.2.2.2 [Op.socketReady, Op.flush] rfl 7⟩

/-! ## The wake-up policy -/

/-- C15: for every waiting-for value in {`NoSignal`, `Started`, `ReadyRead`, `Finished`} and
every arriving kind in {`Error`, `Started`, `ReadyRead`, `Finished`}, `wakeUpIfWaitingFor` wakes
the waiter (one `wakeOne`) if and only if one of the four policy rules applies, and otherwise
does nothing.  In particular nothing is woken when nobody waits, and the only pair with a
waiter that does not wake is waiting for `Started` while a `ReadyRead` arrives. -/
theorem wakeUp_policy (w : World) (newSignal : SignalType)
    (arriving : newSignal ≠ SignalType.NoSignal)
    (waiting : w.launcher.m_waitingFor ≠ SignalType.Error) :
    (wakePolicy w.launcher.m_waitingFor newSignal →
        LauncherHandle.wakeUpIfWaitingFor w newSignal = { w with wakeUps := w.wakeUps + 1 })
    ∧ (¬ wakePolicy w.launcher.m_waitingFor newSignal →
        LauncherHandle.wakeUpIfWaitingFor w newSignal = w)
    ∧ ((LauncherHandle.wakeUpIfWaitingFor w newSignal).wakeUps = w.wakeUps + 1
        ↔ wakePolicy w.launcher.m_waitingFor newSignal)
    ∧ (w.launcher.m_waitingFor = SignalType.NoSignal →
        LauncherHandle.wakeUpIfWaitingFor w newSignal = w)
    ∧ (w.launcher.m_waitingFor ≠ SignalType.NoSignal →
        (LauncherHandle.wakeUpIfWaitingFor w newSignal = w
          ↔ w.launcher.m_waitingFor = SignalType.Started
              ∧ newSignal = SignalType.ReadyRead)) := by
  have key : LauncherHandle.wakeUpIfWaitingFor w newSignal
      = if wakePolicy w.launcher.m_waitingFor newSignal then
          { w with wakeUps := w.wakeUps + 1 }
        else w := by
    unfold LauncherHandle.wakeUpIfWaitingFor wakePolicy
    generalize w.launcher.m_waitingFor = wf at waiting
    cases wf <;> cases newSignal <;> simp at arriving waiting ⊢
  have hne : ({ w with wakeUps := w.wakeUps + 1 } : World) ≠ w := by
    intro h
    have := congrArg World.wakeUps h
    simp at this
  rw [key]
  refine ⟨fun h => by rw [if_pos h], fun h => by rw [if_neg h], ?_, ?_, ?_⟩
  · by_cases h : wakePolicy w.launcher.m_waitingFor newSignal
    · simp [h]
    · simp [h]
  · intro h
    rw [if_neg]
    unfold wakePolicy
    rw [h]
    cases newSignal <;> simp at arriving ⊢
  · intro h
    by_cases hp : wakePolicy w.launcher.m_waitingFor newSignal
    · rw [if_pos hp]
      refine ⟨fun e => absurd e hne, ?_⟩
      rintro ⟨h1, h2⟩
      rw [h1, h2] at hp
      exact absurd hp (by decide)
    · rw [if_neg hp]
      refine ⟨fun _ => ?_, fun _ => rfl⟩
      revert hp h waiting
      generalize w.launcher.m_waitingFor = wf
      cases wf <;> cases newSignal <;> simp [wakePolicy] at arriving ⊢

/-- Witness for C15: a waiter for `Finished` is woken by a `Started` record, a waiter for
`Started` is not woken by a `ReadyRead` record. -/
theorem wakeUp_policy_witness :
    (LauncherHandle.wakeUpIfWaitingFor
        { exampleWorld with launcher :=
          { exampleLauncher with m_waitingFor := SignalType.Finished } }
        SignalType.Started).wakeUps = 1
      ∧ LauncherHandle.wakeUpIfWaitingFor
          { exampleWorld with launcher :=
            { exampleLauncher with m_waitingFor := SignalType.Started } }
          SignalType.ReadyRead
        = { exampleWorld with launcher :=
            { exampleLauncher with m_waitingFor := SignalType.Started } } :=
  ⟨(wakeUp_policy
      { exampleWorld with launcher :=
        { exampleLauncher with m_waitingFor := SignalType.Finished } }
      SignalType.Started (by decide) (by decide)).2.2.1.mpr (by decide),
    (wakeUp_policy
      { exampleWorld with launcher :=
        { exampleLauncher with m_waitingFor := SignalType.Started } }
      SignalType.ReadyRead (by decide) (by decide)).2.1 (by decide)⟩

/-! ## Notifications of a drain -/

/-- Draining one record appends notifications of the kind of the record only; a record other
than `ReadyRead` appends exactly one. -/
theorem handleSignal_emitted (w : World) (s : LauncherSignal) :
    ∃ l : List Notification,
      (CallerHandle.handleSignal w s).emitted = w.emitted ++ l
        ∧ (∀ n ∈ l, n.kind = s.signalType)
        ∧ (s.signalType ≠ SignalType.ReadyRead → l.length = 1) := by
  cases s with
  | ErrorSignal e str =>
    exact ⟨[Notification.errorOccurred e], by
      simp only [CallerHandle.handleSignal, CallerHandle.handleError, emit]
      split <;> rfl, by simp [Notification.kind, LauncherSignal.signalType], fun _ => rfl⟩
  | StartedSignal pid =>
    exact ⟨[Notification.started], rfl,
      by simp [Notification.kind, LauncherSignal.signalType], fun _ => rfl⟩
  | FinishedSignal st code =>
    exact ⟨[Notification.finished code st], rfl,
      by simp [Notification.kind, LauncherSignal.signalType], fun _ => rfl⟩
  | ReadyReadSignal o e =>
    have k0 : ∀ n ∈ ([] : List Notification), n.kind = SignalType.ReadyRead := by simp
    have k1 : ∀ n ∈ [Notification.readyReadStandardOutput], n.kind = SignalType.ReadyRead := by
      simp [Notification.kind]
    have k2 : ∀ n ∈ [Notification.readyReadStandardError], n.kind = SignalType.ReadyRead := by
      simp [Notification.kind]
    have k3 : ∀ n ∈ [Notification.readyReadStandardOutput, Notification.readyReadStandardError],
        n.kind = SignalType.ReadyRead := by
      simp [Notification.kind]
    simp only [CallerHandle.handleSignal, CallerHandle.handleReadyRead, emit,
      LauncherSignal.signalType, ne_eq, not_true_eq_false, false_implies, and_true]
    split <;> split <;> (try split) <;> (try split)
    all_goals first
      | exact ⟨[], (List.append_nil _).symm, k0⟩
      | exact ⟨[Notification.readyReadStandardOutput], rfl, k1⟩
      | exact ⟨[Notification.readyReadStandardError], rfl, k2⟩
      | exact ⟨[Notification.readyReadStandardOutput, Notification.readyReadStandardError],
          List.append_assoc _ _ _, k3⟩

/-- Draining a list of records appends notifications each of which has the kind of one of the
records. -/
theorem foldl_handleSignal_emitted (q : List LauncherSignal) (w : World) :
    ∃ l : List Notification,
      (q.foldl CallerHandle.handleSignal w).emitted = w.emitted ++ l
        ∧ ∀ n ∈ l, ∃ s ∈ q, n.kind = s.signalType := by
  induction q generalizing w with
  | nil => exact ⟨[], by simp, by simp⟩
  | cons s q ih =>
    obtain ⟨l1, h1, k1, _⟩ := handleSignal_emitted w s
    obtain ⟨l2, h2, k2⟩ := ih (CallerHandle.handleSignal w s)
    refine ⟨l1 ++ l2, by rw [List.foldl_cons, h2, h1, List.append_assoc], ?_⟩
    intro n hn
    rcases List.mem_append.mp hn with hn | hn
    · exact ⟨s, by simp, k1 n hn⟩
    · obtain ⟨s2, hs2, hk⟩ := k2 n hn
      exact ⟨s2, List.mem_cons_of_mem _ hs2, hk⟩

/-! ## Records appended by `handleFinishedPacket` -/

theorem appendSignal_notReadyRead (h : CallerHandle) (s : LauncherSignal)
    (live : h.m_launcherHandle = true) (hs : s.signalType ≠ SignalType.ReadyRead) :
    h.appendSignal s = { h with m_signals := h.m_signals ++ [s] } := by
  unfold CallerHandle.appendSignal
  rw [if_neg (signalType_ne_noSignal s)]
  simp only [live, Bool.not_true, Bool.false_eq_true, if_false]
  cases h.m_signals.getLast? <;> simp [hs]

theorem appendSignal_merge (h : CallerHandle) (front : List LauncherSignal)
    (o e o2 e2 : QByteArray) (live : h.m_launcherHandle = true)
    (hq : h.m_signals = front ++ [LauncherSignal.ReadyReadSignal o e]) :
    h.appendSignal (LauncherSignal.ReadyReadSignal o2 e2)
      = { h with m_signals := front ++ [LauncherSignal.ReadyReadSignal (o ++ o2) (e ++ e2)] } := by
  simp [CallerHandle.appendSignal, live, hq, LauncherSignal.signalType,
    LauncherSignal.mergeWith, List.dropLast_concat]

theorem appendSignal_afterOther (h : CallerHandle) (s : LauncherSignal)
    (live : h.m_launcherHandle = true)
    (hq : h.m_signals = []
      ∨ ∃ l, h.m_signals.getLast? = some l ∧ l.signalType ≠ SignalType.ReadyRead) :
    h.appendSignal s = { h with m_signals := h.m_signals ++ [s] } := by
  unfold CallerHandle.appendSignal
  rw [if_neg (signalType_ne_noSignal s)]
  simp only [live, Bool.not_true, Bool.false_eq_true, if_false]
  rcases hq with hq | ⟨l, hl, hne⟩
  · simp [hq]
  · simp [hl, hne]

/-- C16: for every `ProcessFinished` packet handled while the pair is live, the records
appended to the queue are, in this order: `Error{kind, msg}` if and only if the kind is not
`UnknownError`; then `ReadyRead{out, err}` if and only if `out` or `err` is non-empty (merged
into the last queued record when that is a `ReadyRead` and no `Error` was appended); then
`Finished{status, code}`, always and last.  Nothing is emitted by the handler.  With
`UnknownError` no `Error` record is appended, and if none was queued before, the drain emits
no `errorOccurred`. -/
theorem handleFinishedPacket_records (w : World) (pf : ProcessFinishedPacket)
    (live : w.caller.m_launcherHandle = true) (peer : w.launcher.m_callerHandle = true) :
    (pf.error ≠ ProcessError.UnknownError →
        (LauncherHandle.handleFinishedPacket w pf).caller.m_signals
          = w.caller.m_signals
              ++ LauncherSignal.ErrorSignal pf.error pf.errorString
              :: (if pf.stdOut ≠ [] ∨ pf.stdErr ≠ [] then
                    [LauncherSignal.ReadyReadSignal pf.stdOut pf.stdErr]
                  else [])
              ++ [LauncherSignal.FinishedSignal pf.exitStatus pf.exitCode])
    ∧ (pf.error = ProcessError.UnknownError → pf.stdOut = [] → pf.stdErr = [] →
        (LauncherHandle.handleFinishedPacket w pf).caller.m_signals
          = w.caller.m_signals ++ [LauncherSignal.FinishedSignal pf.exitStatus pf.exitCode])
    ∧ (pf.error = ProcessError.UnknownError → (pf.stdOut ≠ [] ∨ pf.stdErr ≠ []) →
        (∀ front o e, w.caller.m_signals = front ++ [LauncherSignal.ReadyReadSignal o e] →
          (LauncherHandle.handleFinishedPacket w pf).caller.m_signals
            = front ++ [LauncherSignal.ReadyReadSignal (o ++ pf.stdOut) (e ++ pf.stdErr),
                LauncherSignal.FinishedSignal pf.exitStatus pf.exitCode])
        ∧ ((w.caller.m_signals = []
              ∨ ∃ l, w.caller.m_signals.getLast? = some l
                  ∧ l.signalType ≠ SignalType.ReadyRead) →
          (LauncherHandle.handleFinishedPacket w pf).caller.m_signals
            = w.caller.m_signals ++ [LauncherSignal.ReadyReadSignal pf.stdOut pf.stdErr,
                LauncherSignal.FinishedSignal pf.exitStatus pf.exitCode]))
    ∧ (LauncherHandle.handleFinishedPacket w pf).emitted = w.emitted
    ∧ (pf.error = ProcessError.UnknownError →
        (∀ s ∈ w.caller.m_signals, s.signalType ≠ SignalType.Error) →
        (∀ s ∈ (LauncherHandle.handleFinishedPacket w pf).caller.m_signals,
            s.signalType ≠ SignalType.Error)
          ∧ ∃ l : List Notification,
              (CallerHandle.flush (LauncherHandle.handleFinishedPacket w pf)).2.emitted
                  = w.emitted ++ l
                ∧ ∀ n ∈ l, n.kind ≠ SignalType.Error) := by
  have hc := handleFinishedPacket_caller w pf peer
  have hem : (LauncherHandle.handleFinishedPacket w pf).emitted = w.emitted :=
    handlePacket_emitted w (InboundPacket.ProcessFinished pf)
  have hfin : ∀ c : CallerHandle, c.m_launcherHandle = true →
      (c.appendSignal (LauncherSignal.FinishedSignal pf.exitStatus pf.exitCode)).m_signals
        = c.m_signals ++ [LauncherSignal.FinishedSignal pf.exitStatus pf.exitCode] := by
    intro c hl
    rw [appendSignal_notReadyRead c _ hl (by simp [LauncherSignal.signalType])]
  have hempty : ∀ l : QByteArray, (!l.isEmpty) = true ↔ l ≠ [] := by
    intro l
    cases l <;> simp
  have part1 : pf.error ≠ ProcessError.UnknownError →
      (LauncherHandle.handleFinishedPacket w pf).caller.m_signals
        = w.caller.m_signals
            ++ LauncherSignal.ErrorSignal pf.error pf.errorString
            :: (if pf.stdOut ≠ [] ∨ pf.stdErr ≠ [] then
                  [LauncherSignal.ReadyReadSignal pf.stdOut pf.stdErr]
                else [])
            ++ [LauncherSignal.FinishedSignal pf.exitStatus pf.exitCode] := by
    intro hk
    rw [hc]
    simp only [hk, ne_eq, not_false_eq_true, if_true, Bool.or_eq_true, hempty]
    rw [appendSignal_error _ _ _ live]
    split
    · have hE : CallerHandle.appendSignal
          { w.caller with m_signals :=
            w.caller.m_signals ++ [LauncherSignal.ErrorSignal pf.error pf.errorString] }
          (LauncherSignal.ReadyReadSignal pf.stdOut pf.stdErr)
          = { w.caller with m_signals :=
              (w.caller.m_signals ++ [LauncherSignal.ErrorSignal pf.error pf.errorString])
                ++ [LauncherSignal.ReadyReadSignal pf.stdOut pf.stdErr] } :=
        appendSignal_afterOther _ _ live
          (Or.inr ⟨_, List.getLast?_concat _, by simp [LauncherSignal.signalType]⟩)
      rw [hE, hfin] <;> first | exact live | simp
    · rw [hfin]
      exact live
  have part2 : pf.error = ProcessError.UnknownError → pf.stdOut = [] → pf.stdErr = [] →
      (LauncherHandle.handleFinishedPacket w pf).caller.m_signals
        = w.caller.m_signals ++ [LauncherSignal.FinishedSignal pf.exitStatus pf.exitCode] := by
    intro hk ho he
    rw [hc]
    simp only [hk, ne_eq, not_true_eq_false, if_false, ho, he, List.isEmpty_nil, Bool.not_true,
      Bool.or_self, Bool.false_eq_true]
    exact hfin _ live
  have part3 : pf.error = ProcessError.UnknownError → (pf.stdOut ≠ [] ∨ pf.stdErr ≠ []) →
      (∀ front o e, w.caller.m_signals = front ++ [LauncherSignal.ReadyReadSignal o e] →
        (LauncherHandle.handleFinishedPacket w pf).caller.m_signals
          = front ++ [LauncherSignal.ReadyReadSignal (o ++ pf.stdOut) (e ++ pf.stdErr),
              LauncherSignal.FinishedSignal pf.exitStatus pf.exitCode])
      ∧ ((w.caller.m_signals = []
            ∨ ∃ l, w.caller.m_signals.getLast? = some l
                ∧ l.signalType ≠ SignalType.ReadyRead) →
        (LauncherHandle.handleFinishedPacket w pf).caller.m_signals
          = w.caller.m_signals ++ [LauncherSignal.ReadyReadSignal pf.stdOut pf.stdErr,
              LauncherSignal.FinishedSignal pf.exitStatus pf.exitCode]) := by
    intro hk hne
    rw [hc]
    simp only [hk, ne_eq, not_true_eq_false, if_false, Bool.or_eq_true, hempty, hne, if_true]
    constructor
    · intro front o e hq
      rw [appendSignal_merge _ front o e _ _ live hq, hfin] <;> first | exact live | simp
    · intro hq
      rw [appendSignal_afterOther _ _ live hq, hfin] <;> first | exact live | simp
  refine ⟨part1, part2, part3, hem, ?_⟩
  intro hk hq
  have hnoerr : ∀ s ∈ (LauncherHandle.handleFinishedPacket w pf).caller.m_signals,
      s.signalType ≠ SignalType.Error := by
    by_cases hne : pf.stdOut ≠ [] ∨ pf.stdErr ≠ []
    · by_cases hlast : w.caller.m_signals = []
          ∨ ∃ l, w.caller.m_signals.getLast? = some l ∧ l.signalType ≠ SignalType.ReadyRead
      · rw [(part3 hk hne).2 hlast]
        intro s hs
        rcases List.mem_append.mp hs with hs | hs
        · exact hq s hs
        · simp only [List.mem_cons, List.mem_singleton, List.not_mem_nil, or_false] at hs
          rcases hs with rfl | rfl <;> simp [LauncherSignal.signalType]
      · have hex : ∃ front o e,
            w.caller.m_signals = front ++ [LauncherSignal.ReadyReadSignal o e] := by
          cases hl : w.caller.m_signals.getLast? with
          | none => exact absurd (Or.inl (List.getLast?_eq_none_iff.mp hl)) hlast
          | some l =>
            cases l with
            | ReadyReadSignal o e =>
              exact ⟨_, o, e, (List.dropLast_append_getLast? _ hl).symm⟩
            | ErrorSignal a b =>
              exact absurd (Or.inr ⟨_, hl, by simp [LauncherSignal.signalType]⟩) hlast
            | StartedSignal a =>
              exact absurd (Or.inr ⟨_, hl, by simp [LauncherSignal.signalType]⟩) hlast
            | FinishedSignal a b =>
              exact absurd (Or.inr ⟨_, hl, by simp [LauncherSignal.signalType]⟩) hlast
        obtain ⟨front, o, e, hfront⟩ := hex
        rw [(part3 hk hne).1 front o e hfront]
        intro s hs
        rcases List.mem_append.mp hs with hs | hs
        · exact hq s (by rw [hfront]; exact List.mem_append_left _ hs)
        · simp only [List.mem_cons, List.mem_singleton, List.not_mem_nil, or_false] at hs
          rcases hs with rfl | rfl <;> simp [LauncherSignal.signalType]
    · have ho : pf.stdOut = [] := by
        by_contra h
        exact hne (Or.inl h)
      have he : pf.stdErr = [] := by
        by_contra h
        exact hne (Or.inr h)
      rw [part2 hk ho he]
      intro s hs
      rcases List.mem_append.mp hs with hs | hs
      · exact hq s hs
      · simp only [List.mem_singleton] at hs
        subst hs
        simp [LauncherSignal.signalType]
  refine ⟨hnoerr, ?_⟩
  rw [flush_eq]
  obtain ⟨l, hl, hkinds⟩ := foldl_handleSignal_emitted
    (LauncherHandle.handleFinishedPacket w pf).caller.m_signals
    { LauncherHandle.handleFinishedPacket w pf with
      caller := { (LauncherHandle.handleFinishedPacket w pf).caller with m_signals := [] } }
  refine ⟨l, by rw [hl]; exact congrArg (· ++ l) hem, ?_⟩
  intro n hn
  obtain ⟨s, hs, hk2⟩ := hkinds n hn
  rw [hk2]
  exact hnoerr s hs

/-- Witness for C16: a `ProcessFinished` packet with error `Crashed` and trailing stdout `[1]`
appends `Error`, `ReadyRead`, `Finished`; one with `UnknownError` and trailing stdout `[2]`
arriving after a queued `ReadyRead([1], [])` is merged into it. -/
theorem handleFinishedPacket_records_witness :
    (LauncherHandle.handleFinishedPacket exampleWorld
        ⟨ExitStatus.CrashExit, 9, [1], [], ProcessError.Crashed, "crashed"⟩).caller.m_signals
      = [LauncherSignal.ErrorSignal ProcessError.Crashed "crashed",
         LauncherSignal.ReadyReadSignal [1] [],
         LauncherSignal.FinishedSignal ExitStatus.CrashExit 9]
    ∧ (LauncherHandle.handleFinishedPacket
        { exampleWorld with caller :=
          { exampleCaller with m_signals := [LauncherSignal.ReadyReadSignal [1] []] } }
        ⟨ExitStatus.NormalExit, 0, [2], [], ProcessError.UnknownError, ""⟩).caller.m_signals
      = [LauncherSignal.ReadyReadSignal [1, 2] [],
         LauncherSignal.FinishedSignal ExitStatus.NormalExit 0] :=
  ⟨(handleFinishedPacket_records exampleWorld
      ⟨ExitStatus.CrashExit, 9, [1], [], ProcessError.Crashed, "crashed"⟩ rfl rfl).1 (by decide),
    ((handleFinishedPacket_records
      { exampleWorld with caller :=
        { exampleCaller with m_signals := [LauncherSignal.ReadyReadSignal [1] []] } }
      ⟨ExitStatus.NormalExit, 0, [2], [], ProcessError.UnknownError, ""⟩ rfl rfl).2.2.1 rfl
      (by decide)).1 [] [1] [] rfl⟩

/-! ## Transitions of the process state -/

theorem handleSignal_state (w : World) (s : LauncherSignal) :
    (CallerHandle.handleSignal w s).caller.m_processState
      = match s with
        | .ErrorSignal _ _ => ProcessState.NotRunning
        | .StartedSignal _ => ProcessState.Running
        | .ReadyReadSignal _ _ => w.caller.m_processState
        | .FinishedSignal _ _ => ProcessState.NotRunning := by
  cases s with
  | ErrorSignal e str =>
    simp only [CallerHandle.handleSignal, CallerHandle.handleError, emit]
    split <;> rfl
  | StartedSignal pid => rfl
  | ReadyReadSignal o e =>
    simp only [CallerHandle.handleSignal, CallerHandle.handleReadyRead, emit]
    split <;> split <;> (try split) <;> (try split) <;> rfl
  | FinishedSignal st code => rfl

theorem doStart_state (w : World) :
    (CallerHandle.doStart w).caller.m_processState = w.caller.m_processState := by
  unfold CallerHandle.doStart
  split <;> rfl

/-- An operation that is not a drain changes the state only by a legal transition. -/
theorem step_legal (w : World) (op : Op) (noDrain : op.isDrain = false) :
    (step w op).caller.m_processState = w.caller.m_processState
      ∨ LegalTransition w.caller.m_processState (step w op).caller.m_processState := by
  cases op with
  | flush => simp [Op.isDrain] at noDrain
  | flushFor t => simp [Op.isDrain] at noDrain
  | start program arguments writeData =>
    simp only [step, CallerHandle.start]
    split
    · exact Or.inl rfl
    · split
      · exact Or.inl rfl
      · rename_i h1 h2
        have hs : w.caller.m_processState = ProcessState.NotRunning := by
          simpa using h2
        right
        left
        refine ⟨hs, ?_⟩
        split
        · rw [doStart_state]
        · rfl
  | cancel =>
    simp only [step]
    rw [cancel_state]
    cases h : w.caller.m_processState
    · exact Or.inl rfl
    · exact Or.inr (Or.inr (Or.inr (Or.inl ⟨rfl, rfl⟩)))
    · exact Or.inr (Or.inr (Or.inr (Or.inr ⟨rfl, rfl⟩)))
  | write data =>
    left
    simp only [step, CallerHandle.write]
    split <;> rfl
  | handlePacket packet =>
    left
    exact (exceptSignals_fields _ _ (handlePacket_frame w packet).2.1).2.1
  | socketReady =>
    left
    simp only [step, LauncherHandle.handleSocketReady, CallerHandle.startIfNeeded]
    split
    · split
      · rw [doStart_state]
      · rfl
    · rfl
  | socketError message =>
    left
    exact (exceptSignals_fields _ _
      (handleSocketError_frame { w with isReady := false } message).2).2.1
  | _ => exact Or.inl rfl

/-- C20, as amended: every change of the process state made by `start`, by `cancel`, by the
drain of an `Error` or `Finished` record, and by any operation that is not a drain is one of
the four legal transitions; the drain of a `Started` record sets the state to `Running`
whatever it was, which is legal from `Starting`, no change from `Running`, and is the
transition `NotRunning` to `Running` when the record is drained in state `NotRunning`.  No
operation takes the state from `Running` to `Starting`: the state becomes `Starting` only by
`start` in state `NotRunning`. -/
theorem state_transitions :
    (∀ (w : World) (s : LauncherSignal),
        (CallerHandle.handleSignal w s).caller.m_processState = w.caller.m_processState
          ∨ LegalTransition w.caller.m_processState
              (CallerHandle.handleSignal w s).caller.m_processState
          ∨ (w.caller.m_processState = ProcessState.NotRunning
              ∧ (CallerHandle.handleSignal w s).caller.m_processState = ProcessState.Running
              ∧ s.signalType = SignalType.Started))
    ∧ (∀ (w : World) (pid : Int),
        (CallerHandle.handleSignal w (LauncherSignal.StartedSignal pid)).caller.m_processState
          = ProcessState.Running)
    ∧ (∀ (w : World) (op : Op), op.isDrain = false →
        (step w op).caller.m_processState = w.caller.m_processState
          ∨ LegalTransition w.caller.m_processState (step w op).caller.m_processState)
    ∧ (∀ (w : World) (op : Op),
        (step w op).caller.m_processState = ProcessState.Starting →
        w.caller.m_processState = ProcessState.Starting
          ∨ (w.caller.m_processState = ProcessState.NotRunning ∧ startCalls [op] = 1)) := by
  refine ⟨?_, fun w pid => rfl, step_legal, ?_⟩
  · intro w s
    rw [handleSignal_state]
    cases s <;> cases h : w.caller.m_processState <;> simp [LegalTransition, h,
      LauncherSignal.signalType]
  · intro w op hs
    by_cases h : w.caller.m_processState = ProcessState.Starting
    · exact Or.inl h
    · right
      by_cases hop : startCalls [op] = 0
      · exact absurd hs (step_notStarting w op hop h).1
      · cases op <;> simp [startCalls] at hop
        rename_i program arguments writeData
        refine ⟨?_, rfl⟩
        rcases step_legal w (Op.start program arguments writeData) rfl with h1 | h1
        · rw [h1] at hs
          exact absurd hs h
        · rw [hs] at h1
          revert h1 h
          cases w.caller.m_processState <;> simp [LegalTransition]

/-- Witness for C20 as amended: `cancel` on the example pair (state `Starting`) is the legal
transition to `NotRunning`. -/
theorem state_transitions_witness :
    exampleWorld.caller.m_processState = ProcessState.Starting
      ∧ LegalTransition exampleWorld.caller.m_processState
          (step exampleWorld Op.cancel).caller.m_processState :=
  ⟨rfl, (state_transitions.2.2.1 exampleWorld Op.cancel rfl).resolve_left (by decide)⟩

/-- Counterexample for C20: after `start`, a `ProcessStarted` packet and `cancel` the state is
`NotRunning` with a `Started` record still queued; the next drain takes the state from
`NotRunning` to `Running`, which is none of the four legal transitions. -/
theorem notRunning_to_running :
    (run freshWorld [Op.start "echo" ["hello"] [],
        Op.handlePacket (InboundPacket.ProcessStarted ⟨5⟩), Op.cancel]).caller.m_processState
        = ProcessState.NotRunning
      ∧ (step (run freshWorld [Op.start "echo" ["hello"] [],
          Op.handlePacket (InboundPacket.ProcessStarted ⟨5⟩), Op.cancel])
          Op.flush).caller.m_processState = ProcessState.Running
      ∧ ¬ LegalTransition ProcessState.NotRunning ProcessState.Running := by
  decide

/-! ## Records delivered after `cancel` -/

/-- What `cancel` leaves alone: both back-references, and all notifications it emits are
`errorOccurred`. -/
theorem cancel_frame (w : World) :
    (CallerHandle.cancel w).caller.m_launcherHandle = w.caller.m_launcherHandle
      ∧ (CallerHandle.cancel w).launcher.m_callerHandle = w.launcher.m_callerHandle
      ∧ ∃ l : List Notification, (CallerHandle.cancel w).emitted = w.emitted ++ l
          ∧ ∀ n ∈ l, n.kind = SignalType.Error := by
  have k0 : ∀ n ∈ ([] : List Notification), n.kind = SignalType.Error := by simp
  have k1 : ∀ n ∈ [Notification.errorOccurred ProcessError.FailedToStart],
      n.kind = SignalType.Error := by
    simp [Notification.kind]
  unfold CallerHandle.cancel
  simp only []
  cases w.caller.m_processState <;> simp only [] <;> (repeat' split) <;>
    first
      | exact ⟨rfl, rfl, [], (List.append_nil _).symm, k0⟩
      | exact ⟨rfl, rfl, [Notification.errorOccurred ProcessError.FailedToStart], rfl, k1⟩

/-- The queue `appendSignal` produces depends only on the queue and the back-reference. -/
theorem appendSignal_congr (a b : CallerHandle) (s : LauncherSignal)
    (h1 : a.m_launcherHandle = b.m_launcherHandle) (h2 : a.m_signals = b.m_signals) :
    (a.appendSignal s).m_signals = (b.appendSignal s).m_signals
      ∧ (a.appendSignal s).m_launcherHandle = (b.appendSignal s).m_launcherHandle := by
  unfold CallerHandle.appendSignal
  rw [h1, h2]
  (repeat' split) <;>
    first
      | exact ⟨rfl, rfl⟩
      | exact ⟨h2, h1⟩

/-- The queue after an inbound packet depends only on the queue before and on the two
back-references, not on the process state or any other field. -/
theorem handlePacket_congr (w v : World) (packet : InboundPacket)
    (h0 : w.launcher.m_callerHandle = v.launcher.m_callerHandle)
    (h1 : w.caller.m_launcherHandle = v.caller.m_launcherHandle)
    (h2 : w.caller.m_signals = v.caller.m_signals) :
    (LauncherHandle.handlePacket w packet).caller.m_signals
      = (LauncherHandle.handlePacket v packet).caller.m_signals := by
  cases packet with
  | ProcessError packet =>
    simp only [LauncherHandle.handlePacket, LauncherHandle.handleErrorPacket,
      wakeUpIfWaitingFor_launcher, h0]
    split
    · simp only [wakeUpIfWaitingFor_caller, h2]
    · simp only [flushCaller_caller, wakeUpIfWaitingFor_caller]
      exact (appendSignal_congr _ _ _ h1 h2).1
  | ProcessStarted packet =>
    simp only [LauncherHandle.handlePacket, LauncherHandle.handleStartedPacket,
      wakeUpIfWaitingFor_launcher, h0]
    split
    · simp only [wakeUpIfWaitingFor_caller, h2]
    · simp only [flushCaller_caller, wakeUpIfWaitingFor_caller]
      exact (appendSignal_congr _ _ _ h1 h2).1
  | ReadyReadStandardOutput packet =>
    simp only [LauncherHandle.handlePacket, LauncherHandle.handleReadyReadStandardOutput,
      wakeUpIfWaitingFor_launcher, h0]
    split
    · simp only [wakeUpIfWaitingFor_caller, h2]
    · split
      · simp only [wakeUpIfWaitingFor_caller, h2]
      · simp only [flushCaller_caller, wakeUpIfWaitingFor_caller]
        exact (appendSignal_congr _ _ _ h1 h2).1
  | ReadyReadStandardError packet =>
    simp only [LauncherHandle.handlePacket, LauncherHandle.handleReadyReadStandardError,
      wakeUpIfWaitingFor_launcher, h0]
    split
    · simp only [wakeUpIfWaitingFor_caller, h2]
    · split
      · simp only [wakeUpIfWaitingFor_caller, h2]
      · simp only [flushCaller_caller, wakeUpIfWaitingFor_caller]
        exact (appendSignal_congr _ _ _ h1 h2).1
  | ProcessFinished packet =>
    simp only [LauncherHandle.handlePacket, LauncherHandle.handleFinishedPacket,
      wakeUpIfWaitingFor_launcher, h0]
    split
    · simp only [wakeUpIfWaitingFor_caller, h2]
    · simp only [flushCaller_caller, wakeUpIfWaitingFor_caller]
      have e1 : ∀ (a b : CallerHandle), a.m_launcherHandle = b.m_launcherHandle →
          a.m_signals = b.m_signals →
          (if packet.error ≠ ProcessError.UnknownError then
              a.appendSignal (LauncherSignal.ErrorSignal packet.error packet.errorString)
            else a).m_signals
            = (if packet.error ≠ ProcessError.UnknownError then
                b.appendSignal (LauncherSignal.ErrorSignal packet.error packet.errorString)
              else b).m_signals
          ∧ (if packet.error ≠ ProcessError.UnknownError then
              a.appendSignal (LauncherSignal.ErrorSignal packet.error packet.errorString)
            else a).m_launcherHandle
            = (if packet.error ≠ ProcessError.UnknownError then
                b.appendSignal (LauncherSignal.ErrorSignal packet.error packet.errorString)
              else b).m_launcherHandle := by
        intro a b ha hb
        split
        · exact ⟨(appendSignal_congr a b _ ha hb).1, (appendSignal_congr a b _ ha hb).2⟩
        · exact ⟨hb, ha⟩
      obtain ⟨q1, l1⟩ := e1 w.caller v.caller h1 h2
      split
      · have e2 := appendSignal_congr _ _
          (LauncherSignal.ReadyReadSignal packet.stdOut packet.stdErr) l1 q1
        exact (appendSignal_congr _ _ _ e2.2 e2.1).1
      · exact (appendSignal_congr _ _ _ l1 q1).1

/-- C19, as amended: `cancel()` sets the state to `NotRunning`, leaves the signal queue as it
is and emits no `started`, `readyReadStandard*` or `finished` notification itself (at most
`errorOccurred`).  It drops nothing: a later drain takes every record that was queued at the
time of the cancel and handles the records in queue order, exactly as a drain does; a packet
the helper sends afterwards is queued exactly as without the cancel; and a `Started` record
drained after the cancel emits `started` and sets the state to `Running` again. -/
theorem cancel_drops_nothing (w : World) :
    (CallerHandle.cancel w).caller.m_processState = ProcessState.NotRunning
    ∧ (CallerHandle.cancel w).caller.m_signals = w.caller.m_signals
    ∧ (∃ l : List Notification, (CallerHandle.cancel w).emitted = w.emitted ++ l
        ∧ ∀ n ∈ l, n.kind = SignalType.Error)
    ∧ CallerHandle.flush (CallerHandle.cancel w)
        = (w.caller.m_signals.map LauncherSignal.signalType,
           w.caller.m_signals.foldl CallerHandle.handleSignal
             { CallerHandle.cancel w with
               caller := { (CallerHandle.cancel w).caller with m_signals := [] } })
    ∧ (∀ packet : InboundPacket,
        (LauncherHandle.handlePacket (CallerHandle.cancel w) packet).caller.m_signals
          = (LauncherHandle.handlePacket w packet).caller.m_signals)
    ∧ (∀ (v : World) (pid : Int),
        (CallerHandle.handleSignal v (LauncherSignal.StartedSignal pid)).caller.m_processState
            = ProcessState.Running
          ∧ (CallerHandle.handleSignal v (LauncherSignal.StartedSignal pid)).emitted
            = v.emitted ++ [Notification.started])
    ∧ (∀ pid : Int, w.caller.m_signals = [LauncherSignal.StartedSignal pid] →
        (CallerHandle.flush (CallerHandle.cancel w)).2.caller.m_processState
            = ProcessState.Running
          ∧ (CallerHandle.flush (CallerHandle.cancel w)).2.emitted
            = (CallerHandle.cancel w).emitted ++ [Notification.started]) := by
  obtain ⟨f1, f2, f3⟩ := cancel_frame w
  have hq := cancel_signals w
  have hflush : CallerHandle.flush (CallerHandle.cancel w)
      = (w.caller.m_signals.map LauncherSignal.signalType,
         w.caller.m_signals.foldl CallerHandle.handleSignal
           { CallerHandle.cancel w with
             caller := { (CallerHandle.cancel w).caller with m_signals := [] } }) := by
    rw [flush_eq, hq]
  refine ⟨cancel_state w, hq, f3, hflush, ?_, fun v pid => ⟨rfl, rfl⟩, ?_⟩
  · intro packet
    exact handlePacket_congr _ _ packet f2 f1 hq
  · intro pid hpid
    rw [hflush, hpid]
    exact ⟨rfl, rfl⟩

/-- Witness for C19 as amended: on the example pair with a queued `Started 5` record, `cancel`
keeps the record, and the following drain reports `[Started]`. -/
theorem cancel_drops_nothing_witness :
    (CallerHandle.cancel { exampleWorld with caller :=
        { exampleCaller with m_signals := [LauncherSignal.StartedSignal 5] } }).caller.m_signals
      = [LauncherSignal.StartedSignal 5]
    ∧ (CallerHandle.flush (CallerHandle.cancel { exampleWorld with caller :=
        { exampleCaller with m_signals := [LauncherSignal.StartedSignal 5] } })).2.caller.m_processState
      = ProcessState.Running :=
  ⟨(cancel_drops_nothing { exampleWorld with caller :=
      { exampleCaller with m_signals := [LauncherSignal.StartedSignal 5] } }).2.1,
    ((cancel_drops_nothing { exampleWorld with caller :=
      { exampleCaller with m_signals := [LauncherSignal.StartedSignal 5] } }).2.2.2.2.2.2
      5 rfl).1⟩

/-- Counterexample for C19: on the fresh pair, `start`, then the packets `ProcessStarted` and
`ReadyReadStandardOutput [120]` are queued; `cancel()` is called in state `Starting`; the
helper then sends `ProcessFinished`.  The drain after the cancel emits `started`,
`readyReadStandardOutput` and `finished`, none of which the claim allows. -/
theorem delivered_after_cancel :
    (run freshWorld [Op.start "echo" ["x"] [],
        Op.handlePacket (InboundPacket.ProcessStarted ⟨5⟩),
        Op.handlePacket (InboundPacket.ReadyReadStandardOutput ⟨[120]⟩)]).caller.m_processState
      = ProcessState.Starting
    ∧ (run freshWorld [Op.start "echo" ["x"] [],
        Op.handlePacket (InboundPacket.ProcessStarted ⟨5⟩),
        Op.handlePacket (InboundPacket.ReadyReadStandardOutput ⟨[120]⟩),
        Op.cancel]).emitted = []
    ∧ (run freshWorld [Op.start "echo" ["x"] [],
        Op.handlePacket (InboundPacket.ProcessStarted ⟨5⟩),
        Op.handlePacket (InboundPacket.ReadyReadStandardOutput ⟨[120]⟩),
        Op.cancel,
        Op.handlePacket (InboundPacket.ProcessFinished
          ⟨ExitStatus.CrashExit, 9, [], [], ProcessError.UnknownError, ""⟩),
        Op.flush]).emitted
      = [Notification.started, Notification.readyReadStandardOutput,
         Notification.finished 9 ExitStatus.CrashExit] := by
  decide

/-! ## Order of notifications -/

theorem delivers_filter (p : SignalType → Bool) (hp : p SignalType.ReadyRead = false)
    (ks l : List SignalType) (h : Delivers ks l) : l.filter p = ks.filter p := by
  induction ks generalizing l with
  | nil =>
    simp only [Delivers] at h
    rw [h]
  | cons k ks ih =>
    obtain ⟨l1, l2, hl, hall, hone, hrest⟩ := h
    rw [hl, List.filter_append, ih l2 hrest]
    by_cases hk : k = SignalType.ReadyRead
    · have h1 : l1.filter p = [] := by
        rw [List.filter_eq_nil_iff]
        intro x hx
        rw [hall x hx, hk, hp]
        simp
      rw [h1, hk, List.filter_cons, hp]
      simp
    · rw [hone hk, ← List.filter_append]
      rfl

theorem delivers_allReadyRead (ks l : List SignalType) (h : Delivers ks l)
    (hks : ∀ k ∈ ks, k = SignalType.ReadyRead) : ∀ x ∈ l, x = SignalType.ReadyRead := by
  induction ks generalizing l with
  | nil =>
    simp only [Delivers] at h
    rw [h]
    simp
  | cons k ks ih =>
    obtain ⟨l1, l2, hl, hall, _, hrest⟩ := h
    intro x hx
    rw [hl] at hx
    rcases List.mem_append.mp hx with hx | hx
    · rw [hall x hx]
      exact hks k (by simp)
    · exact ih l2 hrest (fun k hk => hks k (List.mem_cons_of_mem _ hk)) x hx

theorem delivers_append (a b l : List SignalType) (h : Delivers (a ++ b) l) :
    ∃ l1 l2, l = l1 ++ l2 ∧ Delivers a l1 ∧ Delivers b l2 := by
  induction a generalizing l with
  | nil => exact ⟨[], l, rfl, rfl, h⟩
  | cons k ks ih =>
    obtain ⟨l1, l2, hl, hall, hone, hrest⟩ := h
    obtain ⟨m1, m2, hm, hd1, hd2⟩ := ih l2 hrest
    exact ⟨l1 ++ m1, m2, by rw [hl, hm, List.append_assoc], ⟨l1, m1, rfl, hall, hone, hd1⟩, hd2⟩

theorem delivers_single (k : SignalType) (l : List SignalType)
    (hk : k ≠ SignalType.ReadyRead) (h : Delivers [k] l) : l = [k] := by
  obtain ⟨l1, l2, hl, _, hone, hrest⟩ := h
  simp only [Delivers] at hrest
  rw [hl, hone hk, hrest]
  rfl

/-- The notifications a drain appends for the taken records, as kinds. -/
theorem drain_delivers (q : List LauncherSignal) (w : World) :
    ∃ L : List Notification,
      (q.foldl CallerHandle.handleSignal w).emitted = w.emitted ++ L
        ∧ Delivers (q.map LauncherSignal.signalType) (L.map Notification.kind) := by
  induction q generalizing w with
  | nil => exact ⟨[], by simp, rfl⟩
  | cons s q ih =>
    obtain ⟨l1, h1, k1, n1⟩ := handleSignal_emitted w s
    obtain ⟨L2, h2, d2⟩ := ih (CallerHandle.handleSignal w s)
    refine ⟨l1 ++ L2, by rw [List.foldl_cons, h2, h1, List.append_assoc], ?_⟩
    refine ⟨l1.map Notification.kind, L2.map Notification.kind, by simp, ?_, ?_, d2⟩
    · intro x hx
      obtain ⟨n, hn, rfl⟩ := List.mem_map.mp hx
      exact k1 n hn
    · intro hk
      have hlen := n1 hk
      match l1, hlen, k1 with
      | [n], _, k1 => simp [k1 n (by simp)]

/-- A drain (`flushFor` with any target) appends notifications for the records it takes and
leaves the other records queued: the timeline changes only in its `ReadyRead` entries. -/
theorem flushFor_timeline (w : World) (t : SignalType) :
    ∃ (taken : List LauncherSignal) (L : List Notification),
      w.caller.m_signals = taken ++ (CallerHandle.flushFor w t).2.caller.m_signals
        ∧ (CallerHandle.flushFor w t).2.emitted = w.emitted ++ L
        ∧ Delivers (taken.map LauncherSignal.signalType) (L.map Notification.kind) := by
  obtain ⟨hs, _⟩ := takeFor_split w.caller.m_signals t
  obtain ⟨L, hL, hd⟩ := drain_delivers (CallerHandle.takeFor w.caller.m_signals t).1
    { w with caller := { w.caller with
      m_signals := (CallerHandle.takeFor w.caller.m_signals t).2.1 } }
  refine ⟨(CallerHandle.takeFor w.caller.m_signals t).1, L, ?_, ?_, hd⟩
  · rw [flushFor_signals, hs]
  · simp only [CallerHandle.flushFor]
    exact hL

/-- The kinds queued after `appendSignal`: the kind of the new record is appended, or (merge of
two `ReadyRead`s, severed pair) the kinds are unchanged. -/
theorem appendSignal_kinds (h : CallerHandle) (s : LauncherSignal) :
    (h.appendSignal s).m_signals.map LauncherSignal.signalType
        = h.m_signals.map LauncherSignal.signalType ++ [s.signalType]
      ∨ ((h.appendSignal s).m_signals.map LauncherSignal.signalType
          = h.m_signals.map LauncherSignal.signalType
        ∧ (s.signalType = SignalType.ReadyRead ∨ h.m_launcherHandle = false)) := by
  unfold CallerHandle.appendSignal
  rw [if_neg (signalType_ne_noSignal s)]
  split
  · rename_i hl
    right
    exact ⟨rfl, Or.inr (by simpa using hl)⟩
  · split
    · rename_i lastSignal hlast
      split
      · rename_i hboth
        right
        refine ⟨?_, Or.inl hboth.1⟩
        have hq : h.m_signals = h.m_signals.dropLast ++ [lastSignal] :=
          (List.dropLast_append_getLast? lastSignal hlast).symm
        conv_rhs => rw [hq]
        simp [mergeWith_signalType]
      · left
        simp
    · left
      simp

theorem appendSignal_startedOrFinished (h : CallerHandle) (s : LauncherSignal) :
    List.Sublist
      (((h.appendSignal s).m_signals.map LauncherSignal.signalType).filter isStartedOrFinished)
      ((h.m_signals.map LauncherSignal.signalType).filter isStartedOrFinished
        ++ [s.signalType].filter isStartedOrFinished) := by
  rcases appendSignal_kinds h s with hk | ⟨hk, _⟩
  · rw [hk, List.filter_append]
  · rw [hk]
    exact List.sublist_append_left _ _

theorem start_emitted (w : World) (program : QString) (arguments : List QString)
    (writeData : QByteArray) :
    ∃ l : List Notification,
      (CallerHandle.start w program arguments writeData).emitted = w.emitted ++ l
        ∧ ∀ n ∈ l, n.kind = SignalType.Error := by
  have k0 : ∀ n ∈ ([] : List Notification), n.kind = SignalType.Error := by simp
  have k1 : ∀ n ∈ [Notification.errorOccurred ProcessError.FailedToStart],
      n.kind = SignalType.Error := by
    simp [Notification.kind]
  have hd : ∀ v : World, (CallerHandle.doStart v).emitted = v.emitted := by
    intro v
    unfold CallerHandle.doStart
    split <;> rfl
  unfold CallerHandle.start
  simp only []
  split
  · exact ⟨[Notification.errorOccurred ProcessError.FailedToStart], rfl, k1⟩
  · split
    · exact ⟨[], (List.append_nil _).symm, k0⟩
    · split
      · exact ⟨[], by rw [hd, List.append_nil], k0⟩
      · exact ⟨[], (List.append_nil _).symm, k0⟩

/-- An operation that appends only `errorOccurred` notifications and leaves the queue alone
does not change the `Started` / `Finished` entries of the timeline. -/
theorem timeline_errorsOnly (w v : World) (l : List Notification)
    (he : v.emitted = w.emitted ++ l) (hl : ∀ n ∈ l, n.kind = SignalType.Error)
    (hq : v.caller.m_signals = w.caller.m_signals) :
    (timeline v).filter isStartedOrFinished = (timeline w).filter isStartedOrFinished := by
  have h1 : (l.map Notification.kind).filter isStartedOrFinished = [] := by
    rw [List.filter_eq_nil_iff]
    intro x hx
    obtain ⟨n, hn, rfl⟩ := List.mem_map.mp hx
    rw [hl n hn]
    decide
  simp only [timeline, he, hq, List.map_append, List.filter_append, h1, List.append_nil]

theorem handlePacket_startedOrFinished (w : World) (packet : InboundPacket) :
    List.Sublist
      (((LauncherHandle.handlePacket w packet).caller.m_signals.map
          LauncherSignal.signalType).filter isStartedOrFinished)
      ((w.caller.m_signals.map LauncherSignal.signalType).filter isStartedOrFinished
        ++ (Op.handlePacket packet).helperStartedFinished) := by
  cases packet with
  | ProcessError packet =>
    simp only [LauncherHandle.handlePacket, LauncherHandle.handleErrorPacket,
      Op.helperStartedFinished, List.append_nil]
    split
    · rw [wakeUpIfWaitingFor_caller]
    · rw [flushCaller_caller]
      simp only [wakeUpIfWaitingFor_caller]
      simpa [LauncherSignal.signalType, isStartedOrFinished] using
        appendSignal_startedOrFinished w.caller
          (LauncherSignal.ErrorSignal packet.error packet.errorString)
  | ProcessStarted packet =>
    simp only [LauncherHandle.handlePacket, LauncherHandle.handleStartedPacket,
      Op.helperStartedFinished]
    split
    · rw [wakeUpIfWaitingFor_caller]
      exact List.sublist_append_left _ _
    · rw [flushCaller_caller]
      simp only [wakeUpIfWaitingFor_caller]
      simpa [LauncherSignal.signalType, isStartedOrFinished] using
        appendSignal_startedOrFinished w.caller (LauncherSignal.StartedSignal packet.processId)
  | ReadyReadStandardOutput packet =>
    simp only [LauncherHandle.handlePacket, LauncherHandle.handleReadyReadStandardOutput,
      Op.helperStartedFinished, List.append_nil]
    split
    · rw [wakeUpIfWaitingFor_caller]
    · split
      · rw [wakeUpIfWaitingFor_caller]
      · rw [flushCaller_caller]
        simp only [wakeUpIfWaitingFor_caller]
        simpa [LauncherSignal.signalType, isStartedOrFinished] using
          appendSignal_startedOrFinished w.caller
            (LauncherSignal.ReadyReadSignal packet.standardChannel [])
  | ReadyReadStandardError packet =>
    simp only [LauncherHandle.handlePacket, LauncherHandle.handleReadyReadStandardError,
      Op.helperStartedFinished, List.append_nil]
    split
    · rw [wakeUpIfWaitingFor_caller]
    · split
      · rw [wakeUpIfWaitingFor_caller]
      · rw [flushCaller_caller]
        simp only [wakeUpIfWaitingFor_caller]
        simpa [LauncherSignal.signalType, isStartedOrFinished] using
          appendSignal_startedOrFinished w.caller
            (LauncherSignal.ReadyReadSignal [] packet.standardChannel)
  | ProcessFinished packet =>
    simp only [LauncherHandle.handlePacket, LauncherHandle.handleFinishedPacket,
      Op.helperStartedFinished]
    split
    · rw [wakeUpIfWaitingFor_caller]
      exact List.sublist_append_left _ _
    · rw [flushCaller_caller]
      simp only [wakeUpIfWaitingFor_caller]
      have e1 : List.Sublist
          (((if packet.error ≠ ProcessError.UnknownError then
              w.caller.appendSignal (LauncherSignal.ErrorSignal packet.error packet.errorString)
            else w.caller).m_signals.map LauncherSignal.signalType).filter isStartedOrFinished)
          ((w.caller.m_signals.map LauncherSignal.signalType).filter isStartedOrFinished) := by
        split
        · simpa [LauncherSignal.signalType, isStartedOrFinished] using
            appendSignal_startedOrFinished w.caller
              (LauncherSignal.ErrorSignal packet.error packet.errorString)
        · exact List.Sublist.refl _
      generalize (if packet.error ≠ ProcessError.UnknownError then
              w.caller.appendSignal (LauncherSignal.ErrorSignal packet.error packet.errorString)
            else w.caller) = c1 at e1
      have e2 : List.Sublist
          (((if (!packet.stdOut.isEmpty || !packet.stdErr.isEmpty) = true then
              c1.appendSignal (LauncherSignal.ReadyReadSignal packet.stdOut packet.stdErr)
            else c1).m_signals.map LauncherSignal.signalType).filter isStartedOrFinished)
          ((c1.m_signals.map LauncherSignal.signalType).filter isStartedOrFinished) := by
        split
        · simpa [LauncherSignal.signalType, isStartedOrFinished] using
            appendSignal_startedOrFinished c1
              (LauncherSignal.ReadyReadSignal packet.stdOut packet.stdErr)
        · exact List.Sublist.refl _
      generalize (if (!packet.stdOut.isEmpty || !packet.stdErr.isEmpty) = true then
              c1.appendSignal (LauncherSignal.ReadyReadSignal packet.stdOut packet.stdErr)
            else c1) = c2 at e2
      have e3 := appendSignal_startedOrFinished c2
        (LauncherSignal.FinishedSignal packet.exitStatus packet.exitCode)
      have e4 : [(LauncherSignal.FinishedSignal packet.exitStatus
          packet.exitCode).signalType].filter isStartedOrFinished = [SignalType.Finished] := rfl
      rw [e4] at e3
      exact e3.trans ((e2.trans e1).append (List.Sublist.refl _))

theorem timeline_sameEmitted (w v : World) (he : v.emitted = w.emitted)
    (hq : v.caller.m_signals = w.caller.m_signals) : timeline v = timeline w := by
  simp only [timeline, he, hq]

theorem handleSocketError_startedOrFinished (w : World) (message : QString) :
    List.Sublist
      ((timeline (LauncherHandle.handleSocketError w message)).filter isStartedOrFinished)
      ((timeline w).filter isStartedOrFinished) := by
  have he : (LauncherHandle.handleSocketError w message).emitted = w.emitted := by
    simp only [LauncherHandle.handleSocketError]
    split <;> simp only [flushCaller_emitted, wakeUpIfWaitingFor_emitted]
  simp only [timeline, he, List.filter_append]
  refine List.Sublist.append (List.Sublist.refl _) ?_
  simp only [LauncherHandle.handleSocketError]
  split
  · rw [wakeUpIfWaitingFor_caller]
  · rw [flushCaller_caller]
    simp only [wakeUpIfWaitingFor_caller]
    simpa [LauncherSignal.signalType, isStartedOrFinished] using
      appendSignal_startedOrFinished w.caller
        (LauncherSignal.ErrorSignal ProcessError.FailedToStart
          ("Internal socket error: " ++ message))

/-- One operation adds to the `Started` / `Finished` entries of the timeline at most the
`ProcessStarted` / `ProcessFinished` packet it handles, at the end. -/
theorem step_startedOrFinished (w : World) (op : Op) :
    List.Sublist ((timeline (step w op)).filter isStartedOrFinished)
      ((timeline w).filter isStartedOrFinished ++ op.helperStartedFinished) := by
  have same : ∀ v : World, v.emitted = w.emitted → v.caller.m_signals = w.caller.m_signals →
      op.helperStartedFinished = [] →
      List.Sublist ((timeline v).filter isStartedOrFinished)
        ((timeline w).filter isStartedOrFinished ++ op.helperStartedFinished) := by
    intro v he hq hop
    rw [timeline_sameEmitted w v he hq, hop, List.append_nil]
  have drain : ∀ t, op.helperStartedFinished = [] →
      List.Sublist ((timeline (CallerHandle.flushFor w t).2).filter isStartedOrFinished)
        ((timeline w).filter isStartedOrFinished ++ op.helperStartedFinished) := by
    intro t hop
    obtain ⟨taken, L, hq, he, hd⟩ := flushFor_timeline w t
    have hf := delivers_filter isStartedOrFinished rfl _ _ hd
    rw [hop, List.append_nil]
    simp only [timeline, he, List.map_append, List.filter_append, hf]
    conv_rhs => rw [hq]
    simp [List.filter_append]
  cases op with
  | start program arguments writeData =>
    obtain ⟨l, he, hl⟩ := start_emitted w program arguments writeData
    simp only [step, Op.helperStartedFinished, List.append_nil]
    rw [timeline_errorsOnly w _ l he hl (start_signals w program arguments writeData)]
  | cancel =>
    obtain ⟨_, _, l, he, hl⟩ := cancel_frame w
    simp only [step, Op.helperStartedFinished, List.append_nil]
    rw [timeline_errorsOnly w _ l he hl (cancel_signals w)]
  | write data =>
    refine same _ ?_ (write_signals w data) rfl
    simp only [step, CallerHandle.write]
    split <;> rfl
  | flush => exact drain SignalType.NoSignal rfl
  | flushFor t => exact drain t rfl
  | handlePacket packet =>
    simp only [step, timeline, handlePacket_emitted, List.filter_append, List.append_assoc]
    exact List.Sublist.append (List.Sublist.refl _) (handlePacket_startedOrFinished w packet)
  | socketReady =>
    refine same _ ?_ (handleSocketReady_signals _) rfl
    simp only [step, LauncherHandle.handleSocketReady, CallerHandle.startIfNeeded,
      CallerHandle.doStart]
    (repeat' split) <;> rfl
  | socketError message =>
    simp only [step, Op.helperStartedFinished, List.append_nil]
    exact handleSocketError_startedOrFinished _ message
  | _ => exact same _ rfl rfl rfl

theorem run_startedOrFinished (ops : List Op) (w : World) :
    List.Sublist ((timeline (run w ops)).filter isStartedOrFinished)
      ((timeline w).filter isStartedOrFinished ++ helperStartedFinished ops) := by
  induction ops generalizing w with
  | nil => simp [run, helperStartedFinished]
  | cons op ops ih =>
    have h1 := ih (step w op)
    have h2 := step_startedOrFinished w op
    have hrun : run w (op :: ops) = run (step w op) ops := rfl
    rw [hrun]
    simp only [helperStartedFinished, ← List.append_assoc]
    exact h1.trans (h2.append (List.Sublist.refl _))

theorem run_append (w : World) (a b : List Op) : run w (a ++ b) = run (run w a) b := by
  simp [run, List.foldl_append]

/-- While only `Started` and `ReadyRead` kinds are on the timeline, `Started` first, a drain
keeps it so: what was emitted before followed by what the drain emits is `Started` followed
by `ReadyRead` notifications. -/
theorem drain_startedThenReadyRead (e q t la : List SignalType)
    (ht : e ++ q = SignalType.Started :: t) (hrr : ∀ k ∈ t, k = SignalType.ReadyRead)
    (hd : Delivers q la) :
    ∃ rr, e ++ la = SignalType.Started :: rr ∧ ∀ k ∈ rr, k = SignalType.ReadyRead := by
  rcases List.append_eq_cons_iff.mp ht with ⟨he, hq⟩ | ⟨e', he, hq⟩
  · rw [hq] at hd
    obtain ⟨l1, l2, hl, _, hone, hrest⟩ := hd
    refine ⟨l2, by rw [he, hl, hone (by decide)]; rfl, ?_⟩
    exact delivers_allReadyRead t l2 hrest hrr
  · have h1 : ∀ k ∈ e', k = SignalType.ReadyRead :=
      fun k hk => hrr k (by rw [hq]; exact List.mem_append_left _ hk)
    have h2 : ∀ k ∈ q, k = SignalType.ReadyRead :=
      fun k hk => hrr k (by rw [hq]; exact List.mem_append_right _ hk)
    refine ⟨e' ++ la, by rw [he]; rfl, ?_⟩
    intro k hk
    rcases List.mem_append.mp hk with hk | hk
    · exact h1 k hk
    · exact delivers_allReadyRead q la hd h2 k hk

/-- An output event keeps the pair live and keeps the timeline of the form `Started` followed
by `ReadyRead` entries. -/
theorem step_readEvent_timeline (w : World) (ev : ReadEvent)
    (live : w.caller.m_launcherHandle = true) (peer : w.launcher.m_callerHandle = true)
    (t : List SignalType) (ht : timeline w = SignalType.Started :: t)
    (hrr : ∀ k ∈ t, k = SignalType.ReadyRead) :
    (step w ev.toOp).caller.m_launcherHandle = true
      ∧ (step w ev.toOp).launcher.m_callerHandle = true
      ∧ ∃ t2, timeline (step w ev.toOp) = SignalType.Started :: t2
          ∧ ∀ k ∈ t2, k = SignalType.ReadyRead := by
  have packetCase : ∀ (packet : InboundPacket) (s : LauncherSignal),
      s.signalType = SignalType.ReadyRead →
      ((LauncherHandle.handlePacket w packet).caller.m_signals = w.caller.m_signals
        ∨ (LauncherHandle.handlePacket w packet).caller.m_signals
            = (w.caller.appendSignal s).m_signals) →
      (step w (Op.handlePacket packet)).caller.m_launcherHandle = true
        ∧ (step w (Op.handlePacket packet)).launcher.m_callerHandle = true
        ∧ ∃ t2, timeline (step w (Op.handlePacket packet)) = SignalType.Started :: t2
            ∧ ∀ k ∈ t2, k = SignalType.ReadyRead := by
    intro packet s hs hq
    obtain ⟨_, f2, f3⟩ := handlePacket_frame w packet
    refine ⟨by rw [show step w (Op.handlePacket packet) = LauncherHandle.handlePacket w packet
        from rfl, (exceptSignals_fields _ _ f2).2.2.2.1]; exact live,
      by rw [show step w (Op.handlePacket packet) = LauncherHandle.handlePacket w packet
        from rfl, f3]; exact peer, ?_⟩
    simp only [step, timeline, handlePacket_emitted]
    rcases hq with hq | hq
    · rw [hq]
      exact ⟨t, ht, hrr⟩
    · rw [hq]
      rcases appendSignal_kinds w.caller s with hk | ⟨hk, _⟩
      · rw [hk, ← List.append_assoc]
        refine ⟨t ++ [s.signalType], ?_, ?_⟩
        · have := ht
          simp only [timeline] at this
          rw [this]
          rfl
        · intro k hk2
          rcases List.mem_append.mp hk2 with hk2 | hk2
          · exact hrr k hk2
          · simp only [List.mem_singleton] at hk2
            rw [hk2, hs]
      · rw [hk]
        exact ⟨t, ht, hrr⟩
  cases ev with
  | stdOut payload =>
    refine packetCase _ (LauncherSignal.ReadyReadSignal payload []) rfl ?_
    simp only [LauncherHandle.handlePacket, LauncherHandle.handleReadyReadStandardOutput]
    (repeat' split) <;>
      simp only [flushCaller_caller, wakeUpIfWaitingFor_caller, true_or, or_true]
  | stdErr payload =>
    refine packetCase _ (LauncherSignal.ReadyReadSignal [] payload) rfl ?_
    simp only [LauncherHandle.handlePacket, LauncherHandle.handleReadyReadStandardError]
    (repeat' split) <;>
      simp only [flushCaller_caller, wakeUpIfWaitingFor_caller, true_or, or_true]
  | drain =>
    obtain ⟨_, _, _, f4, f5, _⟩ := flushFor_frame w SignalType.NoSignal
    obtain ⟨L, hL, hd⟩ := drain_delivers w.caller.m_signals
      { w with caller := { w.caller with m_signals := [] } }
    have hfl : step w ReadEvent.drain.toOp
        = w.caller.m_signals.foldl CallerHandle.handleSignal
            { w with caller := { w.caller with m_signals := [] } } := by
      simp only [ReadEvent.toOp, step, flush_eq]
    have hq : (step w ReadEvent.drain.toOp).caller.m_signals = [] := by
      rw [hfl, foldl_handleSignal_signals]
    refine ⟨by rw [show step w ReadEvent.drain.toOp = (CallerHandle.flushFor w
        SignalType.NoSignal).2 from rfl, f4]; exact live,
      by rw [show step w ReadEvent.drain.toOp = (CallerHandle.flushFor w
        SignalType.NoSignal).2 from rfl, f5]; exact peer, ?_⟩
    simp only [timeline, hq, List.map_nil, List.append_nil]
    rw [hfl, hL]
    simp only [List.map_append]
    exact drain_startedThenReadyRead _ _ t _ ht hrr hd

theorem run_readEvents_timeline (evs : List ReadEvent) (w : World)
    (live : w.caller.m_launcherHandle = true) (peer : w.launcher.m_callerHandle = true)
    (t : List SignalType) (ht : timeline w = SignalType.Started :: t)
    (hrr : ∀ k ∈ t, k = SignalType.ReadyRead) :
    (run w (evs.map ReadEvent.toOp)).caller.m_launcherHandle = true
      ∧ (run w (evs.map ReadEvent.toOp)).launcher.m_callerHandle = true
      ∧ ∃ t2, timeline (run w (evs.map ReadEvent.toOp)) = SignalType.Started :: t2
          ∧ ∀ k ∈ t2, k = SignalType.ReadyRead := by
  induction evs generalizing w t with
  | nil => exact ⟨live, peer, t, ht, hrr⟩
  | cons ev evs ih =>
    obtain ⟨s1, s2, t2, s3, s4⟩ := step_readEvent_timeline w ev live peer t ht hrr
    exact ih (step w ev.toOp) s1 s2 t2 s3 s4

theorem appendSignal_launcherHandle (h : CallerHandle) (s : LauncherSignal) :
    (h.appendSignal s).m_launcherHandle = h.m_launcherHandle :=
  (exceptSignals_fields h _ (appendSignal_fields h s)).2.2.2.1

/-- The kinds `handleFinishedPacket` appends to the queue of a live pair: `Error` if the kind
is not `UnknownError`, then at most one `ReadyRead` (none without trailing output), then
`Finished`. -/
theorem handleFinishedPacket_kinds (w : World) (pf : ProcessFinishedPacket)
    (live : w.caller.m_launcherHandle = true) (peer : w.launcher.m_callerHandle = true) :
    ∃ rrk : List SignalType,
      (∀ k ∈ rrk, k = SignalType.ReadyRead)
        ∧ (pf.stdOut = [] → pf.stdErr = [] → rrk = [])
        ∧ (LauncherHandle.handleFinishedPacket w pf).caller.m_signals.map
            LauncherSignal.signalType
          = w.caller.m_signals.map LauncherSignal.signalType
              ++ (if pf.error ≠ ProcessError.UnknownError then [SignalType.Error] else [])
              ++ rrk ++ [SignalType.Finished] := by
  rw [handleFinishedPacket_caller w pf peer]
  have h1 : (if pf.error ≠ ProcessError.UnknownError then
        w.caller.appendSignal (LauncherSignal.ErrorSignal pf.error pf.errorString)
      else w.caller).m_launcherHandle = true
      ∧ (if pf.error ≠ ProcessError.UnknownError then
        w.caller.appendSignal (LauncherSignal.ErrorSignal pf.error pf.errorString)
      else w.caller).m_signals.map LauncherSignal.signalType
        = w.caller.m_signals.map LauncherSignal.signalType
            ++ (if pf.error ≠ ProcessError.UnknownError then [SignalType.Error] else []) := by
    split
    · rw [appendSignal_error _ _ _ live]
      exact ⟨live, by simp [LauncherSignal.signalType]⟩
    · exact ⟨live, by simp⟩
  generalize (if pf.error ≠ ProcessError.UnknownError then
        w.caller.appendSignal (LauncherSignal.ErrorSignal pf.error pf.errorString)
      else w.caller) = c1 at h1
  obtain ⟨live1, k1⟩ := h1
  have h2 : ∃ rrk : List SignalType, (∀ k ∈ rrk, k = SignalType.ReadyRead)
      ∧ (pf.stdOut = [] → pf.stdErr = [] → rrk = [])
      ∧ (if (!pf.stdOut.isEmpty || !pf.stdErr.isEmpty) = true then
          c1.appendSignal (LauncherSignal.ReadyReadSignal pf.stdOut pf.stdErr)
        else c1).m_launcherHandle = true
      ∧ (if (!pf.stdOut.isEmpty || !pf.stdErr.isEmpty) = true then
          c1.appendSignal (LauncherSignal.ReadyReadSignal pf.stdOut pf.stdErr)
        else c1).m_signals.map LauncherSignal.signalType
        = c1.m_signals.map LauncherSignal.signalType ++ rrk := by
    split
    · rename_i hne
      have hnot : ¬ (pf.stdOut = [] ∧ pf.stdErr = []) := by
        rintro ⟨ho, he⟩
        simp [ho, he] at hne
      rcases appendSignal_kinds c1 (LauncherSignal.ReadyReadSignal pf.stdOut pf.stdErr)
        with hk | ⟨hk, _⟩
      · exact ⟨[SignalType.ReadyRead], by simp, fun ho he => absurd ⟨ho, he⟩ hnot,
          by rw [appendSignal_launcherHandle]; exact live1, hk⟩
      · exact ⟨[], by simp, fun _ _ => rfl,
          by rw [appendSignal_launcherHandle]; exact live1, by rw [hk, List.append_nil]⟩
    · exact ⟨[], by simp, fun _ _ => rfl, live1, by rw [List.append_nil]⟩
  obtain ⟨rrk, hrr, hnone, h2'⟩ := h2
  generalize (if (!pf.stdOut.isEmpty || !pf.stdErr.isEmpty) = true then
          c1.appendSignal (LauncherSignal.ReadyReadSignal pf.stdOut pf.stdErr)
        else c1) = c2 at h2'
  obtain ⟨live2, k2⟩ := h2'
  refine ⟨rrk, hrr, hnone, ?_⟩
  rw [appendSignal_notReadyRead c2 _ live2 (by simp [LauncherSignal.signalType])]
  simp only [List.map_append, k2, k1, List.map_cons, List.map_nil, LauncherSignal.signalType]

/-- C17, as amended: for every helper packet sequence `ProcessStarted`, zero or more
`ReadyReadStandardOutput` / `ReadyReadStandardError`, then one `ProcessFinished` (any error
kind, any trailing stdout/stderr), handled by a live pair that starts with an empty queue and
nothing emitted, with drains interleaved anywhere and a final drain, and for every channel
mode, the kinds of the notifications emitted are: `started`; then `readyReadStandard*`
notifications; then, if the error kind of the `ProcessFinished` packet is not `UnknownError`,
one `errorOccurred`; then the `readyReadStandard*` notifications for the trailing output of
the `ProcessFinished` packet, none if it carries no trailing output; then `finished`.  So
`errorOccurred` precedes `finished`, nothing follows `finished`, and a `readyReadStandard*`
notification follows `errorOccurred` only for trailing output of a `ProcessFinished` packet
that also carries an error. -/
theorem notification_order (w : World) (pid : Int) (evs : List ReadEvent)
    (pf : ProcessFinishedPacket)
    (live : w.caller.m_launcherHandle = true) (peer : w.launcher.m_callerHandle = true)
    (nothingEmitted : w.emitted = []) (empty : w.caller.m_signals = []) :
    ∃ rr1 rr2 : List SignalType,
      (∀ k ∈ rr1, k = SignalType.ReadyRead) ∧ (∀ k ∈ rr2, k = SignalType.ReadyRead)
        ∧ (pf.stdOut = [] → pf.stdErr = [] → rr2 = [])
        ∧ (run w (Op.handlePacket (InboundPacket.ProcessStarted ⟨pid⟩)
              :: (evs.map ReadEvent.toOp
                ++ [Op.handlePacket (InboundPacket.ProcessFinished pf), Op.flush]))).emitted.map
            Notification.kind
          = SignalType.Started :: rr1
              ++ (if pf.error ≠ ProcessError.UnknownError then SignalType.Error :: rr2
                  else rr2)
              ++ [SignalType.Finished] := by
  -- the `ProcessStarted` packet
  have hc1 : (LauncherHandle.handleStartedPacket w ⟨pid⟩).caller
      = { w.caller with m_signals := [LauncherSignal.StartedSignal pid] } := by
    rw [handleStartedPacket_caller w _ peer, appendSignal_notReadyRead _ _ live
      (by simp [LauncherSignal.signalType]), empty]
    rfl
  have he1 : (LauncherHandle.handleStartedPacket w ⟨pid⟩).emitted = [] := by
    rw [show LauncherHandle.handleStartedPacket w ⟨pid⟩
      = LauncherHandle.handlePacket w (InboundPacket.ProcessStarted ⟨pid⟩) from rfl,
      handlePacket_emitted, nothingEmitted]
  have ht1 : timeline (LauncherHandle.handleStartedPacket w ⟨pid⟩) = SignalType.Started :: [] := by
    simp only [timeline, he1, hc1]
    rfl
  have live1 : (LauncherHandle.handleStartedPacket w ⟨pid⟩).caller.m_launcherHandle = true := by
    rw [hc1]
    exact live
  have peer1 : (LauncherHandle.handleStartedPacket w ⟨pid⟩).launcher.m_callerHandle = true := by
    rw [handleStartedPacket_launcher]
    exact peer
  -- the output packets and the drains in between
  obtain ⟨live2, peer2, t2, ht2, hrr2⟩ := run_readEvents_timeline evs
    (LauncherHandle.handleStartedPacket w ⟨pid⟩) live1 peer1 [] ht1 (by simp)
  have hrun : run w (Op.handlePacket (InboundPacket.ProcessStarted ⟨pid⟩)
        :: (evs.map ReadEvent.toOp
          ++ [Op.handlePacket (InboundPacket.ProcessFinished pf), Op.flush]))
      = (CallerHandle.flush (LauncherHandle.handleFinishedPacket
          (run (LauncherHandle.handleStartedPacket w ⟨pid⟩) (evs.map ReadEvent.toOp)) pf)).2 := by
    rw [show run w (Op.handlePacket (InboundPacket.ProcessStarted ⟨pid⟩)
        :: (evs.map ReadEvent.toOp
          ++ [Op.handlePacket (InboundPacket.ProcessFinished pf), Op.flush]))
      = run (LauncherHandle.handleStartedPacket w ⟨pid⟩) (evs.map ReadEvent.toOp
          ++ [Op.handlePacket (InboundPacket.ProcessFinished pf), Op.flush]) from rfl,
      run_append]
    rfl
  rw [hrun]
  generalize run (LauncherHandle.handleStartedPacket w ⟨pid⟩) (evs.map ReadEvent.toOp) = v
    at live2 peer2 ht2
  -- the `ProcessFinished` packet and the final drain
  obtain ⟨rrk, hrrk, hnone, hk⟩ := handleFinishedPacket_kinds v pf live2 peer2
  have hem : (LauncherHandle.handleFinishedPacket v pf).emitted = v.emitted :=
    handlePacket_emitted v (InboundPacket.ProcessFinished pf)
  obtain ⟨L, hL, hd⟩ := drain_delivers (LauncherHandle.handleFinishedPacket v pf).caller.m_signals
    { LauncherHandle.handleFinishedPacket v pf with
      caller := { (LauncherHandle.handleFinishedPacket v pf).caller with m_signals := [] } }
  rw [flush_eq]
  simp only []
  rw [hL, hk] at *
  rw [List.append_assoc, List.append_assoc] at hd
  obtain ⟨la, lb, hlab, hda, hdb⟩ := delivers_append _ _ _ hd
  obtain ⟨le, lc, hlec, hde, hdc⟩ := delivers_append _ _ _ hdb
  obtain ⟨lr, lf, hlrf, hdr, hdf⟩ := delivers_append _ _ _ hdc
  have hlf : lf = [SignalType.Finished] := delivers_single _ _ (by decide) hdf
  have hlr : ∀ k ∈ lr, k = SignalType.ReadyRead := delivers_allReadyRead _ _ hdr hrrk
  have hlr0 : pf.stdOut = [] → pf.stdErr = [] → lr = [] := by
    intro ho he
    have h0 := hnone ho he
    rw [h0] at hdr
    exact hdr
  simp only [timeline] at ht2
  obtain ⟨rr1, hrr1, hall1⟩ := drain_startedThenReadyRead _ _ t2 la ht2 hrr2 hda
  refine ⟨rr1, lr, hall1, hlr, hlr0, ?_⟩
  simp only [List.map_append, hem, hlab, hlec, hlrf, hlf]
  rw [← List.append_assoc, hrr1]
  by_cases hkind : pf.error ≠ ProcessError.UnknownError
  · rw [if_pos hkind] at hde ⊢
    rw [delivers_single _ _ (by decide) hde]
    simp
  · rw [if_neg hkind] at hde ⊢
    simp only [Delivers] at hde
    rw [hde]
    simp

/-- Witness for C17 as amended: `ProcessStarted`, stdout `[1]`, a drain, stderr `[2]`, then
`ProcessFinished` with `UnknownError` and no trailing output, then the final drain. -/
theorem notification_order_witness :
    (run exampleWorld (Op.handlePacket (InboundPacket.ProcessStarted ⟨5⟩)
        :: ([ReadEvent.stdOut [1], ReadEvent.drain, ReadEvent.stdErr [2]].map ReadEvent.toOp
          ++ [Op.handlePacket (InboundPacket.ProcessFinished
                ⟨ExitStatus.NormalExit, 0, [], [], ProcessError.UnknownError, ""⟩),
              Op.flush]))).emitted
      = [Notification.started, Notification.readyReadStandardOutput,
         Notification.readyReadStandardOutput, Notification.readyReadStandardError,
         Notification.finished 0 ExitStatus.NormalExit]
    ∧ ∃ rr1 rr2 : List SignalType,
      (∀ k ∈ rr1, k = SignalType.ReadyRead) ∧ (∀ k ∈ rr2, k = SignalType.ReadyRead)
        ∧ (([] : QByteArray) = [] → ([] : QByteArray) = [] → rr2 = [])
        ∧ (run exampleWorld (Op.handlePacket (InboundPacket.ProcessStarted ⟨5⟩)
              :: ([ReadEvent.stdOut [1], ReadEvent.drain, ReadEvent.stdErr [2]].map
                  ReadEvent.toOp
                ++ [Op.handlePacket (InboundPacket.ProcessFinished
                      ⟨ExitStatus.NormalExit, 0, [], [], ProcessError.UnknownError, ""⟩),
                    Op.flush]))).emitted.map Notification.kind
          = SignalType.Started :: rr1
              ++ (if ProcessError.UnknownError ≠ ProcessError.UnknownError then
                    SignalType.Error :: rr2
                  else rr2)
              ++ [SignalType.Finished] :=
  ⟨by decide, notification_order exampleWorld 5
    [ReadEvent.stdOut [1], ReadEvent.drain, ReadEvent.stdErr [2]]
    ⟨ExitStatus.NormalExit, 0, [], [], ProcessError.UnknownError, ""⟩ rfl rfl rfl rfl⟩

/-- Counterexample for C17: on the example pair (channel mode `SeparateChannels`) the packets
`ProcessStarted`, then `ProcessFinished` with error `Crashed` and trailing stdout `[120]`,
handled and drained, emit `readyReadStandardOutput` after `errorOccurred`. -/
theorem readyRead_after_errorOccurred :
    ForwardsNothing exampleWorld.caller.m_channelMode
    ∧ (run exampleWorld [Op.handlePacket (InboundPacket.ProcessStarted ⟨5⟩),
        Op.handlePacket (InboundPacket.ProcessFinished
          ⟨ExitStatus.CrashExit, 9, [120], [], ProcessError.Crashed, "crashed"⟩),
        Op.flush]).emitted
      = [Notification.started, Notification.errorOccurred ProcessError.Crashed,
         Notification.readyReadStandardOutput, Notification.finished 9 ExitStatus.CrashExit] := by
  decide

/-! ## Waiting with a zero timeout -/

theorem ofMsecs_zero_hasExpired (now : Int) :
    (QDeadlineTimer.ofMsecs now 0).hasExpired now = true := by
  simp [QDeadlineTimer.ofMsecs, QDeadlineTimer.hasExpired]

/-- The test `shouldFlushFor` finds a drain-eligible record: one of the target kind, an `Error`
or a `Finished`. -/
theorem shouldFlushFor_iff (h : CallerHandle) (signalType : SignalType) :
    h.shouldFlushFor signalType = true
      ↔ ∃ s ∈ h.m_signals, s.signalType = signalType ∨ s.signalType = SignalType.Error
          ∨ s.signalType = SignalType.Finished := by
  simp [CallerHandle.shouldFlushFor, List.any_eq_true, or_assoc]

/-- C13, as amended: a zero timeout has already expired when the wait loop tests the
deadline, so for every target, every state (also one in which waiting is permitted) and
every queue content `waitFor<Sig>(0)` returns `false` at once, without draining and without
arming the wait.  It is with a deadline that has not expired that the wait polls the queue:
`doWaitForSignal` returns `true` without blocking if and only if a drain-eligible record
(the target kind, an `Error`, or a `Finished`) is already queued, and blocks on the wait
condition otherwise. -/
theorem wait_zero_returns_false (slots : Slots) (fuel : Nat) (newSignal : SignalType)
    (w : World) (now : Int) (schedule : Schedule) :
    CallerHandle.waitForSignal slots (fuel + 1) 0 newSignal w now schedule
        = some ⟨false, w, now, schedule, []⟩
    ∧ (w.caller.shouldFlushFor newSignal = true
        ↔ ∃ s ∈ w.caller.m_signals, s.signalType = newSignal
            ∨ s.signalType = SignalType.Error ∨ s.signalType = SignalType.Finished)
    ∧ (∀ deadline : QDeadlineTimer, w.launcher.m_callerHandle = true →
        w.launcher.m_waitingFor = SignalType.NoSignal →
        (w.caller.shouldFlushFor newSignal = true →
          LauncherHandle.doWaitForSignal deadline newSignal w now schedule
            = some (true, w, now, schedule))
        ∧ (w.caller.shouldFlushFor newSignal = false →
          LauncherHandle.doWaitForSignal deadline newSignal w now schedule
            = (waitCondition deadline
                { w with launcher := { w.launcher with m_waitingFor := newSignal } }
                now schedule).map
              (fun r => (r.1,
                { r.2.1 with
                  launcher := { r.2.1.launcher with m_waitingFor := SignalType.NoSignal } },
                r.2.2.1, r.2.2.2)))) := by
  refine ⟨?_, shouldFlushFor_iff w.caller newSignal, ?_⟩
  · unfold CallerHandle.waitForSignal
    split
    · rfl
    · split
      · rfl
      · simp [LauncherHandle.waitForSignal, LauncherHandle.waitLoop, ofMsecs_zero_hasExpired]
  · intro deadline peer idle
    constructor
    · intro h
      simp [LauncherHandle.doWaitForSignal, peer, idle, h]
    · intro h
      simp only [LauncherHandle.doWaitForSignal, peer, idle, h, Bool.not_true,
        Bool.false_eq_true, if_false, ne_eq, not_true_eq_false]
      generalize waitCondition deadline _ now schedule = r
      cases r with
      | none => rfl
      | some r =>
        obtain ⟨a, b, c, d⟩ := r
        rfl

/-- Witness for C13 as amended: on the example pair (state `Starting`) with a queued
`Started 1` record, `waitForStarted(0)` returns `false` and leaves the record queued, while
the poll of a wait whose deadline has not expired returns `true` without blocking. -/
theorem wait_zero_returns_false_witness :
    CallerHandle.waitForStarted noSlots 1 0
        { exampleWorld with caller :=
          { exampleCaller with m_signals := [LauncherSignal.StartedSignal 1] } } 100 []
      = some ⟨false,
          { exampleWorld with caller :=
            { exampleCaller with m_signals := [LauncherSignal.StartedSignal 1] } }, 100, [], []⟩
    ∧ LauncherHandle.doWaitForSignal (QDeadlineTimer.ofMsecs 100 5000) SignalType.Started
        { exampleWorld with caller :=
          { exampleCaller with m_signals := [LauncherSignal.StartedSignal 1] } } 100 []
      = some (true,
          { exampleWorld with caller :=
            { exampleCaller with m_signals := [LauncherSignal.StartedSignal 1] } }, 100, []) :=
  ⟨(wait_zero_returns_false noSlots 0 SignalType.Started
      { exampleWorld with caller :=
        { exampleCaller with m_signals := [LauncherSignal.StartedSignal 1] } } 100 []).1,
    ((wait_zero_returns_false noSlots 0 SignalType.Started
      { exampleWorld with caller :=
        { exampleCaller with m_signals := [LauncherSignal.StartedSignal 1] } } 100 []).2.2
      (QDeadlineTimer.ofMsecs 100 5000) rfl rfl).1 (by decide)⟩

/-- Counterexample for C13: the example pair is in state `Starting` with a live peer, so
waiting for `Started` is permitted, and a `Started` record (drain-eligible) is already
queued; yet `waitForStarted(0)` returns `false`, and the record is still queued
afterwards. -/
theorem waitForStarted_zero_with_queued_started :
    CallerHandle.canWaitFor
        { exampleCaller with m_signals := [LauncherSignal.StartedSignal 1] }
        SignalType.Started = true
    ∧ CallerHandle.shouldFlushFor
        { exampleCaller with m_signals := [LauncherSignal.StartedSignal 1] }
        SignalType.Started = true
    ∧ (CallerHandle.waitForStarted noSlots 5 0
        { exampleWorld with caller :=
          { exampleCaller with m_signals := [LauncherSignal.StartedSignal 1] } } 100 []).map
        (fun r => (r.result, r.world.caller.m_signals, r.world.emitted))
      = some (false, [LauncherSignal.StartedSignal 1], []) := by
  decide

/-! ## The wait loop -/

theorem handleSignalWith_noSlots (w : World) (s : LauncherSignal) :
    CallerHandle.handleSignalWith noSlots w s = CallerHandle.handleSignal w s := by
  cases s <;> rfl

/-- With no slot connected the drain with slots is the drain. -/
theorem flushForWith_noSlots (w : World) (t : SignalType) :
    CallerHandle.flushForWith noSlots w t = CallerHandle.flushFor w t := by
  have h : CallerHandle.handleSignalWith noSlots = CallerHandle.handleSignal := by
    funext w s
    exact handleSignalWith_noSlots w s
  simp only [CallerHandle.flushForWith, CallerHandle.flushFor, h]

theorem flushCaller_wakeUps (w : World) : (LauncherHandle.flushCaller w).wakeUps = w.wakeUps := by
  simp only [LauncherHandle.flushCaller]
  split <;> rfl

/-- While the caller waits for `Finished`, every inbound packet wakes it. -/
theorem handlePacket_wakes_finished (w : World) (packet : InboundPacket)
    (waiting : w.launcher.m_waitingFor = SignalType.Finished) :
    (LauncherHandle.handlePacket w packet).wakeUps = w.wakeUps + 1 := by
  have k : ∀ t, (LauncherHandle.wakeUpIfWaitingFor w t).wakeUps = w.wakeUps + 1 := by
    intro t
    cases t <;> simp [LauncherHandle.wakeUpIfWaitingFor, waiting]
  cases packet <;>
    simp only [LauncherHandle.handlePacket, LauncherHandle.handleErrorPacket,
      LauncherHandle.handleStartedPacket, LauncherHandle.handleReadyReadStandardOutput,
      LauncherHandle.handleReadyReadStandardError, LauncherHandle.handleFinishedPacket] <;>
    (repeat' split) <;>
    simp only [flushCaller_wakeUps, k]

theorem hasExpired_earlier (d : QDeadlineTimer) (now : Int) (delay : Nat)
    (h : d.hasExpired (now + delay) = false) : d.hasExpired now = false := by
  simp only [QDeadlineTimer.hasExpired, Bool.and_eq_false_imp, Bool.not_eq_eq_eq_not,
    Bool.not_true, decide_eq_false_iff_not, not_le, Bool.not_eq_true'] at h ⊢
  intro hf
  have := h hf
  omega

/-- The poll of `doWaitForSignal` on an idle live pair with nothing drain-eligible queued,
when the next scheduled event is a packet that wakes the caller before the deadline. -/
theorem doWaitForSignal_packet (deadline : QDeadlineTimer) (target : SignalType) (w : World)
    (now : Int) (delay : Nat) (packet : InboundPacket) (rest : Schedule)
    (peer : w.launcher.m_callerHandle = true)
    (idle : w.launcher.m_waitingFor = SignalType.NoSignal)
    (noEligible : w.caller.shouldFlushFor target = false)
    (notExpired : deadline.hasExpired (now + delay) = false)
    (wakes : w.wakeUps < (LauncherHandle.handlePacket
      { w with launcher := { w.launcher with m_waitingFor := target } } packet).wakeUps) :
    LauncherHandle.doWaitForSignal deadline target w now
        ((delay, LauncherEvent.packet packet) :: rest)
      = some (true,
          { (LauncherHandle.handlePacket
              { w with launcher := { w.launcher with m_waitingFor := target } } packet) with
            launcher := { w.launcher with m_waitingFor := SignalType.NoSignal } },
          now + delay, rest) := by
  have hl := (handlePacket_frame
    { w with launcher := { w.launcher with m_waitingFor := target } } packet).2.2
  unfold LauncherHandle.doWaitForSignal
  rw [if_neg (by simp [peer]), if_neg (by simp [idle]), if_neg (by simp [noEligible])]
  simp only [waitCondition, notExpired, Bool.false_eq_true, if_false, LauncherEvent.toOp, step,
    wakes, if_true, hl]


theorem takeFor_finished (q : List LauncherSignal) :
    CallerHandle.takeFor q SignalType.Finished = (q, [], q.map LauncherSignal.signalType) := by
  simp [CallerHandle.takeFor]

/-- One iteration of the loop of `waitForSignal` waiting for `Finished`, without slots, on an
idle live pair with an empty queue, when the next scheduled event is a packet that arrives
before the deadline and queues the one record `s`: the record is drained and
classified. -/
theorem waitForFinished_iteration (deadline : QDeadlineTimer) (fuel : Nat) (w : World)
    (now : Int) (delay : Nat) (packet : InboundPacket) (rest : Schedule)
    (flushed : List SignalType) (s : LauncherSignal)
    (peer : w.launcher.m_callerHandle = true)
    (live : w.caller.m_launcherHandle = true)
    (idle : w.launcher.m_waitingFor = SignalType.NoSignal)
    (empty : w.caller.m_signals = [])
    (notExpired : deadline.hasExpired (now + delay) = false)
    (queued : (LauncherHandle.handlePacket w packet).caller.m_signals = [s]) :
    ∃ v : World, v.launcher.m_callerHandle = true ∧ v.caller.m_launcherHandle = true
      ∧ v.launcher.m_waitingFor = SignalType.NoSignal ∧ v.caller.m_signals = []
      ∧ LauncherHandle.waitLoop noSlots deadline SignalType.Finished (fuel + 1) w now
          ((delay, LauncherEvent.packet packet) :: rest) flushed
        = match LauncherHandle.classify [s.signalType] SignalType.Finished false with
          | some r => some ⟨r, v, now + delay, rest, flushed ++ [s.signalType]⟩
          | none =>
            LauncherHandle.waitLoop noSlots deadline SignalType.Finished fuel v (now + delay)
              rest (flushed ++ [s.signalType]) := by
  have hexp := hasExpired_earlier deadline now delay notExpired
  have noEligible : w.caller.shouldFlushFor SignalType.Finished = false := by
    simp [CallerHandle.shouldFlushFor, empty]
  have wakes : w.wakeUps < (LauncherHandle.handlePacket
      { w with launcher := { w.launcher with m_waitingFor := SignalType.Finished } }
      packet).wakeUps := by
    rw [handlePacket_wakes_finished _ _ rfl]
    exact Nat.lt_succ_self _
  have hdo := doWaitForSignal_packet deadline SignalType.Finished w now delay packet rest peer
    idle noEligible notExpired wakes
  have hq : (LauncherHandle.handlePacket
      { w with launcher := { w.launcher with m_waitingFor := SignalType.Finished } }
      packet).caller.m_signals = [s] := by
    rw [← queued]
    exact handlePacket_congr _ _ packet rfl rfl rfl
  have hlive : (LauncherHandle.handlePacket
      { w with launcher := { w.launcher with m_waitingFor := SignalType.Finished } }
      packet).caller.m_launcherHandle = true := by
    have e := congrArg CallerHandle.m_launcherHandle (handlePacket_frame
      { w with launcher := { w.launcher with m_waitingFor := SignalType.Finished } } packet).2.1
    exact e.trans live
  generalize LauncherHandle.handlePacket
    { w with launcher := { w.launcher with m_waitingFor := SignalType.Finished } } packet = P
    at hdo hq hlive
  rw [LauncherHandle.waitLoop, if_neg (by simp [hexp]), hdo]
  simp only [flushForWith_noSlots]
  have hfr := flushFor_frame
    { P with launcher :=
      { m_token := w.launcher.m_token, m_callerHandle := w.launcher.m_callerHandle,
        m_waitingFor := SignalType.NoSignal, m_awaitingShouldContinue := true,
        m_socketError := w.launcher.m_socketError } } SignalType.Finished
  have hsig := flushFor_signals
    { P with launcher :=
      { m_token := w.launcher.m_token, m_callerHandle := w.launcher.m_callerHandle,
        m_waitingFor := SignalType.NoSignal, m_awaitingShouldContinue := true,
        m_socketError := w.launcher.m_socketError } } SignalType.Finished
  have hkinds : (CallerHandle.flushFor
    { P with launcher :=
      { m_token := w.launcher.m_token, m_callerHandle := w.launcher.m_callerHandle,
        m_waitingFor := SignalType.NoSignal, m_awaitingShouldContinue := true,
        m_socketError := w.launcher.m_socketError } } SignalType.Finished).1
      = [s.signalType] := by
    simp only [CallerHandle.flushFor, takeFor_finished, hq, List.map_cons, List.map_nil]
  generalize CallerHandle.flushFor
    { P with launcher :=
      { m_token := w.launcher.m_token, m_callerHandle := w.launcher.m_callerHandle,
        m_waitingFor := SignalType.NoSignal, m_awaitingShouldContinue := true,
        m_socketError := w.launcher.m_socketError } } SignalType.Finished = D
    at hfr hsig hkinds
  rw [takeFor_finished] at hsig
  obtain ⟨-, -, -, hl, hla, -⟩ := hfr
  refine ⟨{ D.2 with launcher := { D.2.launcher with m_awaitingShouldContinue := false } },
    ?_, ?_, ?_, ?_, ?_⟩
  · rw [hla]
    exact peer
  · exact hl.trans hlive
  · rw [hla]
  · exact hsig
  · rw [hkinds, hla]
    simp only [Bool.not_true]


theorem appendSignal_onEmpty (h : CallerHandle) (s : LauncherSignal)
    (live : h.m_launcherHandle = true) (empty : h.m_signals = [])
    (kind : s.signalType ≠ SignalType.NoSignal) : (h.appendSignal s).m_signals = [s] := by
  simp [CallerHandle.appendSignal, kind, live, empty]

theorem ofMsecs_notExpired (now msecs : Int) (later : Int)
    (sufficient : msecs = -1 ∨ later < now + msecs) :
    (QDeadlineTimer.ofMsecs now msecs).hasExpired later = false := by
  unfold QDeadlineTimer.ofMsecs
  split
  · rfl
  · rcases sufficient with h | h
    · contradiction
    · simp only [QDeadlineTimer.hasExpired, Bool.not_false, Bool.true_and,
        decide_eq_false_iff_not, not_le]
      exact h

/-- The rules by which one iteration of the wait loop classifies the kinds it drained. -/
theorem classify_rules (L : List SignalType) (target : SignalType) (wasCanceled : Bool) :
    (SignalType.Error ∈ L → LauncherHandle.classify L target wasCanceled = some false)
    ∧ (SignalType.Error ∉ L → target ∈ L →
        LauncherHandle.classify L target wasCanceled = some true)
    ∧ (SignalType.Error ∉ L → target ∉ L → wasCanceled = true →
        LauncherHandle.classify L target wasCanceled = some true)
    ∧ (SignalType.Error ∉ L → target ∉ L → wasCanceled = false → SignalType.Finished ∈ L →
        LauncherHandle.classify L target wasCanceled = some false)
    ∧ (SignalType.Error ∉ L → target ∉ L → wasCanceled = false → SignalType.Finished ∉ L →
        LauncherHandle.classify L target wasCanceled = none) := by
  refine ⟨?_, ?_, ?_, ?_, ?_⟩ <;> intros <;>
    simp_all [LauncherHandle.classify]

/-- The wait for `Finished` over the arrivals `Started`, `ReadyRead`, `Finished`. -/
theorem waitForFinished_arrivals (fuel : Nat) (msecs : Int) (w : World) (now : Int)
    (d1 d2 d3 : Nat) (pid : Int) (bytes : QByteArray) (pf : ProcessFinishedPacket)
    (peer : w.launcher.m_callerHandle = true)
    (live : w.caller.m_launcherHandle = true)
    (idle : w.launcher.m_waitingFor = SignalType.NoSignal)
    (empty : w.caller.m_signals = [])
    (running : w.caller.m_processState ≠ ProcessState.NotRunning)
    (sufficient : msecs = -1 ∨ (d1 : Int) + d2 + d3 < msecs)
    (someBytes : bytes ≠ [])
    (noError : pf.error = ProcessError.UnknownError)
    (noOut : pf.stdOut = []) (noErr : pf.stdErr = []) :
    ∃ r : WaitResult,
      CallerHandle.waitForFinished noSlots (fuel + 3) msecs w now
          [(d1, LauncherEvent.packet (InboundPacket.ProcessStarted ⟨pid⟩)),
            (d2, LauncherEvent.packet (InboundPacket.ReadyReadStandardOutput ⟨bytes⟩)),
            (d3, LauncherEvent.packet (InboundPacket.ProcessFinished pf))] = some r
        ∧ r.result = true
        ∧ r.flushed = [SignalType.Started, SignalType.ReadyRead, SignalType.Finished]
        ∧ r.now = now + d1 + d2 + d3 ∧ r.schedule = [] := by
  have x1 := ofMsecs_notExpired now msecs (now + d1) (by omega)
  have x2 := ofMsecs_notExpired now msecs (now + d1 + d2) (by omega)
  have x3 := ofMsecs_notExpired now msecs (now + d1 + d2 + d3) (by omega)
  have q1 : (LauncherHandle.handlePacket w (InboundPacket.ProcessStarted ⟨pid⟩)).caller.m_signals
      = [LauncherSignal.StartedSignal pid] := by
    simp only [LauncherHandle.handlePacket]
    rw [handleStartedPacket_caller _ _ peer]
    exact appendSignal_onEmpty _ _ live empty (signalType_ne_noSignal _)
  obtain ⟨v1, p1, l1, i1, e1, h1⟩ := waitForFinished_iteration
    (QDeadlineTimer.ofMsecs now msecs) (fuel + 2) w now d1 _
    [(d2, LauncherEvent.packet (InboundPacket.ReadyReadStandardOutput ⟨bytes⟩)),
      (d3, LauncherEvent.packet (InboundPacket.ProcessFinished pf))] []
    _ peer live idle empty x1 q1
  have q2 : (LauncherHandle.handlePacket v1
      (InboundPacket.ReadyReadStandardOutput ⟨bytes⟩)).caller.m_signals
      = [LauncherSignal.ReadyReadSignal bytes []] := by
    simp only [LauncherHandle.handlePacket]
    rw [handleReadyReadStandardOutput_caller _ _ p1 someBytes]
    exact appendSignal_onEmpty _ _ l1 e1 (signalType_ne_noSignal _)
  obtain ⟨v2, p2, l2, i2, e2, h2⟩ := waitForFinished_iteration
    (QDeadlineTimer.ofMsecs now msecs) (fuel + 1) v1 (now + d1) d2 _
    [(d3, LauncherEvent.packet (InboundPacket.ProcessFinished pf))]
    [SignalType.Started] _ p1 l1 i1 e1 x2 q2
  have q3 : (LauncherHandle.handlePacket v2 (InboundPacket.ProcessFinished pf)).caller.m_signals
      = [LauncherSignal.FinishedSignal pf.exitStatus pf.exitCode] := by
    simp only [LauncherHandle.handlePacket]
    rw [handleFinishedPacket_caller _ _ p2]
    simp only [noError, noOut, noErr, ne_eq, not_true_eq_false, if_false, List.isEmpty_nil,
      Bool.not_true, Bool.or_self, Bool.false_eq_true]
    exact appendSignal_onEmpty _ _ l2 e2 (signalType_ne_noSignal _)
  obtain ⟨v3, -, -, -, -, h3⟩ := waitForFinished_iteration
    (QDeadlineTimer.ofMsecs now msecs) fuel v2 (now + d1 + d2) d3 _ []
    [SignalType.Started, SignalType.ReadyRead] _ p2 l2 i2 e2 x3 q3
  have c1 : LauncherHandle.classify [SignalType.Started] SignalType.Finished false = none := rfl
  have c2 : LauncherHandle.classify [SignalType.ReadyRead] SignalType.Finished false = none :=
    rfl
  have c3 : LauncherHandle.classify [SignalType.Finished] SignalType.Finished false
      = some true := rfl
  simp only [LauncherSignal.signalType, c1, c2, c3, List.nil_append, List.cons_append] at h1 h2 h3
  refine ⟨⟨true, v3, now + d1 + d2 + d3, [],
    [SignalType.Started, SignalType.ReadyRead, SignalType.Finished]⟩, ?_, rfl, rfl, rfl, rfl⟩
  have hcan : w.caller.canWaitFor SignalType.Finished = true := by
    simp [CallerHandle.canWaitFor, running]
  simp only [CallerHandle.waitForFinished, CallerHandle.waitForSignal, hcan, live, Bool.not_true,
    Bool.false_eq_true, if_false, LauncherHandle.waitForSignal]
  rw [h1, h2, h3]


/-- C14: one iteration of the loop of `LauncherHandle::waitForSignal` classifies the list `L`
of kinds returned by `flushFor(target)`: with `Error` in `L` the wait returns `false`;
otherwise with the target in `L` it returns `true`; otherwise, when the wait was cancelled
during the drain, it returns `true`; otherwise with `Finished` in `L` it returns `false`;
otherwise the loop waits again.  An iteration that starts after the deadline has expired
returns `false`.  Consequently `waitForFinished` on an idle live pair with an empty queue
and a sufficient deadline, over the arrivals `Started`, `ReadyRead`, `Finished` (no error,
each drained as it arrives), returns `true`, and the kinds drained over all iterations are
`Started`, `ReadyRead`, `Finished` in that order. -/
theorem waitLoop_classification (fuel : Nat) (msecs : Int) (w : World) (now : Int)
    (d1 d2 d3 : Nat) (pid : Int) (bytes : QByteArray) (pf : ProcessFinishedPacket)
    (peer : w.launcher.m_callerHandle = true)
    (live : w.caller.m_launcherHandle = true)
    (idle : w.launcher.m_waitingFor = SignalType.NoSignal)
    (empty : w.caller.m_signals = [])
    (running : w.caller.m_processState ≠ ProcessState.NotRunning)
    (sufficient : msecs = -1 ∨ (d1 : Int) + d2 + d3 < msecs)
    (someBytes : bytes ≠ [])
    (noError : pf.error = ProcessError.UnknownError)
    (noOut : pf.stdOut = []) (noErr : pf.stdErr = []) :
    (∀ (L : List SignalType) (target : SignalType) (wasCanceled : Bool),
      (SignalType.Error ∈ L → LauncherHandle.classify L target wasCanceled = some false)
      ∧ (SignalType.Error ∉ L → target ∈ L →
          LauncherHandle.classify L target wasCanceled = some true)
      ∧ (SignalType.Error ∉ L → target ∉ L → wasCanceled = true →
          LauncherHandle.classify L target wasCanceled = some true)
      ∧ (SignalType.Error ∉ L → target ∉ L → wasCanceled = false → SignalType.Finished ∈ L →
          LauncherHandle.classify L target wasCanceled = some false)
      ∧ (SignalType.Error ∉ L → target ∉ L → wasCanceled = false → SignalType.Finished ∉ L →
          LauncherHandle.classify L target wasCanceled = none))
    ∧ (∀ (slots : Slots) (deadline : QDeadlineTimer) (target : SignalType) (n : Nat)
        (v : World) (t : Int) (schedule : Schedule) (flushed : List SignalType),
        deadline.hasExpired t = true →
        LauncherHandle.waitLoop slots deadline target (n + 1) v t schedule flushed
          = some ⟨false, v, t, schedule, flushed⟩)
    ∧ (∀ (slots : Slots) (deadline : QDeadlineTimer) (target : SignalType) (n : Nat)
        (v : World) (t : Int) (schedule : Schedule) (flushed : List SignalType)
        (v1 : World) (t1 : Int) (rest : Schedule),
        deadline.hasExpired t = false →
        LauncherHandle.doWaitForSignal deadline target v t schedule = some (true, v1, t1, rest) →
        LauncherHandle.waitLoop slots deadline target (n + 1) v t schedule flushed
          = match LauncherHandle.classify
              (CallerHandle.flushForWith slots
                { v1 with launcher := { v1.launcher with m_awaitingShouldContinue := true } }
                target).1 target
              (!(CallerHandle.flushForWith slots
                { v1 with launcher := { v1.launcher with m_awaitingShouldContinue := true } }
                target).2.launcher.m_awaitingShouldContinue) with
            | some r =>
              some ⟨r,
                { (CallerHandle.flushForWith slots
                    { v1 with launcher := { v1.launcher with m_awaitingShouldContinue := true } }
                    target).2 with
                  launcher := { (CallerHandle.flushForWith slots
                    { v1 with launcher := { v1.launcher with m_awaitingShouldContinue := true } }
                    target).2.launcher with m_awaitingShouldContinue := false } },
                t1, rest,
                flushed ++ (CallerHandle.flushForWith slots
                  { v1 with launcher := { v1.launcher with m_awaitingShouldContinue := true } }
                  target).1⟩
            | none =>
              LauncherHandle.waitLoop slots deadline target n
                { (CallerHandle.flushForWith slots
                    { v1 with launcher := { v1.launcher with m_awaitingShouldContinue := true } }
                    target).2 with
                  launcher := { (CallerHandle.flushForWith slots
                    { v1 with launcher := { v1.launcher with m_awaitingShouldContinue := true } }
                    target).2.launcher with m_awaitingShouldContinue := false } }
                t1 rest
                (flushed ++ (CallerHandle.flushForWith slots
                  { v1 with launcher := { v1.launcher with m_awaitingShouldContinue := true } }
                  target).1))
    ∧ ∃ r : WaitResult,
        CallerHandle.waitForFinished noSlots (fuel + 3) msecs w now
            [(d1, LauncherEvent.packet (InboundPacket.ProcessStarted ⟨pid⟩)),
              (d2, LauncherEvent.packet (InboundPacket.ReadyReadStandardOutput ⟨bytes⟩)),
              (d3, LauncherEvent.packet (InboundPacket.ProcessFinished pf))] = some r
          ∧ r.result = true
          ∧ r.flushed = [SignalType.Started, SignalType.ReadyRead, SignalType.Finished]
          ∧ r.now = now + d1 + d2 + d3 ∧ r.schedule = [] := by
  refine ⟨classify_rules, ?_, ?_, waitForFinished_arrivals fuel msecs w now d1 d2 d3 pid bytes pf
    peer live idle empty running sufficient someBytes noError noOut noErr⟩
  · intro slots deadline target n v t schedule flushed h
    rw [LauncherHandle.waitLoop, if_pos h]
  · intro slots deadline target n v t schedule flushed v1 t1 rest h hdo
    rw [LauncherHandle.waitLoop, if_neg (by simp [h]), hdo]

/-- Witness for C14: on the example pair, at time 100 with a timeout of 5000 ms, the helper
reports the start after 10 ms, one byte of output 20 ms later and the normal exit after
another 30 ms: `waitForFinished` returns `true` at time 160 having drained `Started`,
`ReadyRead`, `Finished`.  With a slot that cancels on `started` the wait returns `true`
after the first drain. -/
theorem waitLoop_classification_witness :
    (∃ r : WaitResult,
      CallerHandle.waitForFinished noSlots 3 5000 exampleWorld 100
          [(10, LauncherEvent.packet (InboundPacket.ProcessStarted ⟨4711⟩)),
            (20, LauncherEvent.packet (InboundPacket.ReadyReadStandardOutput ⟨[104]⟩)),
            (30, LauncherEvent.packet (InboundPacket.ProcessFinished
              ⟨ExitStatus.NormalExit, 0, [], [], ProcessError.UnknownError, ""⟩))] = some r
        ∧ r.result = true
        ∧ r.flushed = [SignalType.Started, SignalType.ReadyRead, SignalType.Finished]
        ∧ r.now = 100 + (10 : Nat) + (20 : Nat) + (30 : Nat) ∧ r.schedule = [])
    ∧ (CallerHandle.waitForFinished
          (fun n v => if n = Notification.started then CallerHandle.cancel v else v)
          3 5000 exampleWorld 100
          [(10, LauncherEvent.packet (InboundPacket.ProcessStarted ⟨4711⟩)),
            (20, LauncherEvent.packet (InboundPacket.ReadyReadStandardOutput ⟨[104]⟩)),
            (30, LauncherEvent.packet (InboundPacket.ProcessFinished
              ⟨ExitStatus.NormalExit, 0, [], [], ProcessError.UnknownError, ""⟩))]).map
          (fun r => (r.result, r.flushed, r.now, r.world.emitted))
        = some (true, [SignalType.Started], 110, [Notification.started]) :=
  ⟨(waitLoop_classification 0 5000 exampleWorld 100 10 20 30 4711 [104]
      ⟨ExitStatus.NormalExit, 0, [], [], ProcessError.UnknownError, ""⟩
      rfl rfl rfl rfl (by decide) (by decide) (by decide) rfl rfl rfl).2.2.2,
    by decide⟩

/-! ## Socket errors -/

/-- What `handleSocketError` does to a live pair: one `Error{FailedToStart, ...}` record at the
end of the queue, the socket-error flag set, nothing emitted and nothing sent. -/
theorem handleSocketError_live (w : World) (message : QString)
    (peer : w.launcher.m_callerHandle = true) (live : w.caller.m_launcherHandle = true) :
    (LauncherHandle.handleSocketError w message).caller
        = { w.caller with m_signals := w.caller.m_signals
              ++ [LauncherSignal.ErrorSignal ProcessError.FailedToStart
                    ("Internal socket error: " ++ message)] }
      ∧ (LauncherHandle.handleSocketError w message).emitted = w.emitted
      ∧ (LauncherHandle.handleSocketError w message).sent = w.sent
      ∧ (LauncherHandle.handleSocketError w message).launcher.m_socketError = true
      ∧ (LauncherHandle.handleSocketError w message).launcher.m_callerHandle = true := by
  have hl : (LauncherHandle.wakeUpIfWaitingFor
      { w with launcher := { w.launcher with m_socketError := true } }
      SignalType.Error).launcher.m_callerHandle = true := by
    rw [wakeUpIfWaitingFor_launcher]
    exact peer
  unfold LauncherHandle.handleSocketError
  simp only []
  rw [if_neg (by simp [hl])]
  refine ⟨?_, ?_, ?_, ?_, ?_⟩
  · rw [flushCaller_caller]
    simp only [wakeUpIfWaitingFor_caller]
    exact appendSignal_error _ _ _ live
  · rw [flushCaller_emitted]
    simp only [wakeUpIfWaitingFor_emitted]
  · rw [flushCaller_sent]
    simp only [wakeUpIfWaitingFor_sent]
  · rw [flushCaller_launcher]
    simp only [wakeUpIfWaitingFor_launcher]
  · rw [flushCaller_launcher]
    simp only [wakeUpIfWaitingFor_launcher]
    exact peer

/-- A `start()` on an endpoint whose launcher-side peer reports a socket error only sets
`error()` and emits `errorOccurred(FailedToStart)`. -/
theorem start_socketError (v : World) (program : QString) (arguments : List QString)
    (writeData : QByteArray) (flagged : v.launcher.m_socketError = true) :
    CallerHandle.start v program arguments writeData
      = { v with
          caller := { v.caller with m_error := ProcessError.FailedToStart }
          emitted := v.emitted ++ [Notification.errorOccurred ProcessError.FailedToStart] } := by
  unfold CallerHandle.start
  rw [if_pos (Or.inr flagged)]
  rfl


/-- C21: for every message `m`, a socket error `m` delivered to the launcher-side endpoint of
a live pair appends exactly one record `Error{FailedToStart, "Internal socket error: " ++ m}`
to the peer's queue (emitting and sending nothing); when that record is drained on an endpoint
in state `Running` the caller observes `errorOccurred(FailedToStart)`, the state `NotRunning`
and the exit code 255.  After the socket error the launcher-side endpoint reports
`isSocketError`, also after the drain, so a later `start()` emits
`errorOccurred(FailedToStart)` and sends nothing. -/
theorem socketError_failedToStart (w : World) (message : QString)
    (peer : w.launcher.m_callerHandle = true) (live : w.caller.m_launcherHandle = true) :
    (LauncherHandle.handleSocketError w message).caller
        = { w.caller with m_signals := w.caller.m_signals
              ++ [LauncherSignal.ErrorSignal ProcessError.FailedToStart
                    ("Internal socket error: " ++ message)] }
    ∧ (LauncherHandle.handleSocketError w message).emitted = w.emitted
    ∧ (LauncherHandle.handleSocketError w message).sent = w.sent
    ∧ (∀ v : World, v.caller.m_processState = ProcessState.Running →
        (CallerHandle.handleSignal v (LauncherSignal.ErrorSignal ProcessError.FailedToStart
            ("Internal socket error: " ++ message))).emitted
          = v.emitted ++ [Notification.errorOccurred ProcessError.FailedToStart]
        ∧ (CallerHandle.handleSignal v (LauncherSignal.ErrorSignal ProcessError.FailedToStart
            ("Internal socket error: " ++ message))).caller.m_processState
          = ProcessState.NotRunning
        ∧ (CallerHandle.handleSignal v (LauncherSignal.ErrorSignal ProcessError.FailedToStart
            ("Internal socket error: " ++ message))).caller.m_exitCode = 255)
    ∧ (w.caller.m_signals = [] → w.caller.m_processState = ProcessState.Running →
        (CallerHandle.flush (LauncherHandle.handleSocketError w message)).2.emitted
          = w.emitted ++ [Notification.errorOccurred ProcessError.FailedToStart]
        ∧ (CallerHandle.flush (LauncherHandle.handleSocketError w message)).2.caller.m_processState
          = ProcessState.NotRunning
        ∧ (CallerHandle.flush (LauncherHandle.handleSocketError w message)).2.caller.m_exitCode
          = 255
        ∧ (CallerHandle.flush (LauncherHandle.handleSocketError w message)).2.caller.m_error
          = ProcessError.FailedToStart)
    ∧ (LauncherHandle.handleSocketError w message).launcher.m_socketError = true
    ∧ (CallerHandle.flush (LauncherHandle.handleSocketError w message)).2.launcher.m_socketError
        = true
    ∧ (∀ (v : World) (program : QString) (arguments : List QString) (writeData : QByteArray),
        v.launcher.m_socketError = true →
        (CallerHandle.start v program arguments writeData).emitted
          = v.emitted ++ [Notification.errorOccurred ProcessError.FailedToStart]
        ∧ (CallerHandle.start v program arguments writeData).sent = v.sent
        ∧ (CallerHandle.start v program arguments writeData).caller.m_startPacket
          = v.caller.m_startPacket
        ∧ (CallerHandle.start v program arguments writeData).caller.m_processState
          = v.caller.m_processState) := by
  obtain ⟨hc, he, hs, hf, _⟩ := handleSocketError_live w message peer live
  refine ⟨hc, he, hs, ?_, ?_, hf, ?_, ?_⟩
  · intro v _
    obtain ⟨e1, _, _, e4, e5, _⟩ := handleError_effect v ProcessError.FailedToStart
      ("Internal socket error: " ++ message)
    exact ⟨e4, e1, e5 rfl⟩
  · intro empty _
    rw [flush_eq, hc]
    simp only [empty, List.nil_append, List.foldl_cons, List.foldl_nil]
    obtain ⟨e1, e2, _, e4, e5, _⟩ := handleError_effect
      { LauncherHandle.handleSocketError w message with
        caller := { w.caller with m_signals := [] } } ProcessError.FailedToStart
      ("Internal socket error: " ++ message)
    refine ⟨?_, e1, e5 rfl, e2⟩
    rw [← he]
    exact e4
  · have hk := (flushFor_frame (LauncherHandle.handleSocketError w message)
      SignalType.NoSignal).2.2.2.2.1
    unfold CallerHandle.flush
    rw [hk]
    exact hf
  · intro v program arguments writeData flagged
    rw [start_socketError v program arguments writeData flagged]
    exact ⟨rfl, rfl, rfl, rfl⟩

/-- Witness for C21: a socket error "broken pipe" on the example pair set to `Running`; the
drain leaves it `NotRunning` with exit code 255, and a later `start()` only emits a second
`errorOccurred(FailedToStart)`. -/
theorem socketError_failedToStart_witness :
    (LauncherHandle.handleSocketError
        { exampleWorld with caller :=
          { exampleCaller with m_processState := ProcessState.Running } }
        "broken pipe").caller.m_signals
      = [LauncherSignal.ErrorSignal ProcessError.FailedToStart
          "Internal socket error: broken pipe"]
    ∧ (run { exampleWorld with caller :=
          { exampleCaller with m_processState := ProcessState.Running } }
        [Op.socketError "broken pipe", Op.flush, Op.start "ls" [] []]).emitted
      = [Notification.errorOccurred ProcessError.FailedToStart,
         Notification.errorOccurred ProcessError.FailedToStart]
    ∧ (run { exampleWorld with caller :=
          { exampleCaller with m_processState := ProcessState.Running } }
        [Op.socketError "broken pipe", Op.flush, Op.start "ls" [] []]).sent = [] :=
  ⟨by
      have h := congrArg CallerHandle.m_signals (socketError_failedToStart
        { exampleWorld with caller :=
          { exampleCaller with m_processState := ProcessState.Running } }
        "broken pipe" rfl rfl).1
      exact h,
    by decide, by decide⟩

/-! ## Draining a `ReadyRead` record -/

/-- The effect of `handleReadyRead` on buffers, sinks and trace, for every channel mode. -/
theorem handleReadyRead_effect (w : World) (out err : QByteArray) :
    (CallerHandle.handleReadyRead w out err).caller.m_stdout
        = (if w.caller.m_channelMode = ProcessChannelMode.ForwardedOutputChannel
              ∨ w.caller.m_channelMode = ProcessChannelMode.ForwardedChannels
            then w.caller.m_stdout else w.caller.m_stdout ++ out)
    ∧ (CallerHandle.handleReadyRead w out err).caller.m_stderr
        = (if w.caller.m_channelMode = ProcessChannelMode.ForwardedErrorChannel
              ∨ w.caller.m_channelMode = ProcessChannelMode.ForwardedChannels
            then w.caller.m_stderr else w.caller.m_stderr ++ err)
    ∧ (CallerHandle.handleReadyRead w out err).emitted
        = w.emitted
          ++ (if (w.caller.m_channelMode = ProcessChannelMode.ForwardedOutputChannel
                  ∨ w.caller.m_channelMode = ProcessChannelMode.ForwardedChannels)
                ∨ w.caller.m_stdout ++ out = []
              then [] else [Notification.readyReadStandardOutput])
          ++ (if (w.caller.m_channelMode = ProcessChannelMode.ForwardedErrorChannel
                  ∨ w.caller.m_channelMode = ProcessChannelMode.ForwardedChannels)
                ∨ w.caller.m_stderr ++ err = []
              then [] else [Notification.readyReadStandardError])
    ∧ (CallerHandle.handleReadyRead w out err).cout
        = (if w.caller.m_channelMode = ProcessChannelMode.ForwardedOutputChannel
              ∨ w.caller.m_channelMode = ProcessChannelMode.ForwardedChannels
            then w.cout ++ constData out else w.cout)
    ∧ (CallerHandle.handleReadyRead w out err).cerr
        = (if w.caller.m_channelMode = ProcessChannelMode.ForwardedErrorChannel
              ∨ w.caller.m_channelMode = ProcessChannelMode.ForwardedChannels
            then w.cerr ++ constData err else w.cerr) := by
  unfold CallerHandle.handleReadyRead emit
  by_cases ho : w.caller.m_stdout ++ out = [] <;> by_cases he : w.caller.m_stderr ++ err = [] <;>
    cases hm : w.caller.m_channelMode <;>
    simp [hm, ho, he, List.isEmpty_iff]


/-- A `ReadyReadStandardOutput` packet with bytes for a live pair whose queue ends in a
`ReadyRead` record is merged into that record. -/
theorem handleReadyReadStandardOutput_merge (w : World) (bytes o e : QByteArray)
    (front : List LauncherSignal)
    (peer : w.launcher.m_callerHandle = true) (live : w.caller.m_launcherHandle = true)
    (someBytes : bytes ≠ [])
    (hq : w.caller.m_signals = front ++ [LauncherSignal.ReadyReadSignal o e]) :
    (LauncherHandle.handlePacket w (InboundPacket.ReadyReadStandardOutput ⟨bytes⟩)).caller
        = { w.caller with
            m_signals := front ++ [LauncherSignal.ReadyReadSignal (o ++ bytes) (e ++ [])] }
      ∧ (LauncherHandle.handlePacket w
          (InboundPacket.ReadyReadStandardOutput ⟨bytes⟩)).launcher = w.launcher
      ∧ (LauncherHandle.handlePacket w
          (InboundPacket.ReadyReadStandardOutput ⟨bytes⟩)).emitted = w.emitted := by
  refine ⟨?_, (handlePacket_frame w _).2.2, handlePacket_emitted w _⟩
  simp only [LauncherHandle.handlePacket]
  rw [handleReadyReadStandardOutput_caller w ⟨bytes⟩ peer someBytes]
  exact appendSignal_merge _ front o e bytes [] live hq

/-- Three output packets before any drain are coalesced into one record, which the drain
delivers with one notification. -/
theorem three_packets_one_record (w : World) (a b c : QByteArray)
    (peer : w.launcher.m_callerHandle = true) (live : w.caller.m_launcherHandle = true)
    (empty : w.caller.m_signals = [])
    (noOut : w.caller.m_stdout = []) (noErr : w.caller.m_stderr = [])
    (buffered : ¬ (w.caller.m_channelMode = ProcessChannelMode.ForwardedOutputChannel
      ∨ w.caller.m_channelMode = ProcessChannelMode.ForwardedChannels))
    (ha : a ≠ []) (hb : b ≠ []) (hc : c ≠ []) :
    (run w [Op.handlePacket (InboundPacket.ReadyReadStandardOutput ⟨a⟩),
        Op.handlePacket (InboundPacket.ReadyReadStandardOutput ⟨b⟩),
        Op.handlePacket (InboundPacket.ReadyReadStandardOutput ⟨c⟩)]).caller.m_signals
      = [LauncherSignal.ReadyReadSignal (a ++ b ++ c) []]
    ∧ (run w [Op.handlePacket (InboundPacket.ReadyReadStandardOutput ⟨a⟩),
        Op.handlePacket (InboundPacket.ReadyReadStandardOutput ⟨b⟩),
        Op.handlePacket (InboundPacket.ReadyReadStandardOutput ⟨c⟩),
        Op.flush]).emitted = w.emitted ++ [Notification.readyReadStandardOutput]
    ∧ (CallerHandle.readAllStandardOutput
        (run w [Op.handlePacket (InboundPacket.ReadyReadStandardOutput ⟨a⟩),
          Op.handlePacket (InboundPacket.ReadyReadStandardOutput ⟨b⟩),
          Op.handlePacket (InboundPacket.ReadyReadStandardOutput ⟨c⟩),
          Op.flush])).1 = a ++ b ++ c := by
  -- first packet: appended to the empty queue
  have c1 : (LauncherHandle.handlePacket w
      (InboundPacket.ReadyReadStandardOutput ⟨a⟩)).caller
      = { w.caller with m_signals := [] ++ [LauncherSignal.ReadyReadSignal a []] } := by
    simp only [LauncherHandle.handlePacket]
    rw [handleReadyReadStandardOutput_caller w ⟨a⟩ peer ha,
      appendSignal_afterOther _ _ live (Or.inl empty), empty]
  have l1 := (handlePacket_frame w (InboundPacket.ReadyReadStandardOutput ⟨a⟩)).2.2
  have e1 := handlePacket_emitted w (InboundPacket.ReadyReadStandardOutput ⟨a⟩)
  generalize hw1 : LauncherHandle.handlePacket w
    (InboundPacket.ReadyReadStandardOutput ⟨a⟩) = w1 at c1 l1 e1
  obtain ⟨c2, l2, e2⟩ := handleReadyReadStandardOutput_merge w1 b a [] []
    (by rw [l1]; exact peer) (by rw [c1]; exact live) hb (by rw [c1])
  generalize hw2 : LauncherHandle.handlePacket w1
    (InboundPacket.ReadyReadStandardOutput ⟨b⟩) = w2 at c2 l2 e2
  obtain ⟨c3, l3, e3⟩ := handleReadyReadStandardOutput_merge w2 c (a ++ b) ([] ++ []) []
    (by rw [l2, l1]; exact peer) (by rw [c2, c1]; exact live) hc (by rw [c2])
  generalize hw3 : LauncherHandle.handlePacket w2
    (InboundPacket.ReadyReadStandardOutput ⟨c⟩) = w3 at c3 l3 e3
  have k3 : w3.caller
      = { w.caller with m_signals := [LauncherSignal.ReadyReadSignal (a ++ b ++ c) []] } := by
    rw [c3, c2, c1]
    simp
  have q3 : w3.caller.m_signals = [LauncherSignal.ReadyReadSignal (a ++ b ++ c) []] := by
    rw [k3]
  have r3 : run w [Op.handlePacket (InboundPacket.ReadyReadStandardOutput ⟨a⟩),
      Op.handlePacket (InboundPacket.ReadyReadStandardOutput ⟨b⟩),
      Op.handlePacket (InboundPacket.ReadyReadStandardOutput ⟨c⟩)] = w3 := by
    simp only [run, List.foldl_cons, List.foldl_nil, step]
    rw [hw1, hw2, hw3]
  have r4 : run w [Op.handlePacket (InboundPacket.ReadyReadStandardOutput ⟨a⟩),
      Op.handlePacket (InboundPacket.ReadyReadStandardOutput ⟨b⟩),
      Op.handlePacket (InboundPacket.ReadyReadStandardOutput ⟨c⟩), Op.flush]
      = CallerHandle.handleReadyRead
          { w3 with caller := { w3.caller with m_signals := [] } } (a ++ b ++ c) [] := by
    simp only [run, List.foldl_cons, List.foldl_nil, step]
    rw [hw1, hw2, hw3, flush_eq, q3]
    rfl
  have m3 : w3.caller.m_channelMode = w.caller.m_channelMode := by rw [k3]
  have o3 : w3.caller.m_stdout = [] := by rw [k3]; exact noOut
  have s3 : w3.caller.m_stderr = [] := by rw [k3]; exact noErr
  have n3 : a ++ b ++ c ≠ [] := by simp [ha]
  generalize hV : ({ w3 with caller := { w3.caller with m_signals := [] } } : World) = V at r4
  have mV : V.caller.m_channelMode = w.caller.m_channelMode := by rw [← hV]; exact m3
  have oV : V.caller.m_stdout = [] := by rw [← hV]; exact o3
  have sV : V.caller.m_stderr = [] := by rw [← hV]; exact s3
  have eV : V.emitted = w.emitted := by rw [← hV]; exact e3.trans (e2.trans e1)
  obtain ⟨f1, -, f3, -, -⟩ := handleReadyRead_effect V (a ++ b ++ c) []
  rw [mV, oV, if_neg buffered] at f1
  rw [mV, oV, sV, eV] at f3
  simp only [buffered, List.nil_append, n3, or_self, if_false, List.append_nil, or_true,
    if_true] at f3
  refine ⟨by rw [r3]; exact q3, ?_, ?_⟩
  · rw [r4, f3]
  · rw [r4]
    simp only [CallerHandle.readAllStandardOutput, readAndClear]
    rw [f1, List.nil_append]


/-- C26: draining a `ReadyRead{out, err}` record.  For stdout: under `ForwardedOutputChannel`
or `ForwardedChannels` the stdout buffer is unchanged and `readyReadStandardOutput` is not
emitted (the bytes go to the forwarded sink); otherwise the buffer becomes old buffer ++ `out`
and `readyReadStandardOutput` is emitted exactly once if and only if the resulting buffer is
non-empty, also when `out` is empty and unread bytes remain.  The same for stderr with
`ForwardedErrorChannel` or `ForwardedChannels` and `readyReadStandardError`; the stdout
notification precedes the stderr one.  Three `ReadyReadStandardOutput` packets `a`, `b`, `c`
(non-empty) handled by a live pair with empty queue and buffers before any drain leave one
record `ReadyRead(a ++ b ++ c, [])`; the drain emits `readyReadStandardOutput` once and
`readAllStandardOutput()` returns `a ++ b ++ c`. -/
theorem drain_readyRead (w : World) (a b c : QByteArray)
    (peer : w.launcher.m_callerHandle = true) (live : w.caller.m_launcherHandle = true)
    (empty : w.caller.m_signals = [])
    (noOut : w.caller.m_stdout = []) (noErr : w.caller.m_stderr = [])
    (buffered : ¬ (w.caller.m_channelMode = ProcessChannelMode.ForwardedOutputChannel
      ∨ w.caller.m_channelMode = ProcessChannelMode.ForwardedChannels))
    (ha : a ≠ []) (hb : b ≠ []) (hc : c ≠ []) :
    (∀ (v : World) (out err : QByteArray),
      (CallerHandle.handleSignal v (LauncherSignal.ReadyReadSignal out err)).caller.m_stdout
          = (if v.caller.m_channelMode = ProcessChannelMode.ForwardedOutputChannel
                ∨ v.caller.m_channelMode = ProcessChannelMode.ForwardedChannels
              then v.caller.m_stdout else v.caller.m_stdout ++ out)
      ∧ (CallerHandle.handleSignal v (LauncherSignal.ReadyReadSignal out err)).caller.m_stderr
          = (if v.caller.m_channelMode = ProcessChannelMode.ForwardedErrorChannel
                ∨ v.caller.m_channelMode = ProcessChannelMode.ForwardedChannels
              then v.caller.m_stderr else v.caller.m_stderr ++ err)
      ∧ (CallerHandle.handleSignal v (LauncherSignal.ReadyReadSignal out err)).emitted
          = v.emitted
            ++ (if (v.caller.m_channelMode = ProcessChannelMode.ForwardedOutputChannel
                    ∨ v.caller.m_channelMode = ProcessChannelMode.ForwardedChannels)
                  ∨ v.caller.m_stdout ++ out = []
                then [] else [Notification.readyReadStandardOutput])
            ++ (if (v.caller.m_channelMode = ProcessChannelMode.ForwardedErrorChannel
                    ∨ v.caller.m_channelMode = ProcessChannelMode.ForwardedChannels)
                  ∨ v.caller.m_stderr ++ err = []
                then [] else [Notification.readyReadStandardError])
      ∧ (CallerHandle.handleSignal v (LauncherSignal.ReadyReadSignal out err)).cout
          = (if v.caller.m_channelMode = ProcessChannelMode.ForwardedOutputChannel
                ∨ v.caller.m_channelMode = ProcessChannelMode.ForwardedChannels
              then v.cout ++ constData out else v.cout)
      ∧ (CallerHandle.handleSignal v (LauncherSignal.ReadyReadSignal out err)).cerr
          = (if v.caller.m_channelMode = ProcessChannelMode.ForwardedErrorChannel
                ∨ v.caller.m_channelMode = ProcessChannelMode.ForwardedChannels
              then v.cerr ++ constData err else v.cerr))
    ∧ (run w [Op.handlePacket (InboundPacket.ReadyReadStandardOutput ⟨a⟩),
        Op.handlePacket (InboundPacket.ReadyReadStandardOutput ⟨b⟩),
        Op.handlePacket (InboundPacket.ReadyReadStandardOutput ⟨c⟩)]).caller.m_signals
      = [LauncherSignal.ReadyReadSignal (a ++ b ++ c) []]
    ∧ (run w [Op.handlePacket (InboundPacket.ReadyReadStandardOutput ⟨a⟩),
        Op.handlePacket (InboundPacket.ReadyReadStandardOutput ⟨b⟩),
        Op.handlePacket (InboundPacket.ReadyReadStandardOutput ⟨c⟩),
        Op.flush]).emitted = w.emitted ++ [Notification.readyReadStandardOutput]
    ∧ (CallerHandle.readAllStandardOutput
        (run w [Op.handlePacket (InboundPacket.ReadyReadStandardOutput ⟨a⟩),
          Op.handlePacket (InboundPacket.ReadyReadStandardOutput ⟨b⟩),
          Op.handlePacket (InboundPacket.ReadyReadStandardOutput ⟨c⟩),
          Op.flush])).1 = a ++ b ++ c :=
  ⟨fun v out err => handleReadyRead_effect v out err,
    three_packets_one_record w a b c peer live empty noOut noErr buffered ha hb hc⟩

/-- Witness for C26: the packets "a", "b", "c" (bytes 97, 98, 99) on the example pair. -/
theorem drain_readyRead_witness :
    (run exampleWorld [Op.handlePacket (InboundPacket.ReadyReadStandardOutput ⟨[97]⟩),
        Op.handlePacket (InboundPacket.ReadyReadStandardOutput ⟨[98]⟩),
        Op.handlePacket (InboundPacket.ReadyReadStandardOutput ⟨[99]⟩)]).caller.m_signals
      = [LauncherSignal.ReadyReadSignal [97, 98, 99] []]
    ∧ (run exampleWorld [Op.handlePacket (InboundPacket.ReadyReadStandardOutput ⟨[97]⟩),
        Op.handlePacket (InboundPacket.ReadyReadStandardOutput ⟨[98]⟩),
        Op.handlePacket (InboundPacket.ReadyReadStandardOutput ⟨[99]⟩),
        Op.flush]).emitted = [Notification.readyReadStandardOutput]
    ∧ (CallerHandle.readAllStandardOutput
        (run exampleWorld [Op.handlePacket (InboundPacket.ReadyReadStandardOutput ⟨[97]⟩),
          Op.handlePacket (InboundPacket.ReadyReadStandardOutput ⟨[98]⟩),
          Op.handlePacket (InboundPacket.ReadyReadStandardOutput ⟨[99]⟩),
          Op.flush])).1 = [97, 98, 99] :=
  (drain_readyRead exampleWorld [97] [98] [99] rfl rfl rfl rfl rfl (by decide) (by decide)
    (by decide) (by decide)).2

/-! ## Waits that are refused -/

/-- C28: the caller-side wait entry point refuses to wait when the state does not admit the
target or the launcher-side peer has been severed: it returns `false` at once, for every
timeout, every queue content and every schedule of launcher events, leaving the whole pair
unchanged (nothing drained, `m_waitingFor` not armed, no time passed).  `waitForStarted` is
refused unless the state is `Starting` (so also in `Running`), `waitForReadyRead` and
`waitForFinished` are refused in `NotRunning`, and every wait is refused without a
launcher-side peer. -/
theorem wait_refused (slots : Slots) (fuel : Nat) (msecs : Int) (w : World) (now : Int)
    (schedule : Schedule) :
    (w.caller.m_processState ≠ ProcessState.Starting →
      CallerHandle.waitForStarted slots fuel msecs w now schedule
        = some ⟨false, w, now, schedule, []⟩)
    ∧ (w.caller.m_processState = ProcessState.NotRunning →
      CallerHandle.waitForReadyRead slots fuel msecs w now schedule
          = some ⟨false, w, now, schedule, []⟩
        ∧ CallerHandle.waitForFinished slots fuel msecs w now schedule
          = some ⟨false, w, now, schedule, []⟩)
    ∧ (w.caller.m_launcherHandle = false →
      ∀ target : SignalType,
        CallerHandle.waitForSignal slots fuel msecs target w now schedule
          = some ⟨false, w, now, schedule, []⟩)
    ∧ (∀ target : SignalType, w.caller.canWaitFor target = false →
        CallerHandle.waitForSignal slots fuel msecs target w now schedule
          = some ⟨false, w, now, schedule, []⟩) := by
  have key : ∀ target : SignalType, w.caller.canWaitFor target = false →
      CallerHandle.waitForSignal slots fuel msecs target w now schedule
        = some ⟨false, w, now, schedule, []⟩ := by
    intro target h
    unfold CallerHandle.waitForSignal
    rw [if_pos (by simp [h])]
  refine ⟨?_, ?_, ?_, key⟩
  · intro h
    exact key SignalType.Started (by simp [CallerHandle.canWaitFor, h])
  · intro h
    exact ⟨key SignalType.ReadyRead (by simp [CallerHandle.canWaitFor, h]),
      key SignalType.Finished (by simp [CallerHandle.canWaitFor, h])⟩
  · intro h target
    unfold CallerHandle.waitForSignal
    split
    · rfl
    · rw [if_pos (by simp [h])]

/-- Witness for C28: with the example pair in state `Running` and a `Started` record already
queued, `waitForStarted` with a timeout of 5000 ms returns `false` and leaves the record
queued, although the helper is about to report the exit. -/
theorem wait_refused_witness :
    CallerHandle.waitForStarted noSlots 5 5000
        { exampleWorld with caller := { exampleCaller with
            m_processState := ProcessState.Running
            m_signals := [LauncherSignal.StartedSignal 1] } } 100
        [(10, LauncherEvent.packet (InboundPacket.ProcessFinished
          ⟨ExitStatus.NormalExit, 0, [], [], ProcessError.UnknownError, ""⟩))]
      = some ⟨false,
          { exampleWorld with caller := { exampleCaller with
            m_processState := ProcessState.Running
            m_signals := [LauncherSignal.StartedSignal 1] } }, 100,
          [(10, LauncherEvent.packet (InboundPacket.ProcessFinished
            ⟨ExitStatus.NormalExit, 0, [], [], ProcessError.UnknownError, ""⟩))], []⟩ :=
  (wait_refused noSlots 5 5000
    { exampleWorld with caller := { exampleCaller with
        m_processState := ProcessState.Running
        m_signals := [LauncherSignal.StartedSignal 1] } } 100
    [(10, LauncherEvent.packet (InboundPacket.ProcessFinished
      ⟨ExitStatus.NormalExit, 0, [], [], ProcessError.UnknownError, ""⟩))]).1 (by decide)

/-! ## A socket error after the process has finished -/

theorem handleError_exitStatus (w : World) (kind : ProcessError) (msg : QString) :
    (CallerHandle.handleError w kind msg).caller.m_exitStatus = w.caller.m_exitStatus := by
  unfold CallerHandle.handleError emit
  simp only []
  split <;> rfl

/-- C29: `handleSocketError` appends the synthetic `Error{FailedToStart, ...}` record to the
queue of every live pair, whatever the process state and whatever was delivered before.  For
an endpoint whose `Finished{status, code}` record has been drained (state `NotRunning`,
`exitCode() == code`, `exitStatus() == status`), a later socket error followed by a drain
emits `errorOccurred(FailedToStart)`, sets `error()` to `FailedToStart` and overwrites
`exitCode()` with 255, while `exitStatus()` is still `status`. -/
theorem socketError_after_finished (w : World) (status : ExitStatus) (code : Int)
    (message : QString)
    (peer : w.launcher.m_callerHandle = true) (live : w.caller.m_launcherHandle = true)
    (empty : w.caller.m_signals = []) :
    (∀ v : World, v.launcher.m_callerHandle = true → v.caller.m_launcherHandle = true →
      (LauncherHandle.handleSocketError v message).caller.m_signals
        = v.caller.m_signals ++ [LauncherSignal.ErrorSignal ProcessError.FailedToStart
            ("Internal socket error: " ++ message)])
    ∧ (CallerHandle.handleSignal w (LauncherSignal.FinishedSignal status code)).caller.m_processState
        = ProcessState.NotRunning
    ∧ (CallerHandle.handleSignal w (LauncherSignal.FinishedSignal status code)).caller.m_exitCode
        = code
    ∧ (CallerHandle.handleSignal w (LauncherSignal.FinishedSignal status code)).caller.m_exitStatus
        = status
    ∧ (CallerHandle.flush (LauncherHandle.handleSocketError
        (CallerHandle.handleSignal w (LauncherSignal.FinishedSignal status code))
        message)).2.emitted
        = w.emitted ++ [Notification.finished code status,
            Notification.errorOccurred ProcessError.FailedToStart]
    ∧ (CallerHandle.flush (LauncherHandle.handleSocketError
        (CallerHandle.handleSignal w (LauncherSignal.FinishedSignal status code))
        message)).2.caller.m_error = ProcessError.FailedToStart
    ∧ (CallerHandle.flush (LauncherHandle.handleSocketError
        (CallerHandle.handleSignal w (LauncherSignal.FinishedSignal status code))
        message)).2.caller.m_exitCode = 255
    ∧ (CallerHandle.flush (LauncherHandle.handleSocketError
        (CallerHandle.handleSignal w (LauncherSignal.FinishedSignal status code))
        message)).2.caller.m_exitStatus = status
    ∧ (CallerHandle.flush (LauncherHandle.handleSocketError
        (CallerHandle.handleSignal w (LauncherSignal.FinishedSignal status code))
        message)).2.caller.m_processState = ProcessState.NotRunning := by
  have s1 : (CallerHandle.handleSignal w
      (LauncherSignal.FinishedSignal status code)).caller.m_processState
      = ProcessState.NotRunning := rfl
  have s2 : (CallerHandle.handleSignal w
      (LauncherSignal.FinishedSignal status code)).caller.m_exitCode = code := rfl
  have s3 : (CallerHandle.handleSignal w
      (LauncherSignal.FinishedSignal status code)).caller.m_exitStatus = status := rfl
  have s4 : (CallerHandle.handleSignal w
      (LauncherSignal.FinishedSignal status code)).emitted
      = w.emitted ++ [Notification.finished code status] := rfl
  have s5 := handleSignal_signals w (LauncherSignal.FinishedSignal status code)
  obtain ⟨-, -, -, s6, s7, -⟩ := handleSignal_frame w (LauncherSignal.FinishedSignal status code)
  generalize CallerHandle.handleSignal w (LauncherSignal.FinishedSignal status code) = u
    at s1 s2 s3 s4 s5 s6 s7
  obtain ⟨hc, he, -, -, -⟩ := handleSocketError_live u message (by rw [s7]; exact peer)
    (s6.trans live)
  refine ⟨fun v p l => by rw [(handleSocketError_live v message p l).1], s1, s2, s3, ?_⟩
  rw [flush_eq, hc]
  simp only [s5, empty, List.nil_append, List.foldl_cons, List.foldl_nil]
  obtain ⟨e1, e2, -, e4, e5, -⟩ := handleError_effect
    { LauncherHandle.handleSocketError u message with
      caller := { u.caller with m_signals := [] } } ProcessError.FailedToStart
    ("Internal socket error: " ++ message)
  have e6 := handleError_exitStatus
    { LauncherHandle.handleSocketError u message with
      caller := { u.caller with m_signals := [] } } ProcessError.FailedToStart
    ("Internal socket error: " ++ message)
  refine ⟨?_, e2, e5 rfl, e6.trans s3, e1⟩
  rw [show w.emitted ++ [Notification.finished code status,
      Notification.errorOccurred ProcessError.FailedToStart]
    = (w.emitted ++ [Notification.finished code status])
      ++ [Notification.errorOccurred ProcessError.FailedToStart] by simp, ← s4, ← he]
  exact e4

/-- Witness for C29: the example pair drains `Finished{NormalExit, 0}`, then a socket error
"broken pipe" arrives and is drained: the exit code is now 255, the exit status still
`NormalExit`. -/
theorem socketError_after_finished_witness :
    (run exampleWorld [Op.handlePacket (InboundPacket.ProcessFinished
          ⟨ExitStatus.NormalExit, 0, [], [], ProcessError.UnknownError, ""⟩),
        Op.flush]).caller.m_exitCode = 0
    ∧ (CallerHandle.flush (LauncherHandle.handleSocketError
        (CallerHandle.handleSignal exampleWorld
          (LauncherSignal.FinishedSignal ExitStatus.NormalExit 0)) "broken pipe")).2.emitted
      = [Notification.finished 0 ExitStatus.NormalExit,
         Notification.errorOccurred ProcessError.FailedToStart]
    ∧ (CallerHandle.flush (LauncherHandle.handleSocketError
        (CallerHandle.handleSignal exampleWorld
          (LauncherSignal.FinishedSignal ExitStatus.NormalExit 0)) "broken pipe")).2.caller.m_exitCode
      = 255
    ∧ (CallerHandle.flush (LauncherHandle.handleSocketError
        (CallerHandle.handleSignal exampleWorld
          (LauncherSignal.FinishedSignal ExitStatus.NormalExit 0))
        "broken pipe")).2.caller.m_exitStatus = ExitStatus.NormalExit :=
  ⟨by decide,
    (socketError_after_finished exampleWorld ExitStatus.NormalExit 0 "broken pipe"
      rfl rfl rfl).2.2.2.2.1,
    (socketError_after_finished exampleWorld ExitStatus.NormalExit 0 "broken pipe"
      rfl rfl rfl).2.2.2.2.2.2.1,
    (socketError_after_finished exampleWorld ExitStatus.NormalExit 0 "broken pipe"
      rfl rfl rfl).2.2.2.2.2.2.2.1⟩

/-! ## A wait that ends with an error -/

/-- One iteration of the loop of `waitForSignal` waiting for `Finished`, without slots, on an
idle live pair with an empty queue, when the next scheduled event is a packet that arrives
before the deadline and leaves the records `q` in the queue: all of `q` is drained in queue
order and its kinds are classified. -/
theorem waitForFinished_drain (deadline : QDeadlineTimer) (fuel : Nat) (w : World)
    (now : Int) (delay : Nat) (packet : InboundPacket) (rest : Schedule)
    (flushed : List SignalType) (q : List LauncherSignal)
    (peer : w.launcher.m_callerHandle = true)
    (live : w.caller.m_launcherHandle = true)
    (idle : w.launcher.m_waitingFor = SignalType.NoSignal)
    (empty : w.caller.m_signals = [])
    (notExpired : deadline.hasExpired (now + delay) = false)
    (queued : (LauncherHandle.handlePacket w packet).caller.m_signals = q) :
    ∃ v u : World, v.launcher.m_callerHandle = true ∧ v.caller.m_launcherHandle = true
      ∧ v.launcher.m_waitingFor = SignalType.NoSignal ∧ v.caller.m_signals = []
      ∧ u.caller = { w.caller with m_signals := [] } ∧ u.emitted = w.emitted
      ∧ v.caller = (q.foldl CallerHandle.handleSignal u).caller
      ∧ v.emitted = (q.foldl CallerHandle.handleSignal u).emitted
      ∧ LauncherHandle.waitLoop noSlots deadline SignalType.Finished (fuel + 1) w now
          ((delay, LauncherEvent.packet packet) :: rest) flushed
        = match LauncherHandle.classify (q.map LauncherSignal.signalType)
            SignalType.Finished false with
          | some r => some ⟨r, v, now + delay, rest, flushed ++ q.map LauncherSignal.signalType⟩
          | none =>
            LauncherHandle.waitLoop noSlots deadline SignalType.Finished fuel v (now + delay)
              rest (flushed ++ q.map LauncherSignal.signalType) := by
  have hexp := hasExpired_earlier deadline now delay notExpired
  have noEligible : w.caller.shouldFlushFor SignalType.Finished = false := by
    simp [CallerHandle.shouldFlushFor, empty]
  have wakes : w.wakeUps < (LauncherHandle.handlePacket
      { w with launcher := { w.launcher with m_waitingFor := SignalType.Finished } }
      packet).wakeUps := by
    rw [handlePacket_wakes_finished _ _ rfl]
    exact Nat.lt_succ_self _
  have hdo := doWaitForSignal_packet deadline SignalType.Finished w now delay packet rest peer
    idle noEligible notExpired wakes
  have hq : (LauncherHandle.handlePacket
      { w with launcher := { w.launcher with m_waitingFor := SignalType.Finished } }
      packet).caller.m_signals = q := by
    rw [← queued]
    exact handlePacket_congr _ _ packet rfl rfl rfl
  have hPc := (handlePacket_frame
    { w with launcher := { w.launcher with m_waitingFor := SignalType.Finished } } packet).2.1
  have hPe := handlePacket_emitted
    { w with launcher := { w.launcher with m_waitingFor := SignalType.Finished } } packet
  generalize LauncherHandle.handlePacket
    { w with launcher := { w.launcher with m_waitingFor := SignalType.Finished } } packet = P
    at hdo hq hPc hPe
  have hlive : P.caller.m_launcherHandle = true :=
    (congrArg CallerHandle.m_launcherHandle hPc).trans live
  rw [LauncherHandle.waitLoop, if_neg (by simp [hexp]), hdo]
  simp only [flushForWith_noSlots]
  have hfr := flushFor_frame
    { P with launcher :=
      { m_token := w.launcher.m_token, m_callerHandle := w.launcher.m_callerHandle,
        m_waitingFor := SignalType.NoSignal, m_awaitingShouldContinue := true,
        m_socketError := w.launcher.m_socketError } } SignalType.Finished
  have hsig := flushFor_signals
    { P with launcher :=
      { m_token := w.launcher.m_token, m_callerHandle := w.launcher.m_callerHandle,
        m_waitingFor := SignalType.NoSignal, m_awaitingShouldContinue := true,
        m_socketError := w.launcher.m_socketError } } SignalType.Finished
  have hkinds : (CallerHandle.flushFor
    { P with launcher :=
      { m_token := w.launcher.m_token, m_callerHandle := w.launcher.m_callerHandle,
        m_waitingFor := SignalType.NoSignal, m_awaitingShouldContinue := true,
        m_socketError := w.launcher.m_socketError } } SignalType.Finished).1
      = q.map LauncherSignal.signalType := by
    simp only [CallerHandle.flushFor, takeFor_finished, hq]
  have hworld : (CallerHandle.flushFor
    { P with launcher :=
      { m_token := w.launcher.m_token, m_callerHandle := w.launcher.m_callerHandle,
        m_waitingFor := SignalType.NoSignal, m_awaitingShouldContinue := true,
        m_socketError := w.launcher.m_socketError } } SignalType.Finished).2
      = q.foldl CallerHandle.handleSignal
          { P with
            launcher :=
              { m_token := w.launcher.m_token, m_callerHandle := w.launcher.m_callerHandle,
                m_waitingFor := SignalType.NoSignal, m_awaitingShouldContinue := true,
                m_socketError := w.launcher.m_socketError }
            caller := { P.caller with m_signals := [] } } := by
    simp only [CallerHandle.flushFor, takeFor_finished, hq]
  generalize CallerHandle.flushFor
    { P with launcher :=
      { m_token := w.launcher.m_token, m_callerHandle := w.launcher.m_callerHandle,
        m_waitingFor := SignalType.NoSignal, m_awaitingShouldContinue := true,
        m_socketError := w.launcher.m_socketError } } SignalType.Finished = D
    at hfr hsig hkinds hworld
  rw [takeFor_finished] at hsig
  obtain ⟨-, -, -, hl, hla, -⟩ := hfr
  refine ⟨{ D.2 with launcher := { D.2.launcher with m_awaitingShouldContinue := false } },
    { P with
      launcher :=
        { m_token := w.launcher.m_token, m_callerHandle := w.launcher.m_callerHandle,
          m_waitingFor := SignalType.NoSignal, m_awaitingShouldContinue := true,
          m_socketError := w.launcher.m_socketError }
      caller := { P.caller with m_signals := [] } },
    ?_, ?_, ?_, ?_, ?_, hPe, ?_, ?_, ?_⟩
  · rw [hla]
    exact peer
  · exact hl.trans hlive
  · rw [hla]
  · exact hsig
  · show ({ P.caller with m_signals := [] } : CallerHandle) = _
    rw [hPc]
  · have e := congrArg World.caller hworld
    exact e
  · have e := congrArg World.emitted hworld
    exact e
  · rw [hkinds, hla]
    simp only [Bool.not_true]


/-- The queue of a live pair with an empty queue after a `ProcessFinished` packet that
carries an error: `Error` first, then the trailing output if any, then `Finished`. -/
theorem handleFinishedPacket_withError (w : World) (pf : ProcessFinishedPacket)
    (peer : w.launcher.m_callerHandle = true) (live : w.caller.m_launcherHandle = true)
    (empty : w.caller.m_signals = [])
    (failed : pf.error ≠ ProcessError.UnknownError) :
    (LauncherHandle.handlePacket w (InboundPacket.ProcessFinished pf)).caller.m_signals
      = LauncherSignal.ErrorSignal pf.error pf.errorString
        :: ((if pf.stdOut = [] ∧ pf.stdErr = [] then []
              else [LauncherSignal.ReadyReadSignal pf.stdOut pf.stdErr])
            ++ [LauncherSignal.FinishedSignal pf.exitStatus pf.exitCode]) := by
  simp only [LauncherHandle.handlePacket]
  rw [handleFinishedPacket_caller w pf peer, if_pos failed]
  have e1 := appendSignal_error w.caller pf.error pf.errorString live
  generalize w.caller.appendSignal (LauncherSignal.ErrorSignal pf.error pf.errorString) = c1
    at e1
  have l1 : c1.m_launcherHandle = true := by rw [e1]; exact live
  have q1 : c1.m_signals = [LauncherSignal.ErrorSignal pf.error pf.errorString] := by
    rw [e1]
    show w.caller.m_signals ++ _ = _
    rw [empty]
    rfl
  by_cases trailing : pf.stdOut = [] ∧ pf.stdErr = []
  · rw [if_pos trailing, if_neg (by simp [trailing.1, trailing.2]),
      appendSignal_notReadyRead c1 _ l1 (by simp [LauncherSignal.signalType])]
    show c1.m_signals ++ _ = _
    rw [q1]
    rfl
  · have e2 := appendSignal_afterOther c1
      (LauncherSignal.ReadyReadSignal pf.stdOut pf.stdErr) l1
      (Or.inr ⟨LauncherSignal.ErrorSignal pf.error pf.errorString, by rw [q1]; rfl,
        by simp [LauncherSignal.signalType]⟩)
    rw [if_neg trailing, if_pos (by
        simp only [List.isEmpty_iff, Bool.or_eq_true, Bool.not_eq_eq_eq_not, Bool.not_true,
          decide_eq_false_iff_not]
        by_contra hc
        exact trailing (by simpa [not_or] using hc))]
    generalize c1.appendSignal (LauncherSignal.ReadyReadSignal pf.stdOut pf.stdErr) = c2 at e2
    have l2 : c2.m_launcherHandle = true := by rw [e2]; exact l1
    have q2 : c2.m_signals = [LauncherSignal.ErrorSignal pf.error pf.errorString,
        LauncherSignal.ReadyReadSignal pf.stdOut pf.stdErr] := by
      rw [e2]
      show c1.m_signals ++ _ = _
      rw [q1]
      rfl
    rw [appendSignal_notReadyRead c2 _ l2 (by simp [LauncherSignal.signalType])]
    show c2.m_signals ++ _ = _
    rw [q2]
    rfl


/-- The wait for `Finished` when the process ends with a `ProcessFinished` packet that
carries an error. -/
theorem waitForFinished_error (fuel : Nat) (msecs : Int) (w : World) (now : Int) (d : Nat)
    (pf : ProcessFinishedPacket)
    (peer : w.launcher.m_callerHandle = true)
    (live : w.caller.m_launcherHandle = true)
    (idle : w.launcher.m_waitingFor = SignalType.NoSignal)
    (empty : w.caller.m_signals = [])
    (running : w.caller.m_processState ≠ ProcessState.NotRunning)
    (sufficient : msecs = -1 ∨ (d : Int) < msecs)
    (failed : pf.error ≠ ProcessError.UnknownError) :
    ∃ (r : WaitResult) (rr : List Notification),
      CallerHandle.waitForFinished noSlots (fuel + 1) msecs w now
          [(d, LauncherEvent.packet (InboundPacket.ProcessFinished pf))] = some r
        ∧ r.result = false
        ∧ r.flushed = SignalType.Error
            :: ((if pf.stdOut = [] ∧ pf.stdErr = [] then [] else [SignalType.ReadyRead])
              ++ [SignalType.Finished])
        ∧ (∀ n ∈ rr, n.kind = SignalType.ReadyRead)
        ∧ r.world.emitted = w.emitted ++ [Notification.errorOccurred pf.error] ++ rr
            ++ [Notification.finished pf.exitCode pf.exitStatus]
        ∧ r.world.caller.m_processState = ProcessState.NotRunning
        ∧ r.world.caller.m_exitCode = pf.exitCode
        ∧ r.world.caller.m_exitStatus = pf.exitStatus := by
  have x1 := ofMsecs_notExpired now msecs (now + d) (by omega)
  have hq := handleFinishedPacket_withError w pf peer live empty failed
  have hcan : w.caller.canWaitFor SignalType.Finished = true := by
    simp [CallerHandle.canWaitFor, running]
  have entry : CallerHandle.waitForFinished noSlots (fuel + 1) msecs w now
      [(d, LauncherEvent.packet (InboundPacket.ProcessFinished pf))]
      = LauncherHandle.waitLoop noSlots (QDeadlineTimer.ofMsecs now msecs) SignalType.Finished
          (fuel + 1) w now [(d, LauncherEvent.packet (InboundPacket.ProcessFinished pf))] [] := by
    simp only [CallerHandle.waitForFinished, CallerHandle.waitForSignal, hcan, live,
      Bool.not_true, Bool.false_eq_true, if_false, LauncherHandle.waitForSignal]
  by_cases trailing : pf.stdOut = [] ∧ pf.stdErr = []
  · rw [if_pos trailing] at hq
    obtain ⟨v, u, -, -, -, -, -, hue, hvc, hve, hloop⟩ := waitForFinished_drain
      (QDeadlineTimer.ofMsecs now msecs) fuel w now d _ [] [] _ peer live idle empty x1 hq
    have hcl : LauncherHandle.classify
        (List.map LauncherSignal.signalType
          (LauncherSignal.ErrorSignal pf.error pf.errorString
            :: ([] ++ [LauncherSignal.FinishedSignal pf.exitStatus pf.exitCode])))
        SignalType.Finished false = some false :=
      (classify_rules _ _ _).1 (by simp [LauncherSignal.signalType])
    rw [hcl] at hloop
    obtain ⟨-, -, -, e4, -, -⟩ := handleError_effect u pf.error pf.errorString
    refine ⟨_, [], entry.trans hloop, rfl, ?_, by simp, ?_, ?_, ?_, ?_⟩
    · simp [if_pos trailing, LauncherSignal.signalType]
    · show v.emitted = _
      rw [hve]
      show (CallerHandle.handleError u pf.error pf.errorString).emitted ++ _ = _
      rw [e4, hue]
      simp
    · show v.caller.m_processState = _
      rw [hvc]
      rfl
    · show v.caller.m_exitCode = _
      rw [hvc]
      rfl
    · show v.caller.m_exitStatus = _
      rw [hvc]
      rfl
  · rw [if_neg trailing] at hq
    obtain ⟨v, u, -, -, -, -, -, hue, hvc, hve, hloop⟩ := waitForFinished_drain
      (QDeadlineTimer.ofMsecs now msecs) fuel w now d _ [] [] _ peer live idle empty x1 hq
    have hcl : LauncherHandle.classify
        (List.map LauncherSignal.signalType
          (LauncherSignal.ErrorSignal pf.error pf.errorString
            :: ([LauncherSignal.ReadyReadSignal pf.stdOut pf.stdErr]
              ++ [LauncherSignal.FinishedSignal pf.exitStatus pf.exitCode])))
        SignalType.Finished false = some false :=
      (classify_rules _ _ _).1 (by simp [LauncherSignal.signalType])
    rw [hcl] at hloop
    obtain ⟨-, -, -, e4, -, -⟩ := handleError_effect u pf.error pf.errorString
    obtain ⟨l, hl, hk, -⟩ := handleSignal_emitted
      (CallerHandle.handleError u pf.error pf.errorString)
      (LauncherSignal.ReadyReadSignal pf.stdOut pf.stdErr)
    refine ⟨_, l, entry.trans hloop, rfl, ?_, hk, ?_, ?_, ?_, ?_⟩
    · simp [if_neg trailing, LauncherSignal.signalType]
    · show v.emitted = _
      rw [hve]
      show (CallerHandle.handleSignal (CallerHandle.handleError u pf.error pf.errorString)
        (LauncherSignal.ReadyReadSignal pf.stdOut pf.stdErr)).emitted ++ _ = _
      rw [hl, e4, hue]
    · show v.caller.m_processState = _
      rw [hvc]
      rfl
    · show v.caller.m_exitCode = _
      rw [hvc]
      rfl
    · show v.caller.m_exitStatus = _
      rw [hvc]
      rfl


/-- C27: `waitForFinished` returns `false` when the process ends with a `ProcessFinished`
packet that carries an error kind other than `UnknownError`: `handleFinishedPacket` queues
`Error` before `Finished`, `flushFor(Finished)` drains both in one call, and the loop returns
`false` on the `Error`, although the `Finished` record was drained and `finished(code,
status)` was emitted in the same drain.  More generally, for every target, a drain whose list
of kinds contains `Error` makes the wait return `false`, also when the list contains the
target and also when the wait was cancelled. -/
theorem wait_false_on_error (fuel : Nat) (msecs : Int) (w : World) (now : Int) (d : Nat)
    (pf : ProcessFinishedPacket)
    (peer : w.launcher.m_callerHandle = true)
    (live : w.caller.m_launcherHandle = true)
    (idle : w.launcher.m_waitingFor = SignalType.NoSignal)
    (empty : w.caller.m_signals = [])
    (running : w.caller.m_processState ≠ ProcessState.NotRunning)
    (sufficient : msecs = -1 ∨ (d : Int) < msecs)
    (failed : pf.error ≠ ProcessError.UnknownError) :
    (∃ (r : WaitResult) (rr : List Notification),
      CallerHandle.waitForFinished noSlots (fuel + 1) msecs w now
          [(d, LauncherEvent.packet (InboundPacket.ProcessFinished pf))] = some r
        ∧ r.result = false
        ∧ r.flushed = SignalType.Error
            :: ((if pf.stdOut = [] ∧ pf.stdErr = [] then [] else [SignalType.ReadyRead])
              ++ [SignalType.Finished])
        ∧ (∀ n ∈ rr, n.kind = SignalType.ReadyRead)
        ∧ r.world.emitted = w.emitted ++ [Notification.errorOccurred pf.error] ++ rr
            ++ [Notification.finished pf.exitCode pf.exitStatus]
        ∧ r.world.caller.m_processState = ProcessState.NotRunning
        ∧ r.world.caller.m_exitCode = pf.exitCode
        ∧ r.world.caller.m_exitStatus = pf.exitStatus)
    ∧ (∀ (L : List SignalType) (target : SignalType) (wasCanceled : Bool),
        SignalType.Error ∈ L → target ∈ L →
        LauncherHandle.classify L target wasCanceled = some false)
    ∧ (∀ (slots : Slots) (deadline : QDeadlineTimer) (target : SignalType) (n : Nat)
        (v : World) (t : Int) (schedule : Schedule) (flushed : List SignalType)
        (v1 : World) (t1 : Int) (rest : Schedule),
        deadline.hasExpired t = false →
        LauncherHandle.doWaitForSignal deadline target v t schedule = some (true, v1, t1, rest) →
        SignalType.Error ∈ (CallerHandle.flushForWith slots
          { v1 with launcher := { v1.launcher with m_awaitingShouldContinue := true } }
          target).1 →
        ∃ r : WaitResult,
          LauncherHandle.waitLoop slots deadline target (n + 1) v t schedule flushed = some r
            ∧ r.result = false
            ∧ r.flushed = flushed ++ (CallerHandle.flushForWith slots
                { v1 with launcher := { v1.launcher with m_awaitingShouldContinue := true } }
                target).1) := by
  refine ⟨waitForFinished_error fuel msecs w now d pf peer live idle empty running sufficient
    failed, fun L target wasCanceled hE _ => (classify_rules L target wasCanceled).1 hE, ?_⟩
  intro slots deadline target n v t schedule flushed v1 t1 rest h hdo hE
  rw [LauncherHandle.waitLoop, if_neg (by simp [h]), hdo]
  simp only []
  rw [(classify_rules _ target _).1 hE]
  exact ⟨_, rfl, rfl, rfl⟩

/-- Witness for C27: the example pair waits for `Finished` with a timeout of 5000 ms; after
10 ms the helper reports `ProcessFinished` with `CrashExit`, code 9 and error `Crashed`.  The
wait returns `false`; `Error` and `Finished` were drained and `errorOccurred(Crashed)` and
`finished(9, CrashExit)` emitted. -/
theorem wait_false_on_error_witness :
    (CallerHandle.waitForFinished noSlots 1 5000 exampleWorld 100
        [(10, LauncherEvent.packet (InboundPacket.ProcessFinished
          ⟨ExitStatus.CrashExit, 9, [], [], ProcessError.Crashed, "crashed"⟩))]).map
        (fun r => (r.result, r.flushed, r.world.emitted))
      = some (false, [SignalType.Error, SignalType.Finished],
          [Notification.errorOccurred ProcessError.Crashed,
           Notification.finished 9 ExitStatus.CrashExit])
    ∧ ∃ (r : WaitResult) (rr : List Notification),
      CallerHandle.waitForFinished noSlots 1 5000 exampleWorld 100
          [(10, LauncherEvent.packet (InboundPacket.ProcessFinished
            ⟨ExitStatus.CrashExit, 9, [], [], ProcessError.Crashed, "crashed"⟩))] = some r
        ∧ r.result = false
        ∧ r.flushed = SignalType.Error
            :: ((if ([] : QByteArray) = [] ∧ ([] : QByteArray) = [] then []
                else [SignalType.ReadyRead]) ++ [SignalType.Finished])
        ∧ (∀ n ∈ rr, n.kind = SignalType.ReadyRead)
        ∧ r.world.emitted = exampleWorld.emitted
            ++ [Notification.errorOccurred ProcessError.Crashed] ++ rr
            ++ [Notification.finished 9 ExitStatus.CrashExit]
        ∧ r.world.caller.m_processState = ProcessState.NotRunning
        ∧ r.world.caller.m_exitCode = 9
        ∧ r.world.caller.m_exitStatus = ExitStatus.CrashExit :=
  ⟨by decide,
    (wait_false_on_error 0 5000 exampleWorld 100 10
      ⟨ExitStatus.CrashExit, 9, [], [], ProcessError.Crashed, "crashed"⟩
      rfl rfl rfl rfl (by decide) (by decide) (by decide)).1⟩

/-! ## Registering and unregistering endpoints -/

theorem lookup_append_entry (l : List (Nat × World)) (k t : Nat) (v : World)
    (absent : l.lookup k = none) :
    (l ++ [(k, v)]).lookup t = if t = k then some v else l.lookup t := by
  induction l with
  | nil =>
    by_cases h : t = k
    · simp [List.lookup, h]
    · have hb : (t == k) = false := by simpa using h
      simp [List.lookup, h, hb]
  | cons e l ih =>
    obtain ⟨a, b⟩ := e
    by_cases ha : k = a
    · subst ha
      simp [List.lookup] at absent
    · have hka : (k == a) = false := by simpa using ha
      have absent1 : l.lookup k = none := by
        simpa [List.lookup, hka] using absent
      by_cases hta : t = a
      · subst hta
        have : ¬ t = k := fun h => ha h.symm
        simp [List.lookup, this]
      · have hb : (t == a) = false := by simpa using hta
        simp only [List.cons_append, List.lookup, hb]
        exact ih absent1

theorem lookup_filter_ne (l : List (Nat × World)) (k t : Nat) :
    (l.filter (fun entry => entry.1 ≠ k)).lookup t = if t = k then none else l.lookup t := by
  induction l with
  | nil => simp [List.lookup]
  | cons e l ih =>
    obtain ⟨a, b⟩ := e
    by_cases hak : a = k
    · subst hak
      by_cases hta : t = a
      · subst hta
        simpa using ih
      · have hb : (t == a) = false := by simpa using hta
        simpa [List.lookup, hb] using ih
    · by_cases hta : t = a
      · subst hta
        simp [List.filter, hak, List.lookup]
      · have hb : (t == a) = false := by simpa using hta
        simpa [List.filter, hak, List.lookup, hb] using ih


/-- C22: `registerHandle(token, mode)` returns null and leaves the multiplexer unchanged when
the token is already a key of the map; when it is not, it returns a caller-side endpoint
paired with a new launcher-side endpoint (each referring to the other, both carrying the
token) and the map afterwards is the old map plus exactly that token.
`unregisterHandle(token)` on a registered token removes exactly that key and nils both
back-references of the pair it hands to `deleteLater`; on an unknown token it changes
nothing. -/
theorem registerHandle_unregisterHandle (s : LauncherSocket) (token : Nat)
    (mode : ProcessMode) :
    ((s.handleForToken token).isSome → s.registerHandle token mode = (none, s))
    ∧ (s.handleForToken token = none →
        ∃ pair : World,
          s.registerHandle token mode
              = (some pair.caller, { s with m_handles := s.m_handles ++ [(token, pair)] })
            ∧ pair.caller.m_launcherHandle = true ∧ pair.launcher.m_callerHandle = true
            ∧ pair.caller.m_token = token ∧ pair.launcher.m_token = token
            ∧ pair.caller.m_processMode = mode
            ∧ (∀ t : Nat, (s.registerHandle token mode).2.handleForToken t
                = if t = token then some pair else s.handleForToken t)
            ∧ (s.registerHandle token mode).2.m_handles.map Prod.fst
                = s.m_handles.map Prod.fst ++ [token])
    ∧ (∀ pair : World, s.handleForToken token = some pair →
        (∀ t : Nat, (s.unregisterHandle token).handleForToken t
          = if t = token then none else s.handleForToken t)
        ∧ (s.unregisterHandle token).m_handles.map Prod.fst
            = (s.m_handles.map Prod.fst).filter (fun t => t ≠ token)
        ∧ (s.unregisterHandle token).deleted
            = s.deleted ++ [{ pair with
                launcher := { pair.launcher with m_callerHandle := false }
                caller := { pair.caller with m_launcherHandle := false } }]
        ∧ (s.unregisterHandle token).m_socket = s.m_socket
        ∧ (s.unregisterHandle token).m_requests = s.m_requests
        ∧ (s.unregisterHandle token).written = s.written
        ∧ (s.unregisterHandle token).postedRequests = s.postedRequests
        ∧ (s.unregisterHandle token).errorOccurred = s.errorOccurred)
    ∧ (s.handleForToken token = none → s.unregisterHandle token = s) := by
  unfold LauncherSocket.handleForToken
  refine ⟨?_, ?_, ?_, ?_⟩
  · intro h
    unfold LauncherSocket.registerHandle
    rw [if_pos h]
  · intro h
    unfold LauncherSocket.registerHandle
    rw [if_neg (by simp [h])]
    refine ⟨{
      caller := { CallerHandle.create token mode with m_launcherHandle := true }
      launcher := { LauncherHandle.create token with m_callerHandle := true }
      isReady := s.isReady
      emitted := []
      sent := []
      cout := []
      cerr := []
      postedFlushes := 0
      wakeUps := 0 }, rfl, rfl, rfl, rfl, rfl, rfl, ?_, ?_⟩
    · intro t
      exact lookup_append_entry s.m_handles token t _ h
    · simp
  · intro pair h
    unfold LauncherSocket.unregisterHandle
    rw [h]
    refine ⟨?_, ?_, rfl, rfl, rfl, rfl, rfl, rfl⟩
    · intro t
      exact lookup_filter_ne s.m_handles token t
    · simp only [List.filter_map]
      congr 1
  · intro h
    unfold LauncherSocket.unregisterHandle
    rw [h]

/-- Witness for C22: token 7 is registered with the example multiplexer; a second
registration of 7 is refused, token 8 is added, and unregistering 7 leaves 8. -/
theorem registerHandle_unregisterHandle_witness :
    (exampleSocket.registerHandle 7 0).2.registerHandle 7 0
      = (none, (exampleSocket.registerHandle 7 0).2)
    ∧ ((exampleSocket.registerHandle 7 0).2.registerHandle 8 0).2.m_handles.map Prod.fst
      = [7, 8]
    ∧ (((exampleSocket.registerHandle 7 0).2.registerHandle 8 0).2.unregisterHandle
        7).m_handles.map Prod.fst = [8]
    ∧ (((exampleSocket.registerHandle 7 0).2.registerHandle 8 0).2.unregisterHandle
        7).deleted.map (fun pair => (pair.caller.m_launcherHandle, pair.launcher.m_callerHandle))
      = [(false, false)] :=
  ⟨(registerHandle_unregisterHandle (exampleSocket.registerHandle 7 0).2 7 0).1 (by decide),
    by decide, by decide, by decide⟩

/-! ## The inbound loop -/

/-- Packets for tokens that are not registered are dropped one after the other. -/
theorem handleSocketDataAvailable_unregistered (s : LauncherSocket) (stream : List ParseResult)
    (unknown : ∀ r ∈ stream, ∃ token content,
      r = ParseResult.packet token content ∧ s.handleForToken token = none) :
    s.handleSocketDataAvailable stream = (s, []) := by
  induction stream with
  | nil => rfl
  | cons r stream ih =>
    obtain ⟨token, content, hr, hnone⟩ := unknown r (List.mem_cons_self _ _)
    subst hr
    rw [LauncherSocket.handleSocketDataAvailable, hnone]
    exact ih (fun r hmem => unknown r (List.mem_cons_of_mem _ hmem))

/-- C23, as amended: in the inbound loop the type of a complete packet is looked at only when
its token is registered.  A packet for a registered token whose type is not one of the five
helper-to-caller types is terminal: the socket is detached, `errorOccurred` is emitted once by
the multiplexer (and `handleSocketError` runs on every registered endpoint), and nothing
after it is parsed.  A packet for an unregistered token is silently dropped, whatever its
type, and parsing continues; a packet of a valid type for a registered token is handed to
that endpoint and parsing continues. -/
theorem inbound_loop (s : LauncherSocket) (token : Nat) (rest : List ParseResult) :
    (∀ (pair : World) (type : Int), s.handleForToken token = some pair →
      s.handleSocketDataAvailable
          (ParseResult.packet token (PacketContent.otherType type) :: rest)
        = (s.handleError
            ("Internal protocol error: invalid packet type " ++ toString type ++ "."), rest))
    ∧ (∀ error : QString,
        (s.handleError error).m_socket = false
        ∧ (s.handleError error).errorOccurred = s.errorOccurred ++ [error]
        ∧ (s.handleError error).m_handles
            = s.m_handles.map (fun entry =>
                (entry.1, LauncherHandle.handleSocketError { entry.2 with isReady := false }
                  error))
        ∧ (s.handleError error).m_requests = s.m_requests
        ∧ (s.handleError error).written = s.written)
    ∧ (s.handleForToken token = none → ∀ content : PacketContent,
        s.handleSocketDataAvailable (ParseResult.packet token content :: rest)
          = s.handleSocketDataAvailable rest)
    ∧ (∀ stream : List ParseResult,
        (∀ r ∈ stream, ∃ t content,
          r = ParseResult.packet t content ∧ s.handleForToken t = none) →
        s.handleSocketDataAvailable stream = (s, []))
    ∧ (∀ (pair : World) (packet : InboundPacket), s.handleForToken token = some pair →
        s.handleSocketDataAvailable
            (ParseResult.packet token (PacketContent.helperToCaller packet) :: rest)
          = (s.setHandle token
              (LauncherHandle.handlePacket pair packet)).handleSocketDataAvailable rest) := by
  refine ⟨?_, ?_, ?_, handleSocketDataAvailable_unregistered s, ?_⟩
  · intro pair type h
    rw [LauncherSocket.handleSocketDataAvailable, h]
  · intro error
    exact ⟨rfl, rfl, rfl, rfl, rfl⟩
  · intro h content
    rw [LauncherSocket.handleSocketDataAvailable, h]
  · intro pair packet h
    rw [LauncherSocket.handleSocketDataAvailable, h]

/-- Witness for C23 as amended: token 7 is registered; a packet of type 0 for token 7 detaches
the socket, emits `errorOccurred`, queues the synthetic error for the endpoint, and leaves the
`ProcessStarted` packet behind it unparsed. -/
theorem inbound_loop_witness :
    ((exampleSocket.registerHandle 7 0).2.handleSocketDataAvailable
        [ParseResult.packet 7 (PacketContent.otherType 0),
          ParseResult.packet 7 (PacketContent.helperToCaller
            (InboundPacket.ProcessStarted ⟨3⟩))])
      = ((exampleSocket.registerHandle 7 0).2.handleError
          ("Internal protocol error: invalid packet type " ++ toString (0 : Int) ++ "."),
        [ParseResult.packet 7 (PacketContent.helperToCaller
          (InboundPacket.ProcessStarted ⟨3⟩))])
    ∧ ((exampleSocket.registerHandle 7 0).2.handleSocketDataAvailable
        [ParseResult.packet 7 (PacketContent.otherType 0),
          ParseResult.packet 7 (PacketContent.helperToCaller
            (InboundPacket.ProcessStarted ⟨3⟩))]).1.m_socket = false
    ∧ ((exampleSocket.registerHandle 7 0).2.handleSocketDataAvailable
        [ParseResult.packet 7 (PacketContent.otherType 0),
          ParseResult.packet 7 (PacketContent.helperToCaller
            (InboundPacket.ProcessStarted ⟨3⟩))]).1.m_handles.map
        (fun entry => entry.2.caller.m_signals.map LauncherSignal.signalType)
      = [[SignalType.Error]] :=
  ⟨(inbound_loop (exampleSocket.registerHandle 7 0).2 7
      [ParseResult.packet 7 (PacketContent.helperToCaller
        (InboundPacket.ProcessStarted ⟨3⟩))]).1
      { caller := { CallerHandle.create 7 0 with m_launcherHandle := true }
        launcher := { LauncherHandle.create 7 with m_callerHandle := true }
        isReady := true
        emitted := []
        sent := []
        cout := []
        cerr := []
        postedFlushes := 0
        wakeUps := 0 } 0 (by decide),
    by decide, by decide⟩

/-- Counterexample for C23: token 7 is registered, token 9 is not.  A complete packet of
type 0 (not one of the five helper-to-caller types) for token 9 is not terminal: the socket
stays attached, `errorOccurred` is not emitted, and the `ProcessStarted` packet behind it is
parsed and handed to the endpoint of token 7. -/
theorem otherType_for_unregistered_token :
    (exampleSocket.registerHandle 7 0).2.handleForToken 9 = none
    ∧ ((exampleSocket.registerHandle 7 0).2.handleSocketDataAvailable
        [ParseResult.packet 9 (PacketContent.otherType 0),
          ParseResult.packet 7 (PacketContent.helperToCaller
            (InboundPacket.ProcessStarted ⟨3⟩))]).1.m_socket = true
    ∧ ((exampleSocket.registerHandle 7 0).2.handleSocketDataAvailable
        [ParseResult.packet 9 (PacketContent.otherType 0),
          ParseResult.packet 7 (PacketContent.helperToCaller
            (InboundPacket.ProcessStarted ⟨3⟩))]).1.errorOccurred = []
    ∧ ((exampleSocket.registerHandle 7 0).2.handleSocketDataAvailable
        [ParseResult.packet 9 (PacketContent.otherType 0),
          ParseResult.packet 7 (PacketContent.helperToCaller
            (InboundPacket.ProcessStarted ⟨3⟩))]).1.m_handles.map
        (fun entry => entry.2.caller.m_signals)
      = [[LauncherSignal.StartedSignal 3]] := by
  decide

/-! ## The queue of pending requests -/

/-- Without a socket, `sendData` drops its argument. -/
theorem sendData_absent (s : LauncherSocket) (fromLaunchersThread : Bool) (data : QByteArray)
    (absent : s.m_socket = false) : s.sendData fromLaunchersThread data = s := by
  unfold LauncherSocket.sendData LauncherSocket.isReady
  rw [if_pos (by simp [absent])]

/-- With a socket and a non-empty pending queue, `sendData` only appends, from any thread. -/
theorem sendData_stale (s : LauncherSocket) (fromLaunchersThread : Bool) (data : QByteArray)
    (present : s.m_socket = true) (stale : s.m_requests ≠ []) :
    s.sendData fromLaunchersThread data = { s with m_requests := s.m_requests ++ [data] } := by
  unfold LauncherSocket.sendData LauncherSocket.isReady
  rw [if_neg (by simp [present])]
  have hl : (s.m_requests ++ [data]).length ≠ 1 := by
    have : 0 < s.m_requests.length := List.length_pos.mpr stale
    simp only [List.length_append, List.length_singleton]
    omega
  simp only []
  rw [if_neg hl]

/-- With a socket and an empty pending queue, `sendData` called from a thread other than the
launcher's queues its argument and posts a drain task. -/
theorem sendData_posted (s : LauncherSocket) (data : QByteArray)
    (present : s.m_socket = true) (nothingPending : s.m_requests = []) :
    s.sendData false data
      = { s with m_requests := [data], postedRequests := s.postedRequests + 1 } := by
  unfold LauncherSocket.sendData LauncherSocket.isReady
  rw [if_neg (by simp [present])]
  simp [nothingPending]

/-- With a socket and an empty pending queue, `sendData` called from the launcher's thread
runs `handleRequests` at once: its argument is written and nothing is pending or posted. -/
theorem sendData_direct (s : LauncherSocket) (data : QByteArray)
    (present : s.m_socket = true) (nothingPending : s.m_requests = []) :
    s.sendData true data = { s with written := s.written ++ [data], m_requests := [] } := by
  unfold LauncherSocket.sendData LauncherSocket.isReady LauncherSocket.handleRequests
  rw [if_neg (by simp [present])]
  simp [nothingPending, present]

theorem requestStep_invariant (s : LauncherSocket) (op : RequestOp)
    (present : s.m_socket = true)
    (covered : s.m_requests ≠ [] → 0 < s.postedRequests) :
    (s.requestStep op).m_socket = true
      ∧ ((s.requestStep op).m_requests ≠ [] → 0 < (s.requestStep op).postedRequests)
      ∧ (s.requestStep op).written ++ (s.requestStep op).m_requests
          = s.written ++ s.m_requests ++ requestedData [op]
      ∧ (s.requestStep op).m_handles = s.m_handles
      ∧ (s.requestStep op).errorOccurred = s.errorOccurred := by
  cases op with
  | sendData fromLaunchersThread data =>
    simp only [LauncherSocket.requestStep, requestedData]
    by_cases h : s.m_requests = []
    · cases fromLaunchersThread with
      | false =>
        rw [sendData_posted s data present h]
        exact ⟨present, fun _ => Nat.succ_pos _, by simp [h], rfl, rfl⟩
      | true =>
        rw [sendData_direct s data present h]
        exact ⟨present, fun hne => absurd rfl hne, by simp [h], rfl, rfl⟩
    · rw [sendData_stale s fromLaunchersThread data present h]
      exact ⟨present, fun _ => covered h, by simp, rfl, rfl⟩
  | runPostedRequests =>
    simp only [LauncherSocket.requestStep, requestedData, LauncherSocket.runPostedRequests]
    by_cases h0 : s.postedRequests = 0
    · rw [if_pos h0]
      exact ⟨present, covered, by simp, rfl, rfl⟩
    · rw [if_neg h0]
      unfold LauncherSocket.handleRequests
      rw [if_neg (by simp [present])]
      exact ⟨present, fun h => absurd rfl h, by simp, rfl, rfl⟩

theorem requestSteps_invariant (ops : List RequestOp) (s : LauncherSocket)
    (present : s.m_socket = true)
    (covered : s.m_requests ≠ [] → 0 < s.postedRequests) :
    (ops.foldl LauncherSocket.requestStep s).m_socket = true
      ∧ ((ops.foldl LauncherSocket.requestStep s).m_requests ≠ [] →
          0 < (ops.foldl LauncherSocket.requestStep s).postedRequests)
      ∧ (ops.foldl LauncherSocket.requestStep s).written
            ++ (ops.foldl LauncherSocket.requestStep s).m_requests
          = s.written ++ s.m_requests ++ requestedData ops
      ∧ (ops.foldl LauncherSocket.requestStep s).m_handles = s.m_handles
      ∧ (ops.foldl LauncherSocket.requestStep s).errorOccurred = s.errorOccurred := by
  induction ops generalizing s with
  | nil => exact ⟨present, covered, by simp [requestedData], rfl, rfl⟩
  | cons op ops ih =>
    obtain ⟨p1, q1, w1, h1, e1⟩ := requestStep_invariant s op present covered
    obtain ⟨p2, q2, w2, h2, e2⟩ := ih (s.requestStep op) p1 q1
    refine ⟨p2, q2, ?_, h2.trans h1, e2.trans e1⟩
    rw [List.foldl_cons, w2, w1]
    cases op <;> simp [requestedData]

/-- C24, as amended: while the socket is present, starting from a state in which the pending
queue is empty or a drain task is posted for it, for every sequence of `sendData(b1)`, ...,
`sendData(bn)` calls from any threads interleaved with runs of posted drain tasks, what has
been written to the socket followed by what is still pending is what was written and pending
before followed by `b1, ..., bn` in call order, each once; when no posted task is left to
run, all of it has been written.  A `sendData` call that finds the pending queue empty
triggers `handleRequests`: called from another thread it posts a drain task, called from the
launcher's thread it runs the drain at once and posts nothing; a call that finds the queue
non-empty only appends.  When the socket is absent (never set, or after `shutdown`, or after
`handleError` has emitted `errorOccurred`) `sendData` drops its argument: the multiplexer is
unchanged, so the pending queue is unchanged and no task is posted. -/
theorem sendData_in_order (s : LauncherSocket) (ops : List RequestOp)
    (present : s.m_socket = true)
    (covered : s.m_requests ≠ [] → 0 < s.postedRequests) :
    (ops.foldl LauncherSocket.requestStep s).written
        ++ (ops.foldl LauncherSocket.requestStep s).m_requests
      = s.written ++ s.m_requests ++ requestedData ops
    ∧ ((ops.foldl LauncherSocket.requestStep s).postedRequests = 0 →
        (ops.foldl LauncherSocket.requestStep s).written
            = s.written ++ s.m_requests ++ requestedData ops
        ∧ (ops.foldl LauncherSocket.requestStep s).m_requests = [])
    ∧ (∀ (v : LauncherSocket) (data : QByteArray), v.m_socket = true → v.m_requests = [] →
        v.sendData false data
            = { v with m_requests := [data], postedRequests := v.postedRequests + 1 }
        ∧ v.sendData true data
            = { v with written := v.written ++ [data], m_requests := [] })
    ∧ (∀ (v : LauncherSocket) (fromLaunchersThread : Bool) (data : QByteArray),
        v.m_socket = true → v.m_requests ≠ [] →
        v.sendData fromLaunchersThread data
          = { v with m_requests := v.m_requests ++ [data] })
    ∧ (∀ (v : LauncherSocket) (fromLaunchersThread : Bool) (data : QByteArray),
        v.m_socket = false → v.sendData fromLaunchersThread data = v)
    ∧ (∀ (v : LauncherSocket) (error : QString) (fromLaunchersThread : Bool)
        (data : QByteArray),
        (v.handleError error).sendData fromLaunchersThread data = v.handleError error)
    ∧ (∀ (v : LauncherSocket) (shutdownBytes : QByteArray) (fromLaunchersThread : Bool)
        (data : QByteArray),
        (v.shutdown shutdownBytes).sendData fromLaunchersThread data
          = v.shutdown shutdownBytes) := by
  obtain ⟨-, posted, total, -, -⟩ := requestSteps_invariant ops s present covered
  refine ⟨total, ?_, ?_, ?_, sendData_absent, ?_, ?_⟩
  · intro h0
    have hq : (ops.foldl LauncherSocket.requestStep s).m_requests = [] := by
      by_contra hne
      have := posted hne
      omega
    rw [hq, List.append_nil] at total
    exact ⟨total, hq⟩
  · intro v data hv hq
    exact ⟨sendData_posted v data hv hq, sendData_direct v data hv hq⟩
  · intro v fromLaunchersThread data hv hq
    exact sendData_stale v fromLaunchersThread data hv hq
  · intro v error fromLaunchersThread data
    exact sendData_absent _ fromLaunchersThread data rfl
  · intro v shutdownBytes fromLaunchersThread data
    apply sendData_absent
    unfold LauncherSocket.shutdown
    by_cases h : v.m_socket = true
    · rw [if_neg (by simp [h])]
    · rw [if_pos (by simp [h])]
      simpa using h

/-- Witness for C24 as amended: on the example multiplexer (nothing pending) `sendData` is
called with `[1]` from a caller's thread and with `[2]` from the launcher's thread, the posted
task runs, then `[3]` is sent from the launcher's thread and `[4]` from a caller's thread, and
the second posted task runs: `[1]`, `[2]`, `[3]`, `[4]` have been written in this order and
nothing is pending. -/
theorem sendData_in_order_witness :
    ([RequestOp.sendData false [1], RequestOp.sendData true [2], RequestOp.runPostedRequests,
        RequestOp.sendData true [3], RequestOp.sendData false [4],
        RequestOp.runPostedRequests].foldl LauncherSocket.requestStep exampleSocket).written
      = exampleSocket.written ++ exampleSocket.m_requests
        ++ requestedData [RequestOp.sendData false [1], RequestOp.sendData true [2],
            RequestOp.runPostedRequests, RequestOp.sendData true [3],
            RequestOp.sendData false [4], RequestOp.runPostedRequests]
    ∧ ([RequestOp.sendData false [1], RequestOp.sendData true [2], RequestOp.runPostedRequests,
        RequestOp.sendData true [3], RequestOp.sendData false [4],
        RequestOp.runPostedRequests].foldl LauncherSocket.requestStep exampleSocket).m_requests
      = []
    ∧ ([RequestOp.sendData false [1], RequestOp.sendData true [2], RequestOp.runPostedRequests,
        RequestOp.sendData true [3], RequestOp.sendData false [4],
        RequestOp.runPostedRequests].foldl LauncherSocket.requestStep exampleSocket).written
      = [[1], [2], [3], [4]] :=
  ⟨((sendData_in_order exampleSocket [RequestOp.sendData false [1],
      RequestOp.sendData true [2], RequestOp.runPostedRequests, RequestOp.sendData true [3],
      RequestOp.sendData false [4], RequestOp.runPostedRequests]
      rfl (fun h => absurd rfl h)).2.1 (by decide)).1,
    ((sendData_in_order exampleSocket [RequestOp.sendData false [1],
      RequestOp.sendData true [2], RequestOp.runPostedRequests, RequestOp.sendData true [3],
      RequestOp.sendData false [4], RequestOp.runPostedRequests]
      rfl (fun h => absurd rfl h)).2.1 (by decide)).2,
    by decide⟩

/-- Counterexample for C24.  First: `sendData([1])` from a caller's thread posts a drain
task, a socket error removes the socket, the task runs without a socket, and `setSocket`
brings a socket back; the socket is present, yet after `sendData([2])`, a run of the drain
task, `sendData([3])` and another run nothing has been written, no task is posted, and
`[1]`, `[2]`, `[3]` are pending.  Second: `sendData([9])` from the launcher's thread on the
example multiplexer finds the pending queue empty and posts no drain task; the bytes are
written at once. -/
theorem sendData_not_written :
    ((((exampleSocket.sendData false [1]).handleError "x").runPostedRequests).setSocket
        (fun _ => [])).m_socket = true
    ∧ ([RequestOp.sendData false [2], RequestOp.runPostedRequests,
        RequestOp.sendData true [3], RequestOp.runPostedRequests].foldl
        LauncherSocket.requestStep
        ((((exampleSocket.sendData false [1]).handleError "x").runPostedRequests).setSocket
          (fun _ => []))).written = []
    ∧ ([RequestOp.sendData false [2], RequestOp.runPostedRequests,
        RequestOp.sendData true [3], RequestOp.runPostedRequests].foldl
        LauncherSocket.requestStep
        ((((exampleSocket.sendData false [1]).handleError "x").runPostedRequests).setSocket
          (fun _ => []))).m_requests = [[1], [2], [3]]
    ∧ ([RequestOp.sendData false [2], RequestOp.runPostedRequests,
        RequestOp.sendData true [3], RequestOp.runPostedRequests].foldl
        LauncherSocket.requestStep
        ((((exampleSocket.sendData false [1]).handleError "x").runPostedRequests).setSocket
          (fun _ => []))).postedRequests = 0
    ∧ exampleSocket.m_requests = []
    ∧ (exampleSocket.sendData true [9]).postedRequests = exampleSocket.postedRequests
    ∧ (exampleSocket.sendData true [9]).written = [[9]] := by
  decide

/-- The `StartProcess` packet an endpoint stashed while there was no socket is sent inside the
`ready` signal of `setSocket`, that is from the launcher's thread: it is written at once and
no drain task is posted.  Here token 7 is registered without a socket, `start()` stashes the
packet and `setSocket` follows; every packet is serialized as `[1]`. -/
theorem setSocket_writes_stashed_start :
    (LauncherSocket.setSocket (fun _ => [1])
        { (LauncherSocket.registerHandle { exampleSocket with m_socket := false } 7 0).2 with
          m_handles :=
            (LauncherSocket.registerHandle { exampleSocket with m_socket := false }
              7 0).2.m_handles.map
              (fun entry => (entry.1, step entry.2 (Op.start "ls" [] []))) }).written = [[1]]
    ∧ (LauncherSocket.setSocket (fun _ => [1])
        { (LauncherSocket.registerHandle { exampleSocket with m_socket := false } 7 0).2 with
          m_handles :=
            (LauncherSocket.registerHandle { exampleSocket with m_socket := false }
              7 0).2.m_handles.map
              (fun entry => (entry.1, step entry.2 (Op.start "ls" [] []))) }).m_requests = []
    ∧ (LauncherSocket.setSocket (fun _ => [1])
        { (LauncherSocket.registerHandle { exampleSocket with m_socket := false } 7 0).2 with
          m_handles :=
            (LauncherSocket.registerHandle { exampleSocket with m_socket := false }
              7 0).2.m_handles.map
              (fun entry => (entry.1, step entry.2 (Op.start "ls" [] []))) }).postedRequests
      = 0 := by
  decide

/-! ## A drain task that runs without a socket -/

theorem handleRequests_absent (s : LauncherSocket) (absent : s.m_socket = false) :
    s.handleRequests = s := by
  unfold LauncherSocket.handleRequests
  rw [if_pos (by simp [absent])]

theorem forward_stale (serialize : LauncherPacket → QByteArray) (packets : List LauncherPacket)
    (s : LauncherSocket) (present : s.m_socket = true) (stale : s.m_requests ≠ []) :
    LauncherSocket.forward serialize s packets
      = { s with m_requests := s.m_requests ++ packets.map serialize } := by
  induction packets generalizing s with
  | nil => simp [LauncherSocket.forward]
  | cons p packets ih =>
    have h := ih (s.sendData true (serialize p))
      (by rw [sendData_stale s true _ present stale]; exact present)
      (by rw [sendData_stale s true _ present stale]; simp)
    unfold LauncherSocket.forward at h ⊢
    rw [List.foldl_cons, h, sendData_stale s true _ present stale]
    simp

/-- Delivering `ready` to a list of endpoints while stale requests are pending only appends
to the pending queue. -/
theorem emitReady_stale (serialize : LauncherPacket → QByteArray)
    (entries : List (Nat × World)) (s : LauncherSocket)
    (present : s.m_socket = true) (stale : s.m_requests ≠ []) :
    ∃ started : List QByteArray,
      (entries.foldl
        (fun acc entry =>
          LauncherSocket.forward serialize (acc.setHandle entry.1 (step entry.2 Op.socketReady))
            ((step entry.2 Op.socketReady).sent.drop entry.2.sent.length)) s).m_requests
          = s.m_requests ++ started
      ∧ (entries.foldl
        (fun acc entry =>
          LauncherSocket.forward serialize (acc.setHandle entry.1 (step entry.2 Op.socketReady))
            ((step entry.2 Op.socketReady).sent.drop entry.2.sent.length)) s).m_socket = true
      ∧ (entries.foldl
        (fun acc entry =>
          LauncherSocket.forward serialize (acc.setHandle entry.1 (step entry.2 Op.socketReady))
            ((step entry.2 Op.socketReady).sent.drop entry.2.sent.length)) s).written
          = s.written
      ∧ (entries.foldl
        (fun acc entry =>
          LauncherSocket.forward serialize (acc.setHandle entry.1 (step entry.2 Op.socketReady))
            ((step entry.2 Op.socketReady).sent.drop entry.2.sent.length)) s).postedRequests
          = s.postedRequests := by
  induction entries generalizing s with
  | nil => exact ⟨[], by simp, present, rfl, rfl⟩
  | cons entry entries ih =>
    rw [List.foldl_cons]
    have hf := forward_stale serialize
      ((step entry.2 Op.socketReady).sent.drop entry.2.sent.length)
      (s.setHandle entry.1 (step entry.2 Op.socketReady)) present stale
    generalize LauncherSocket.forward serialize
      (s.setHandle entry.1 (step entry.2 Op.socketReady))
      ((step entry.2 Op.socketReady).sent.drop entry.2.sent.length) = s1 at hf
    have p1 : s1.m_socket = true := by rw [hf]; exact present
    have q1 : s1.m_requests = s.m_requests
        ++ ((step entry.2 Op.socketReady).sent.drop entry.2.sent.length).map serialize := by
      rw [hf]
      rfl
    have w1 : s1.written = s.written := by rw [hf]; rfl
    have n1 : s1.postedRequests = s.postedRequests := by rw [hf]; rfl
    obtain ⟨started, h1, h2, h3, h4⟩ := ih s1 p1 (by rw [q1]; simp [stale])
    exact ⟨((step entry.2 Op.socketReady).sent.drop entry.2.sent.length).map serialize
      ++ started, by rw [h1, q1, List.append_assoc], h2, h3.trans w1, h4.trans n1⟩

/-- With a socket, stale requests pending and no drain task posted, no sequence of `sendData`
calls (from any thread) and runs of posted tasks writes anything. -/
theorem requestSteps_stale (ops : List RequestOp) (s : LauncherSocket)
    (present : s.m_socket = true) (stale : s.m_requests ≠ [])
    (nonePosted : s.postedRequests = 0) :
    (ops.foldl LauncherSocket.requestStep s).written = s.written
      ∧ (ops.foldl LauncherSocket.requestStep s).postedRequests = 0
      ∧ (ops.foldl LauncherSocket.requestStep s).m_requests
          = s.m_requests ++ requestedData ops := by
  induction ops generalizing s with
  | nil => exact ⟨rfl, nonePosted, by simp [requestedData]⟩
  | cons op ops ih =>
    rw [List.foldl_cons]
    cases op with
    | sendData fromLaunchersThread data =>
      have hs := sendData_stale s fromLaunchersThread data present stale
      simp only [LauncherSocket.requestStep]
      obtain ⟨h1, h2, h3⟩ := ih (s.sendData fromLaunchersThread data)
        (by rw [hs]; exact present)
        (by rw [hs]; simp) (by rw [hs]; exact nonePosted)
      refine ⟨h1.trans (by rw [hs]), h2, ?_⟩
      rw [h3, hs]
      simp [requestedData]
    | runPostedRequests =>
      have hs : s.runPostedRequests = s := by
        unfold LauncherSocket.runPostedRequests
        rw [if_pos nonePosted]
      simp only [LauncherSocket.requestStep]
      rw [hs]
      obtain ⟨h1, h2, h3⟩ := ih s present stale nonePosted
      exact ⟨h1, h2, by rw [h3]; simp [requestedData]⟩


/-- Neither `sendData` nor a posted drain task touches the socket. -/
theorem requestSteps_socket (ops : List RequestOp) (s : LauncherSocket) :
    (ops.foldl LauncherSocket.requestStep s).m_socket = s.m_socket := by
  induction ops generalizing s with
  | nil => rfl
  | cons op ops ih =>
    rw [List.foldl_cons, ih]
    cases op with
    | sendData fromLaunchersThread data =>
      simp only [LauncherSocket.requestStep, LauncherSocket.sendData,
        LauncherSocket.handleRequests]
      (repeat' split) <;> rfl
    | runPostedRequests =>
      simp only [LauncherSocket.requestStep, LauncherSocket.runPostedRequests,
        LauncherSocket.handleRequests]
      (repeat' split) <;> rfl

/-- C30: a drain task `handleRequests` that runs while the socket is absent writes nothing and
leaves the pending queue as it is (it is not cleared).  Consequently, when requests were
enqueued (one drain task posted) and the socket was removed before the task ran, the queue
is still non-empty after the task has run, and after a later `setSocket` every `sendData`
finds the queue non-empty and posts no drain task: whatever `sendData` calls follow, from
any thread, nothing is written, neither the stale requests nor the packets sent on `ready` nor the new requests,
until some other call runs `handleRequests`, which then writes all of them in order. -/
theorem handleRequests_without_socket (serialize : LauncherPacket → QByteArray)
    (s : LauncherSocket) (ops : List RequestOp)
    (absent : s.m_socket = false) (stale : s.m_requests ≠ [])
    (onePosted : s.postedRequests = 1) :
    s.handleRequests = s
    ∧ s.runPostedRequests = { s with postedRequests := 0 }
    ∧ (s.runPostedRequests.setSocket serialize).m_socket = true
    ∧ (s.runPostedRequests.setSocket serialize).postedRequests = 0
    ∧ (s.runPostedRequests.setSocket serialize).written = s.written
    ∧ ∃ started : List QByteArray,
        (s.runPostedRequests.setSocket serialize).m_requests = s.m_requests ++ started
        ∧ (ops.foldl LauncherSocket.requestStep
            (s.runPostedRequests.setSocket serialize)).written = s.written
        ∧ (ops.foldl LauncherSocket.requestStep
            (s.runPostedRequests.setSocket serialize)).postedRequests = 0
        ∧ (ops.foldl LauncherSocket.requestStep
            (s.runPostedRequests.setSocket serialize)).m_requests
            = s.m_requests ++ started ++ requestedData ops
        ∧ (ops.foldl LauncherSocket.requestStep
            (s.runPostedRequests.setSocket serialize)).handleRequests.written
            = s.written ++ (s.m_requests ++ started ++ requestedData ops)
        ∧ (ops.foldl LauncherSocket.requestStep
            (s.runPostedRequests.setSocket serialize)).handleRequests.m_requests = [] := by
  have hrun : s.runPostedRequests = { s with postedRequests := 0 } := by
    unfold LauncherSocket.runPostedRequests
    rw [if_neg (by omega),
      handleRequests_absent { s with postedRequests := s.postedRequests - 1 } absent, onePosted]
  obtain ⟨started, h1, h2, h3, h4⟩ := emitReady_stale serialize s.m_handles
    { s with postedRequests := 0, m_socket := true, readyEmitted := s.readyEmitted + 1 }
    rfl stale
  have hset : s.runPostedRequests.setSocket serialize
      = s.m_handles.foldl
        (fun acc entry =>
          LauncherSocket.forward serialize (acc.setHandle entry.1 (step entry.2 Op.socketReady))
            ((step entry.2 Op.socketReady).sent.drop entry.2.sent.length))
        { s with postedRequests := 0, m_socket := true, readyEmitted := s.readyEmitted + 1 } := by
    rw [hrun]
    unfold LauncherSocket.setSocket
    rw [if_neg (by simp [absent])]
    rfl
  rw [← hset] at h1 h2 h3 h4
  generalize s.runPostedRequests.setSocket serialize = s2 at h1 h2 h3 h4
  have stale2 : s2.m_requests ≠ [] := by rw [h1]; simp [stale]
  obtain ⟨k1, k2, k3⟩ := requestSteps_stale ops s2 h2 stale2 h4
  have k5 : (ops.foldl LauncherSocket.requestStep s2).m_socket = true :=
    (requestSteps_socket ops s2).trans h2
  refine ⟨handleRequests_absent s absent, hrun, h2, h4, h3, started, h1, k1.trans h3, k2, ?_,
    ?_, ?_⟩
  · rw [k3, h1]
  · unfold LauncherSocket.handleRequests
    rw [if_neg (by simp [k5])]
    show (ops.foldl LauncherSocket.requestStep s2).written
      ++ (ops.foldl LauncherSocket.requestStep s2).m_requests = _
    rw [k1, k3, h1, h3]
  · unfold LauncherSocket.handleRequests
    rw [if_neg (by simp [k5])]


/-- Witness for C30: `sendData([1])` on the example multiplexer posts a drain task; a socket
error removes the socket before the task runs; the task then writes nothing and leaves `[1]`
pending; after `setSocket`, `sendData([2])` posts no task, and nothing is written. -/
theorem handleRequests_without_socket_witness :
    ((exampleSocket.sendData false [1]).handleError "x").handleRequests
      = (exampleSocket.sendData false [1]).handleError "x"
    ∧ (((exampleSocket.sendData false [1]).handleError "x").runPostedRequests).m_requests
      = [[1]]
    ∧ ([RequestOp.sendData false [2], RequestOp.runPostedRequests].foldl
        LauncherSocket.requestStep
        ((((exampleSocket.sendData false [1]).handleError "x").runPostedRequests).setSocket
          (fun _ => []))).written = []
    ∧ ([RequestOp.sendData false [2], RequestOp.runPostedRequests].foldl
        LauncherSocket.requestStep
        ((((exampleSocket.sendData false [1]).handleError "x").runPostedRequests).setSocket
          (fun _ => []))).m_requests = [[1], [2]]
    ∧ ([RequestOp.sendData false [2], RequestOp.runPostedRequests].foldl
        LauncherSocket.requestStep
        ((((exampleSocket.sendData false [1]).handleError "x").runPostedRequests).setSocket
          (fun _ => []))).postedRequests = 0 :=
  ⟨(handleRequests_without_socket (fun _ => [])
      ((exampleSocket.sendData false [1]).handleError "x")
      [RequestOp.sendData false [2], RequestOp.runPostedRequests] rfl (by decide) rfl).1,
    by decide, by decide, by decide, by decide⟩

/-! ## Round trip of the packet codec -/

theorem encodeLittleEndian_length (width n : Nat) :
    (encodeLittleEndian width n).length = width := by
  induction width generalizing n with
  | zero => rfl
  | succ width ih => simp [encodeLittleEndian, ih]

theorem decode_encodeLittleEndian (width n : Nat) (fits : n < 256 ^ width) :
    decodeLittleEndian (encodeLittleEndian width n) = n := by
  induction width generalizing n with
  | zero =>
    simp only [pow_zero, Nat.lt_one_iff] at fits
    simp [encodeLittleEndian, decodeLittleEndian, fits]
  | succ width ih =>
    have h : n / 256 < 256 ^ width := by
      rw [Nat.div_lt_iff_lt_mul (by norm_num)]
      rw [pow_succ] at fits
      exact fits
    simp only [encodeLittleEndian, decodeLittleEndian, ih (n / 256) h]
    omega

theorem encodeUInt_length (order : ByteOrder) (width n : Nat) :
    (encodeUInt order width n).length = width := by
  cases order <;> simp [encodeUInt, encodeLittleEndian_length]

theorem decode_encodeUInt (order : ByteOrder) (width n : Nat) (fits : n < 256 ^ width) :
    decodeUInt order (encodeUInt order width n) = n := by
  cases order <;> simp [encodeUInt, decodeUInt, decode_encodeLittleEndian width n fits]

/-- Parsing a stream that starts with the frame of a well-formed packet yields the packet and
the bytes behind the frame. -/
theorem parse_serialize_append (layout : FrameLayout) (p : Packet) (tail : QByteArray)
    (wellFormed : p.WellFormed layout) :
    PacketParser.parse layout (p.serialize layout ++ tail) = ParseOutcome.packet p tail := by
  obtain ⟨_, htoken, hsize, hcap⟩ := wellFormed
  have hlen := encodeUInt_length layout.lengthOrder 4 (layout.headerSize + p.payload.length)
  have htl := encodeUInt_length layout.tokenOrder layout.tokenWidth p.token
  have hdec := decode_encodeUInt layout.lengthOrder 4 (layout.headerSize + p.payload.length)
    hsize
  have htok := decode_encodeUInt layout.tokenOrder layout.tokenWidth p.token htoken
  have hs : p.serialize layout ++ tail
      = encodeUInt layout.lengthOrder 4 (layout.headerSize + p.payload.length)
        ++ ([p.type] ++ (List.replicate layout.reserved 0
          ++ (encodeUInt layout.tokenOrder layout.tokenWidth p.token
            ++ (p.payload ++ tail)))) := by
    simp [Packet.serialize]
  rw [hs]
  generalize encodeUInt layout.lengthOrder 4 (layout.headerSize + p.payload.length) = L
    at hlen hdec
  generalize encodeUInt layout.tokenOrder layout.tokenWidth p.token = T at htl htok
  have hH : layout.headerSize = 4 + 1 + layout.reserved + layout.tokenWidth := rfl
  have total : (L ++ ([p.type] ++ (List.replicate layout.reserved 0
      ++ (T ++ (p.payload ++ tail))))).length
      = layout.headerSize + p.payload.length + tail.length := by
    simp only [List.length_append, List.length_singleton, List.length_replicate, hlen, htl, hH]
    omega
  have t4 : (L ++ ([p.type] ++ (List.replicate layout.reserved 0
      ++ (T ++ (p.payload ++ tail))))).take 4 = L := List.take_left' hlen
  have d4 : (L ++ ([p.type] ++ (List.replicate layout.reserved 0
      ++ (T ++ (p.payload ++ tail))))).drop 4
      = [p.type] ++ (List.replicate layout.reserved 0 ++ (T ++ (p.payload ++ tail))) :=
    List.drop_left' hlen
  have d5 : (L ++ ([p.type] ++ (List.replicate layout.reserved 0
      ++ (T ++ (p.payload ++ tail))))).drop (4 + 1 + layout.reserved)
      = T ++ (p.payload ++ tail) := by
    have e : L ++ ([p.type] ++ (List.replicate layout.reserved 0 ++ (T ++ (p.payload ++ tail))))
        = (L ++ [p.type] ++ List.replicate layout.reserved 0) ++ (T ++ (p.payload ++ tail)) := by
      simp
    rw [e]
    exact List.drop_left' (by simp [hlen]; omega)
  have dH : (L ++ ([p.type] ++ (List.replicate layout.reserved 0
      ++ (T ++ (p.payload ++ tail))))).drop layout.headerSize = p.payload ++ tail := by
    have e : L ++ ([p.type] ++ (List.replicate layout.reserved 0 ++ (T ++ (p.payload ++ tail))))
        = (L ++ [p.type] ++ List.replicate layout.reserved 0 ++ T) ++ (p.payload ++ tail) := by
      simp
    rw [e]
    exact List.drop_left' (by simp [hlen, htl, hH]; omega)
  have dS : (L ++ ([p.type] ++ (List.replicate layout.reserved 0
      ++ (T ++ (p.payload ++ tail))))).drop (layout.headerSize + p.payload.length) = tail := by
    have e : L ++ ([p.type] ++ (List.replicate layout.reserved 0 ++ (T ++ (p.payload ++ tail))))
        = (L ++ [p.type] ++ List.replicate layout.reserved 0 ++ T ++ p.payload) ++ tail := by
      simp
    rw [e]
    exact List.drop_left' (by simp [hlen, htl, hH]; omega)
  generalize L ++ ([p.type] ++ (List.replicate layout.reserved 0
      ++ (T ++ (p.payload ++ tail)))) = stream at total t4 d4 d5 dH dS
  unfold PacketParser.parse
  rw [if_neg (by omega)]
  simp only [t4, hdec]
  rw [if_neg (by omega), if_neg (by omega), d4, d5, dH, dS, List.take_left' htl]
  simp [htok]

end Internal
end Utils
